import Mathlib

/-!
# gomeboycolor: the LR35902 CPU interpreter of `z80.go`

A shallow embedding of the CPU core.  Go's `byte` and `Word` (`uint16`) are
natural numbers; every arithmetic operation that can leave the range is
followed by an explicit `% 256` or `% 65536`.  A `*byte` argument pointing into
the register file is a register name (`Reg`), read and written through the
current state, so that an operand aliasing `A` behaves as in the source.
`log.Fatal` / `log.Fatalf` end the process: the operations that can reach them
return `Option`, with `none` for the fatal exit.  Calls to `log.Println` are
tracing only and are left out.
-/

set_option maxRecDepth 8192
set_option maxHeartbeats 4000000

namespace Gomeboycolor

/-! ## Flags, registers, clocks -/

/-- Flag identifier `C` (`iota` value 1). -/
def C : Nat := 1
/-- Flag identifier `H` (`iota` value 2). -/
def H : Nat := 2
/-- Flag identifier `N` (`iota` value 3). -/
def N : Nat := 3
/-- Flag identifier `Z` (`iota` value 4). -/
def Z : Nat := 4

/-- The register file of `type Registers struct`. -/
structure Registers where
  A : Nat
  B : Nat
  C : Nat
  D : Nat
  E : Nat
  H : Nat
  L : Nat
  F : Nat
deriving DecidableEq, Repr

/-- The target of a `*byte` that points into the register file. -/
inductive Reg where
  | A | B | C | D | E | H | L | F
deriving DecidableEq, Repr

/-- Dereference of a register pointer: `*r`. -/
def Registers.get (R : Registers) : Reg → Nat
  | .A => R.A
  | .B => R.B
  | .C => R.C
  | .D => R.D
  | .E => R.E
  | .H => R.H
  | .L => R.L
  | .F => R.F

/-- Assignment through a register pointer: `*r = v`. -/
def Registers.set (R : Registers) (r : Reg) (v : Nat) : Registers :=
  match r with
  | .A => { R with A := v }
  | .B => { R with B := v }
  | .C => { R with C := v }
  | .D => { R with D := v }
  | .E => { R with E := v }
  | .H => { R with H := v }
  | .L => { R with L := v }
  | .F => { R with F := v }

/-- The cycle pair of `type Clock struct`. -/
structure Clock where
  m : Nat
  t : Nat
deriving DecidableEq, Repr

/-- Go: `func (c *Clock) Set(m, t Word)`. -/
def Clock.Set (_c : Clock) (m t : Nat) : Clock := { m := m, t := t }

/-- Go: `func (c *Clock) Reset()`. -/
def Clock.Reset (_c : Clock) : Clock := { m := 0, t := 0 }

/-- The memory bus the CPU is bound to (`MMU`), with `M` the state behind it.
The interface declaration is not part of the sources at hand; its four
operations are taken as parameters, the results typed as in Go (`byte`,
`Word`). -/
structure MMU (M : Type) where
  ReadByte : M → Nat → Nat
  WriteByte : M → Nat → Nat → M
  ReadWord : M → Nat → Nat
  WriteWord : M → Nat → Nat → M
  ReadByte_lt : ∀ m a, ReadByte m a < 256
  ReadWord_lt : ∀ m a, ReadWord m a < 65536

/-- The CPU of `type Z80 struct`; `mmu` is the state of the bound bus. -/
structure Z80 (M : Type) where
  PC : Nat
  SP : Nat
  R : Registers
  MachineCycles : Clock
  LastInstrCycle : Clock
  mmu : M

/-- Modelled from the spec: `utils.JoinBytes`, whose package is not part of the
sources at hand; join (high, low) is `(high << 8) | low` as a 16-bit word. -/
def JoinBytes (hob lob : Nat) : Nat := ((hob <<< 8) ||| lob) % 65536

/-- Modelled from the spec: `utils.SplitIntoBytes`, whose package is not part
of the sources at hand; split is `((v >> 8) & 0xFF, v & 0xFF)`. -/
def SplitIntoBytes (v : Nat) : Nat × Nat := ((v >>> 8) &&& 0xFF, v &&& 0xFF)

variable {M : Type}

/-- Go: `func (cpu *Z80) Reset()`. -/
def Z80.Reset (cpu : Z80 M) : Z80 M :=
  { cpu with
    PC := 0
    SP := 0
    R := { A := 0, B := 0, C := 0, D := 0, E := 0, F := 0, H := 0, L := 0 }
    MachineCycles := cpu.MachineCycles.Reset
    LastInstrCycle := cpu.LastInstrCycle.Reset }

/-- Go: `func NewCPU(m MMU) *Z80`; `new(Z80)` is the zero value. -/
def NewCPU (m : M) : Z80 M :=
  Z80.Reset
    { PC := 0, SP := 0
      R := { A := 0, B := 0, C := 0, D := 0, E := 0, F := 0, H := 0, L := 0 }
      MachineCycles := { m := 0, t := 0 }
      LastInstrCycle := { m := 0, t := 0 }
      mmu := m }

/-- Read through a register pointer on the current CPU state. -/
def Z80.get (cpu : Z80 M) (r : Reg) : Nat := cpu.R.get r

/-- Write through a register pointer on the current CPU state. -/
def Z80.set (cpu : Z80 M) (r : Reg) (v : Nat) : Z80 M := { cpu with R := cpu.R.set r v }

/-- The statement `cpu.LastInstrCycle.Set(m, t)`. -/
def Z80.setLast (cpu : Z80 M) (m t : Nat) : Z80 M :=
  { cpu with LastInstrCycle := cpu.LastInstrCycle.Set m t }

/-- Go: `func (cpu *Z80) ResetFlag(flag int)`. -/
def Z80.ResetFlag (cpu : Z80 M) (flag : Nat) : Option (Z80 M) :=
  if flag = Z then some (cpu.set .F (cpu.R.F &&& (255 - 0x80)))
  else if flag = N then some (cpu.set .F (cpu.R.F &&& (255 - 0x40)))
  else if flag = H then some (cpu.set .F (cpu.R.F &&& (255 - 0x20)))
  else if flag = C then some (cpu.set .F (cpu.R.F &&& (255 - 0x10)))
  else none

/-- Go: `func (cpu *Z80) SetFlag(flag int)`. -/
def Z80.SetFlag (cpu : Z80 M) (flag : Nat) : Option (Z80 M) :=
  if flag = Z then some (cpu.set .F (cpu.R.F ^^^ 0x80))
  else if flag = N then some (cpu.set .F (cpu.R.F ^^^ 0x40))
  else if flag = H then some (cpu.set .F (cpu.R.F ^^^ 0x20))
  else if flag = C then some (cpu.set .F (cpu.R.F ^^^ 0x10))
  else none

/-- Go: `func (cpu *Z80) IsFlagSet(flag int) bool`. -/
def Z80.IsFlagSet (cpu : Z80 M) (flag : Nat) : Option Bool :=
  if flag = Z then some (cpu.R.F &&& 0x80 == 0x80)
  else if flag = N then some (cpu.R.F &&& 0x40 == 0x40)
  else if flag = H then some (cpu.R.F &&& 0x20 == 0x20)
  else if flag = C then some (cpu.R.F &&& 0x10 == 0x10)
  else none

/-- Go: `func (cpu *Z80) IncrementPC(by Word)`. -/
def Z80.IncrementPC (cpu : Z80 M) (n : Nat) : Z80 M :=
  { cpu with PC := (cpu.PC + n) % 65536 }

/-! ## Instructions -/

/-- Go: `func (cpu *Z80) LDrn(r *byte)`. -/
def Z80.LDrn (bus : MMU M) (cpu : Z80 M) (r : Reg) : Z80 M :=
  let value := bus.ReadByte cpu.mmu cpu.PC
  let cpu := cpu.IncrementPC 1
  let cpu := cpu.set r value
  cpu.setLast 2 8

/-- Go: `func (cpu *Z80) LDrr(r1 *byte, r2 *byte)`. -/
def Z80.LDrr (cpu : Z80 M) (r1 r2 : Reg) : Z80 M :=
  let cpu := cpu.set r1 (cpu.get r2)
  cpu.setLast 1 4

/-- Go: `func (cpu *Z80) LDr_hl(r *byte)`. -/
def Z80.LDr_hl (bus : MMU M) (cpu : Z80 M) (r : Reg) : Z80 M :=
  let HL := JoinBytes cpu.R.H cpu.R.L
  let value := bus.ReadByte cpu.mmu HL
  let cpu := cpu.set r value
  cpu.setLast 2 8

/-- Go: `func (cpu *Z80) LDhl_r(r *byte)`. -/
def Z80.LDhl_r (bus : MMU M) (cpu : Z80 M) (r : Reg) : Z80 M :=
  let HL := JoinBytes cpu.R.H cpu.R.L
  let value := cpu.get r
  let cpu := { cpu with mmu := bus.WriteByte cpu.mmu HL value }
  cpu.setLast 2 8

/-- Go: `func (cpu *Z80) LDbc_r(r *byte)`. -/
def Z80.LDbc_r (bus : MMU M) (cpu : Z80 M) (r : Reg) : Z80 M :=
  let BC := JoinBytes cpu.R.B cpu.R.C
  let value := cpu.get r
  let cpu := { cpu with mmu := bus.WriteByte cpu.mmu BC value }
  cpu.setLast 2 8

/-- Go: `func (cpu *Z80) LDde_r(r *byte)`. -/
def Z80.LDde_r (bus : MMU M) (cpu : Z80 M) (r : Reg) : Z80 M :=
  let DE := JoinBytes cpu.R.D cpu.R.E
  let value := cpu.get r
  let cpu := { cpu with mmu := bus.WriteByte cpu.mmu DE value }
  cpu.setLast 2 8

/-- Go: `func (cpu *Z80) LDnn_r(r *byte)`. -/
def Z80.LDnn_r (bus : MMU M) (cpu : Z80 M) (r : Reg) : Z80 M :=
  let resultAddr := bus.ReadWord cpu.mmu cpu.PC
  let cpu := cpu.IncrementPC 2
  let cpu := { cpu with mmu := bus.WriteByte cpu.mmu resultAddr (cpu.get r) }
  cpu.setLast 4 16

/-- Go: `func (cpu *Z80) LDhl_n()`. -/
def Z80.LDhl_n (bus : MMU M) (cpu : Z80 M) : Z80 M :=
  let HL := JoinBytes cpu.R.H cpu.R.L
  let value := bus.ReadByte cpu.mmu cpu.PC
  let cpu := cpu.IncrementPC 1
  let cpu := { cpu with mmu := bus.WriteByte cpu.mmu HL value }
  cpu.setLast 3 12

/-- Go: `func (cpu *Z80) LDr_bc(r *byte)`. -/
def Z80.LDr_bc (bus : MMU M) (cpu : Z80 M) (r : Reg) : Z80 M :=
  let BC := JoinBytes cpu.R.B cpu.R.C
  let value := bus.ReadByte cpu.mmu BC
  let cpu := cpu.set r value
  cpu.setLast 2 8

/-- Go: `func (cpu *Z80) LDr_de(r *byte)`. -/
def Z80.LDr_de (bus : MMU M) (cpu : Z80 M) (r : Reg) : Z80 M :=
  let DE := JoinBytes cpu.R.D cpu.R.E
  let value := bus.ReadByte cpu.mmu DE
  let cpu := cpu.set r value
  cpu.setLast 2 8

/-- Go: `func (cpu *Z80) LDr_nn(r *byte)`. -/
def Z80.LDr_nn (bus : MMU M) (cpu : Z80 M) (r : Reg) : Z80 M :=
  let nn := bus.ReadWord cpu.mmu cpu.PC
  let cpu := cpu.IncrementPC 2
  let value := bus.ReadByte cpu.mmu nn
  let cpu := cpu.set r value
  cpu.setLast 4 16

/-- Go: `func (cpu *Z80) LDr_ffplusc(r *byte)`. -/
def Z80.LDr_ffplusc (bus : MMU M) (cpu : Z80 M) (r : Reg) : Z80 M :=
  let valueAddr := (0xFF00 + cpu.R.C) % 65536
  let cpu := cpu.set r (bus.ReadByte cpu.mmu valueAddr)
  cpu.setLast 2 8

/-- Go: `func (cpu *Z80) LDffplusc_r(r *byte)`. -/
def Z80.LDffplusc_r (bus : MMU M) (cpu : Z80 M) (r : Reg) : Z80 M :=
  let valueAddr := (0xFF00 + cpu.R.C) % 65536
  let cpu := { cpu with mmu := bus.WriteByte cpu.mmu valueAddr (cpu.get r) }
  cpu.setLast 2 8

/-- The statements `cpu.R.L -= 1; if cpu.R.L == 0xFF { cpu.R.H -= 1 }`; a byte
less one is `0xFF` at zero and one less elsewhere. -/
def Z80.decHL (cpu : Z80 M) : Z80 M :=
  let cpu := cpu.set .L (if cpu.R.L = 0 then 0xFF else (cpu.R.L - 1) % 256)
  if cpu.R.L = 0xFF then cpu.set .H (if cpu.R.H = 0 then 0xFF else (cpu.R.H - 1) % 256) else cpu

/-- The statements `cpu.R.L += 1; if cpu.R.L == 0x00 { cpu.R.H += 1 }`. -/
def Z80.incHL (cpu : Z80 M) : Z80 M :=
  let cpu := cpu.set .L ((cpu.R.L + 1) % 256)
  if cpu.R.L = 0x00 then cpu.set .H ((cpu.R.H + 1) % 256) else cpu

/-- Go: `func (cpu *Z80) LDDr_hl(r *byte)`. -/
def Z80.LDDr_hl (bus : MMU M) (cpu : Z80 M) (r : Reg) : Z80 M :=
  let HL := JoinBytes cpu.R.H cpu.R.L
  let cpu := cpu.set r (bus.ReadByte cpu.mmu HL)
  let cpu := cpu.decHL
  cpu.setLast 2 8

/-- Go: `func (cpu *Z80) LDDhl_r(r *byte)`. -/
def Z80.LDDhl_r (bus : MMU M) (cpu : Z80 M) (r : Reg) : Z80 M :=
  let HL := JoinBytes cpu.R.H cpu.R.L
  let cpu := { cpu with mmu := bus.WriteByte cpu.mmu HL (cpu.get r) }
  let cpu := cpu.decHL
  cpu.setLast 2 8

/-- Go: `func (cpu *Z80) LDIr_hl(r *byte)`. -/
def Z80.LDIr_hl (bus : MMU M) (cpu : Z80 M) (r : Reg) : Z80 M :=
  let HL := JoinBytes cpu.R.H cpu.R.L
  let cpu := cpu.set r (bus.ReadByte cpu.mmu HL)
  let cpu := cpu.incHL
  cpu.setLast 2 8

/-- Go: `func (cpu *Z80) LDIhl_r(r *byte)`. -/
def Z80.LDIhl_r (bus : MMU M) (cpu : Z80 M) (r : Reg) : Z80 M :=
  let HL := JoinBytes cpu.R.H cpu.R.L
  let cpu := { cpu with mmu := bus.WriteByte cpu.mmu HL (cpu.get r) }
  let cpu := cpu.incHL
  cpu.setLast 2 8

/-- Go: `func (cpu *Z80) LDHn_r(r *byte)`. -/
def Z80.LDHn_r (bus : MMU M) (cpu : Z80 M) (r : Reg) : Z80 M :=
  let n := bus.ReadByte cpu.mmu ((0xFF00 + cpu.PC) % 65536)
  let cpu := cpu.set r n
  let cpu := cpu.IncrementPC 1
  cpu.setLast 3 12

/-- Go: `func (cpu *Z80) LDHr_n(r *byte)`. -/
def Z80.LDHr_n (bus : MMU M) (cpu : Z80 M) (r : Reg) : Z80 M :=
  let cpu := { cpu with mmu := bus.WriteByte cpu.mmu ((0xFF00 + cpu.PC) % 65536) (cpu.get r) }
  let cpu := cpu.IncrementPC 1
  cpu.setLast 3 12

/-- Go: `func (cpu *Z80) LDn_nn(r1, r2 *byte)`. -/
def Z80.LDn_nn (bus : MMU M) (cpu : Z80 M) (r1 r2 : Reg) : Z80 M :=
  let v1 := bus.ReadByte cpu.mmu cpu.PC
  let v2 := bus.ReadByte cpu.mmu ((cpu.PC + 1) % 65536)
  let cpu := cpu.IncrementPC 2
  let cpu := cpu.set r1 v1
  let cpu := cpu.set r2 v2
  cpu.setLast 3 12

/-- Go: `func (cpu *Z80) LDSP_nn()`. -/
def Z80.LDSP_nn (bus : MMU M) (cpu : Z80 M) : Z80 M :=
  let value := bus.ReadWord cpu.mmu cpu.PC
  let cpu := cpu.IncrementPC 2
  let cpu := { cpu with SP := value }
  cpu.setLast 3 12

/-- Go: `func (cpu *Z80) LDSP_rr(r1, r2 *byte)`; the two arguments are not
used, the source reads `H` and `L`. -/
def Z80.LDSP_rr (cpu : Z80 M) (_r1 _r2 : Reg) : Z80 M :=
  let HL := JoinBytes cpu.R.H cpu.R.L
  let cpu := { cpu with SP := HL }
  cpu.setLast 2 8

/-- Go: `func (cpu *Z80) LDHLSP_n()`. -/
def Z80.LDHLSP_n (bus : MMU M) (cpu : Z80 M) : Option (Z80 M) := do
  let n := bus.ReadByte cpu.mmu cpu.PC
  let cpu := cpu.IncrementPC 1
  let HL := (cpu.SP + n) % 65536
  let cpu := (cpu.set .H (SplitIntoBytes HL).1).set .L (SplitIntoBytes HL).2
  let cpu ← cpu.ResetFlag Z
  let cpu ← cpu.ResetFlag N
  let cpu ← (if (cpu.SP + n) % 65536 < cpu.SP then cpu.SetFlag C else pure cpu)
  let cpu ← (if (((cpu.SP &&& 0xf) + (n &&& 0xf)) % 65536) &&& 0x10 = 0x10 then cpu.SetFlag H
            else pure cpu)
  pure (cpu.setLast 3 12)

/-- Go: `func (cpu *Z80) LDnn_SP()`. -/
def Z80.LDnn_SP (bus : MMU M) (cpu : Z80 M) : Z80 M :=
  let nn := bus.ReadWord cpu.mmu cpu.PC
  let cpu := { cpu with mmu := bus.WriteWord cpu.mmu nn cpu.SP }
  let cpu := cpu.IncrementPC 2
  cpu.setLast 5 20

/-- Go: `func (cpu *Z80) Push_nn(r1, r2 *byte)`; `cpu.SP--` on a `uint16` is
`0xFFFF` at zero and one less elsewhere. -/
def Z80.Push_nn (bus : MMU M) (cpu : Z80 M) (r1 r2 : Reg) : Z80 M :=
  let cpu := { cpu with SP := if cpu.SP = 0 then 0xFFFF else (cpu.SP - 1) % 65536 }
  let cpu := { cpu with mmu := bus.WriteByte cpu.mmu cpu.SP (cpu.get r1) }
  let cpu := { cpu with SP := if cpu.SP = 0 then 0xFFFF else (cpu.SP - 1) % 65536 }
  let cpu := { cpu with mmu := bus.WriteByte cpu.mmu cpu.SP (cpu.get r2) }
  cpu.setLast 3 12

/-- Go: `func (cpu *Z80) Pop_nn(r1, r2 *byte)`. -/
def Z80.Pop_nn (bus : MMU M) (cpu : Z80 M) (r1 r2 : Reg) : Z80 M :=
  let cpu := cpu.set r2 (bus.ReadByte cpu.mmu cpu.SP)
  let cpu := { cpu with SP := (cpu.SP + 1) % 65536 }
  let cpu := cpu.set r1 (bus.ReadByte cpu.mmu cpu.SP)
  let cpu := { cpu with SP := (cpu.SP + 1) % 65536 }
  cpu.setLast 3 12

/-- Go: `func (cpu *Z80) AddA_r(r *byte)`. -/
def Z80.AddA_r (cpu : Z80 M) (r : Reg) : Option (Z80 M) := do
  let oldA := cpu.R.A
  let cpu := cpu.set .A ((cpu.R.A + cpu.get r) % 256)
  let cpu ← cpu.ResetFlag N
  let cpu ← (if (oldA + cpu.get r) % 256 < oldA then cpu.SetFlag C else pure cpu)
  let cpu ← (if cpu.R.A = 0x00 then cpu.SetFlag Z else pure cpu)
  let cpu ← (if (((oldA &&& 0xf) + (cpu.get r &&& 0xf)) % 256) &&& 0x10 = 0x10 then cpu.SetFlag H
            else pure cpu)
  pure (cpu.setLast 1 4)

/-- Go: `func (cpu *Z80) AddA_hl()`. -/
def Z80.AddA_hl (bus : MMU M) (cpu : Z80 M) : Option (Z80 M) := do
  let HL := JoinBytes cpu.R.H cpu.R.L
  let value := bus.ReadByte cpu.mmu HL
  let oldA := cpu.R.A
  let cpu := cpu.set .A ((cpu.R.A + value) % 256)
  let cpu ← cpu.ResetFlag N
  let cpu ← (if (oldA + value) % 256 < oldA then cpu.SetFlag C else pure cpu)
  let cpu ← (if cpu.R.A = 0x00 then cpu.SetFlag Z else pure cpu)
  let cpu ← (if (((oldA &&& 0xf) + (value &&& 0xf)) % 256) &&& 0x10 = 0x10 then cpu.SetFlag H
            else pure cpu)
  pure (cpu.setLast 2 8)

/-- Go: `func (cpu *Z80) AddA_n()`. -/
def Z80.AddA_n (bus : MMU M) (cpu : Z80 M) : Option (Z80 M) := do
  let value := bus.ReadByte cpu.mmu cpu.PC
  let cpu := cpu.IncrementPC 1
  let oldA := cpu.R.A
  let cpu := cpu.set .A ((cpu.R.A + value) % 256)
  let cpu ← cpu.ResetFlag N
  let cpu ← (if (oldA + value) % 256 < oldA then cpu.SetFlag C else pure cpu)
  let cpu ← (if cpu.R.A = 0x00 then cpu.SetFlag Z else pure cpu)
  let cpu ← (if (((oldA &&& 0xf) + (value &&& 0xf)) % 256) &&& 0x10 = 0x10 then cpu.SetFlag H
            else pure cpu)
  pure (cpu.setLast 2 8)

/-- Go: `func (cpu *Z80) AddCA_r(r *byte)`. -/
def Z80.AddCA_r (cpu : Z80 M) (r : Reg) : Option (Z80 M) := do
  let oldA := cpu.R.A
  let cpu := cpu.set .A ((cpu.R.A + cpu.get r) % 256)
  let c ← cpu.IsFlagSet C
  let carryFlag := if c then 1 else 0
  let cpu := if c then cpu.set .A ((cpu.R.A + carryFlag) % 256) else cpu
  let cpu ← cpu.ResetFlag N
  let cpu ← (if cpu.R.A < oldA then cpu.SetFlag C else pure cpu)
  let cpu ← (if cpu.R.A = 0x00 then cpu.SetFlag Z else pure cpu)
  let cpu ← (if (((oldA &&& 0xf) + (((cpu.get r + carryFlag) % 256) &&& 0xf)) % 256) &&& 0x10 = 0x10
            then cpu.SetFlag H else pure cpu)
  pure (cpu.setLast 1 4)

/-- Go: `func (cpu *Z80) AddCA_hl()`. -/
def Z80.AddCA_hl (bus : MMU M) (cpu : Z80 M) : Option (Z80 M) := do
  let oldA := cpu.R.A
  let HL := JoinBytes cpu.R.H cpu.R.L
  let value := bus.ReadByte cpu.mmu HL
  let cpu := cpu.set .A ((cpu.R.A + value) % 256)
  let c ← cpu.IsFlagSet C
  let carryFlag := if c then 1 else 0
  let cpu := if c then cpu.set .A ((cpu.R.A + carryFlag) % 256) else cpu
  let cpu ← cpu.ResetFlag N
  let cpu ← (if cpu.R.A < oldA then cpu.SetFlag C else pure cpu)
  let cpu ← (if cpu.R.A = 0x00 then cpu.SetFlag Z else pure cpu)
  let cpu ← (if (((oldA &&& 0xf) + (((value + carryFlag) % 256) &&& 0xf)) % 256) &&& 0x10 = 0x10
            then cpu.SetFlag H else pure cpu)
  pure (cpu.setLast 2 8)

/-- Go: `func (cpu *Z80) AddCA_n()`. -/
def Z80.AddCA_n (bus : MMU M) (cpu : Z80 M) : Option (Z80 M) := do
  let oldA := cpu.R.A
  let value := bus.ReadByte cpu.mmu cpu.PC
  let cpu := cpu.IncrementPC 1
  let cpu := cpu.set .A ((cpu.R.A + value) % 256)
  let c ← cpu.IsFlagSet C
  let carryFlag := if c then 1 else 0
  let cpu := if c then cpu.set .A ((cpu.R.A + carryFlag) % 256) else cpu
  let cpu ← cpu.ResetFlag N
  let cpu ← (if cpu.R.A < oldA then cpu.SetFlag C else pure cpu)
  let cpu ← (if cpu.R.A = 0x00 then cpu.SetFlag Z else pure cpu)
  let cpu ← (if (((oldA &&& 0xf) + (((value + carryFlag) % 256) &&& 0xf)) % 256) &&& 0x10 = 0x10
            then cpu.SetFlag H else pure cpu)
  pure (cpu.setLast 2 8)

/-- Go: `func (cpu *Z80) SubA_r(r *byte)`. -/
def Z80.SubA_r (cpu : Z80 M) (r : Reg) : Option (Z80 M) := do
  let oldA := cpu.R.A
  let cpu := cpu.set .A ((cpu.R.A + (256 - cpu.get r % 256)) % 256)
  let cpu ← cpu.SetFlag N
  let cpu ← (if cpu.R.A = 0x00 then cpu.SetFlag Z else pure cpu)
  let cpu ← (if cpu.R.A > oldA then cpu.SetFlag C else pure cpu)
  let cpu ← (if (((oldA &&& 0x0F) + (256 - (cpu.get r &&& 0x0F) % 256)) % 256) &&& 0x10 = 0x10
            then cpu.SetFlag H else pure cpu)
  pure (cpu.setLast 1 4)

/-- Go: `func (cpu *Z80) SubA_hl()`. -/
def Z80.SubA_hl (bus : MMU M) (cpu : Z80 M) : Option (Z80 M) := do
  let oldA := cpu.R.A
  let HL := JoinBytes cpu.R.H cpu.R.L
  let value := bus.ReadByte cpu.mmu HL
  let cpu := cpu.set .A ((cpu.R.A + (256 - value % 256)) % 256)
  let cpu ← cpu.SetFlag N
  let cpu ← (if cpu.R.A = 0x00 then cpu.SetFlag Z else pure cpu)
  let cpu ← (if cpu.R.A > oldA then cpu.SetFlag C else pure cpu)
  let cpu ← (if (((oldA &&& 0x0F) + (256 - (value &&& 0x0F) % 256)) % 256) &&& 0x10 = 0x10
            then cpu.SetFlag H else pure cpu)
  pure (cpu.setLast 2 8)

/-- Go: `func (cpu *Z80) SubA_n()`. -/
def Z80.SubA_n (bus : MMU M) (cpu : Z80 M) : Option (Z80 M) := do
  let oldA := cpu.R.A
  let value := bus.ReadByte cpu.mmu cpu.PC
  let cpu := cpu.IncrementPC 1
  let cpu := cpu.set .A ((cpu.R.A + (256 - value % 256)) % 256)
  let cpu ← cpu.SetFlag N
  let cpu ← (if cpu.R.A = 0x00 then cpu.SetFlag Z else pure cpu)
  let cpu ← (if cpu.R.A > oldA then cpu.SetFlag C else pure cpu)
  let cpu ← (if (((oldA &&& 0x0F) + (256 - (value &&& 0x0F) % 256)) % 256) &&& 0x10 = 0x10
            then cpu.SetFlag H else pure cpu)
  pure (cpu.setLast 2 8)

/-- Go: `func (cpu *Z80) AndA_r(r *byte)`. -/
def Z80.AndA_r (cpu : Z80 M) (r : Reg) : Option (Z80 M) := do
  let cpu := cpu.set .A (cpu.R.A &&& cpu.get r)
  let cpu ← cpu.SetFlag H
  let cpu ← cpu.ResetFlag N
  let cpu ← cpu.ResetFlag C
  let cpu ← (if cpu.R.A = 0x00 then cpu.SetFlag Z else pure cpu)
  pure (cpu.setLast 1 4)

/-- Go: `func (cpu *Z80) AndA_hl()`. -/
def Z80.AndA_hl (bus : MMU M) (cpu : Z80 M) : Option (Z80 M) := do
  let HL := JoinBytes cpu.R.H cpu.R.L
  let value := bus.ReadByte cpu.mmu HL
  let cpu := cpu.set .A (cpu.R.A &&& value)
  let cpu ← cpu.SetFlag H
  let cpu ← cpu.ResetFlag N
  let cpu ← cpu.ResetFlag C
  let cpu ← (if cpu.R.A = 0x00 then cpu.SetFlag Z else pure cpu)
  pure (cpu.setLast 2 8)

/-- Go: `func (cpu *Z80) AndA_n()`. -/
def Z80.AndA_n (bus : MMU M) (cpu : Z80 M) : Option (Z80 M) := do
  let value := bus.ReadByte cpu.mmu cpu.PC
  let cpu := cpu.IncrementPC 1
  let cpu := cpu.set .A (cpu.R.A &&& value)
  let cpu ← cpu.SetFlag H
  let cpu ← cpu.ResetFlag N
  let cpu ← cpu.ResetFlag C
  let cpu ← (if cpu.R.A = 0x00 then cpu.SetFlag Z else pure cpu)
  pure (cpu.setLast 2 8)

/-- Go: `func (cpu *Z80) OrA_r(r *byte)`. -/
def Z80.OrA_r (cpu : Z80 M) (r : Reg) : Option (Z80 M) := do
  let cpu := cpu.set .A (cpu.R.A ||| cpu.get r)
  let cpu ← cpu.ResetFlag H
  let cpu ← cpu.ResetFlag N
  let cpu ← cpu.ResetFlag C
  let cpu ← (if cpu.R.A = 0x00 then cpu.SetFlag Z else pure cpu)
  pure (cpu.setLast 1 4)

/-- Go: `func (cpu *Z80) OrA_hl()`. -/
def Z80.OrA_hl (bus : MMU M) (cpu : Z80 M) : Option (Z80 M) := do
  let HL := JoinBytes cpu.R.H cpu.R.L
  let value := bus.ReadByte cpu.mmu HL
  let cpu := cpu.set .A (cpu.R.A ||| value)
  let cpu ← cpu.ResetFlag H
  let cpu ← cpu.ResetFlag N
  let cpu ← cpu.ResetFlag C
  let cpu ← (if cpu.R.A = 0x00 then cpu.SetFlag Z else pure cpu)
  pure (cpu.setLast 2 8)

/-- Go: `func (cpu *Z80) OrA_n()`. -/
def Z80.OrA_n (bus : MMU M) (cpu : Z80 M) : Option (Z80 M) := do
  let value := bus.ReadByte cpu.mmu cpu.PC
  let cpu := cpu.IncrementPC 1
  let cpu := cpu.set .A (cpu.R.A ||| value)
  let cpu ← cpu.ResetFlag H
  let cpu ← cpu.ResetFlag N
  let cpu ← cpu.ResetFlag C
  let cpu ← (if cpu.R.A = 0x00 then cpu.SetFlag Z else pure cpu)
  pure (cpu.setLast 2 8)

/-- Go: `func (cpu *Z80) XorA_r(r *byte)`. -/
def Z80.XorA_r (cpu : Z80 M) (r : Reg) : Option (Z80 M) := do
  let cpu := cpu.set .A (cpu.R.A ^^^ cpu.get r)
  let cpu ← cpu.ResetFlag H
  let cpu ← cpu.ResetFlag N
  let cpu ← cpu.ResetFlag C
  let cpu ← (if cpu.R.A = 0x00 then cpu.SetFlag Z else pure cpu)
  pure (cpu.setLast 1 4)

/-- Go: `func (cpu *Z80) XorA_hl()`. -/
def Z80.XorA_hl (bus : MMU M) (cpu : Z80 M) : Option (Z80 M) := do
  let HL := JoinBytes cpu.R.H cpu.R.L
  let value := bus.ReadByte cpu.mmu HL
  let cpu := cpu.set .A (cpu.R.A ^^^ value)
  let cpu ← cpu.ResetFlag H
  let cpu ← cpu.ResetFlag N
  let cpu ← cpu.ResetFlag C
  let cpu ← (if cpu.R.A = 0x00 then cpu.SetFlag Z else pure cpu)
  pure (cpu.setLast 2 8)

/-- Go: `func (cpu *Z80) XorA_n()`. -/
def Z80.XorA_n (bus : MMU M) (cpu : Z80 M) : Option (Z80 M) := do
  let value := bus.ReadByte cpu.mmu cpu.PC
  let cpu := cpu.IncrementPC 1
  let cpu := cpu.set .A (cpu.R.A ^^^ value)
  let cpu ← cpu.ResetFlag H
  let cpu ← cpu.ResetFlag N
  let cpu ← cpu.ResetFlag C
  let cpu ← (if cpu.R.A = 0x00 then cpu.SetFlag Z else pure cpu)
  pure (cpu.setLast 2 8)

/-- Go: `func (cpu *Z80) NOP()`. -/
def Z80.NOP (cpu : Z80 M) : Z80 M := cpu.setLast 1 4

/-- Go: `func (cpu *Z80) HALT()`. -/
def Z80.HALT (cpu : Z80 M) : Z80 M := cpu.setLast 1 4

/-- Go: `func (cpu *Z80) DI()`. -/
def Z80.DI (cpu : Z80 M) : Z80 M := cpu.setLast 1 4

/-- Go: `func (cpu *Z80) EI()`. -/
def Z80.EI (cpu : Z80 M) : Z80 M := cpu.setLast 1 4

/-! ## Dispatcher -/

/-- Go: `func (cpu *Z80) Dispatch(Opcode byte)`; the `switch` is the chain of
its cases in source order, and `none` is the exit through `log.Fatal` /
`log.Fatalf`. -/
def Z80.Dispatch (bus : MMU M) (cpu : Z80 M) (Opcode : Nat) : Option (Z80 M) :=
  if Opcode = 0x00 then some (cpu.NOP) -- NOP
  else if Opcode = 0x76 then some (cpu.HALT) -- HALT
  else if Opcode = 0xF3 then some (cpu.DI) -- DI
  else if Opcode = 0xFB then some (cpu.EI) -- EI
  else if Opcode = 0xA7 then cpu.AndA_r .A -- AND A, A
  else if Opcode = 0xA0 then cpu.AndA_r .B -- AND A, B
  else if Opcode = 0xA1 then cpu.AndA_r .C -- AND A, C
  else if Opcode = 0xA2 then cpu.AndA_r .D -- AND A, D
  else if Opcode = 0xA3 then cpu.AndA_r .E -- AND A, E
  else if Opcode = 0xA4 then cpu.AndA_r .H -- AND A, H
  else if Opcode = 0xA5 then cpu.AndA_r .L -- AND A, L
  else if Opcode = 0xA6 then Z80.AndA_hl bus cpu -- AND A, (HL)
  else if Opcode = 0xE6 then Z80.AndA_n bus cpu -- AND A, n
  else if Opcode = 0xB7 then cpu.OrA_r .A -- OR A, A
  else if Opcode = 0xB0 then cpu.OrA_r .B -- OR A, B
  else if Opcode = 0xB1 then cpu.OrA_r .C -- OR A, C
  else if Opcode = 0xB2 then cpu.OrA_r .D -- OR A, D
  else if Opcode = 0xB3 then cpu.OrA_r .E -- OR A, E
  else if Opcode = 0xB4 then cpu.OrA_r .H -- OR A, H
  else if Opcode = 0xB5 then cpu.OrA_r .L -- OR A, L
  else if Opcode = 0xB6 then Z80.OrA_hl bus cpu -- OR A,(HL)
  else if Opcode = 0xF6 then Z80.OrA_n bus cpu -- OR A, n
  else if Opcode = 0xAF then cpu.XorA_r .A -- XOR A, A
  else if Opcode = 0xA8 then cpu.XorA_r .B -- XOR A, B
  else if Opcode = 0xA9 then cpu.XorA_r .C -- XOR A, C
  else if Opcode = 0xAA then cpu.XorA_r .D -- XOR A, D
  else if Opcode = 0xAB then cpu.XorA_r .E -- XOR A, E
  else if Opcode = 0xAC then cpu.XorA_r .H -- XOR A, H
  else if Opcode = 0xAD then cpu.XorA_r .L -- XOR A, L
  else if Opcode = 0xAE then Z80.XorA_hl bus cpu -- XOR A,(HL)
  else if Opcode = 0xEE then Z80.XorA_n bus cpu -- XOR A, n
  else if Opcode = 0x97 then cpu.SubA_r .A -- SUB A, A
  else if Opcode = 0x90 then cpu.SubA_r .B -- SUB A, B
  else if Opcode = 0x91 then cpu.SubA_r .C -- SUB A, C
  else if Opcode = 0x92 then cpu.SubA_r .D -- SUB A, D
  else if Opcode = 0x93 then cpu.SubA_r .E -- SUB A, E
  else if Opcode = 0x94 then cpu.SubA_r .H -- SUB A, H
  else if Opcode = 0x95 then cpu.SubA_r .L -- SUB A, L
  else if Opcode = 0x96 then Z80.SubA_hl bus cpu -- SUB A, (HL)
  else if Opcode = 0xD6 then Z80.SubA_n bus cpu -- SUB A, n
  else if Opcode = 0x9F then none -- SBC A, A: log.Fatal("Unimplemnted")
  else if Opcode = 0x98 then none -- SBC A, B: log.Fatal("Unimplemnted")
  else if Opcode = 0x99 then none -- SBC A, C: log.Fatal("Unimplemnted")
  else if Opcode = 0x9A then none -- SBC A, D: log.Fatal("Unimplemnted")
  else if Opcode = 0x9B then none -- SBC A, E: log.Fatal("Unimplemnted")
  else if Opcode = 0x9C then none -- SBC A, H: log.Fatal("Unimplemnted")
  else if Opcode = 0x9D then none -- SBC A, L: log.Fatal("Unimplemnted")
  else if Opcode = 0x9E then none -- SBC A, (HL): log.Fatal("Unimplemnted")
  else if Opcode = 0xDE then none -- SBC A, n: log.Fatal("Unimplemnted")
  else if Opcode = 0xF5 then some (Z80.Push_nn bus cpu .A .F) -- PUSH AF
  else if Opcode = 0xC5 then some (Z80.Push_nn bus cpu .B .C) -- PUSH BC
  else if Opcode = 0xD5 then some (Z80.Push_nn bus cpu .D .E) -- PUSH DE
  else if Opcode = 0xE5 then some (Z80.Push_nn bus cpu .H .L) -- PUSH HL
  else if Opcode = 0x8F then cpu.AddCA_r .A -- ADC A, A
  else if Opcode = 0x88 then cpu.AddCA_r .B -- ADC A, B
  else if Opcode = 0x89 then cpu.AddCA_r .C -- ADC A, C
  else if Opcode = 0x8A then cpu.AddCA_r .D -- ADC A, D
  else if Opcode = 0x8B then cpu.AddCA_r .E -- ADC A, E
  else if Opcode = 0x8C then cpu.AddCA_r .H -- ADC A, H
  else if Opcode = 0x8D then cpu.AddCA_r .L -- ADC A, L
  else if Opcode = 0x8E then Z80.AddCA_hl bus cpu -- ADC A, (HL)
  else if Opcode = 0xCE then Z80.AddCA_n bus cpu -- ADC A, n
  else if Opcode = 0xF1 then some (Z80.Pop_nn bus cpu .A .F) -- POP AF
  else if Opcode = 0xC1 then some (Z80.Pop_nn bus cpu .B .C) -- POP BC
  else if Opcode = 0xD1 then some (Z80.Pop_nn bus cpu .D .E) -- POP DE
  else if Opcode = 0xE1 then some (Z80.Pop_nn bus cpu .H .L) -- POP HL
  else if Opcode = 0x08 then some (Z80.LDnn_SP bus cpu) -- LD nn, SP
  else if Opcode = 0x3E then some (Z80.LDrn bus cpu .A) -- LD A, n
  else if Opcode = 0x06 then some (Z80.LDrn bus cpu .B) -- LD B,n
  else if Opcode = 0x0E then some (Z80.LDrn bus cpu .C) -- LD C,n
  else if Opcode = 0x16 then some (Z80.LDrn bus cpu .D) -- LD D,n
  else if Opcode = 0x1E then some (Z80.LDrn bus cpu .E) -- LD E,n
  else if Opcode = 0x26 then some (Z80.LDrn bus cpu .H) -- LD H,n
  else if Opcode = 0x2E then some (Z80.LDrn bus cpu .L) -- LD L,n
  else if Opcode = 0x7E then some (Z80.LDr_hl bus cpu .A) -- LD A, (HL)
  else if Opcode = 0x0A then some (Z80.LDr_bc bus cpu .A) -- LD A, (BC)
  else if Opcode = 0x1A then some (Z80.LDr_de bus cpu .A) -- LD A, (DE)
  else if Opcode = 0xFA then some (Z80.LDr_nn bus cpu .A) -- LD A, (nn)
  else if Opcode = 0x7F then some (cpu.LDrr .A .A) -- LD A, A
  else if Opcode = 0x78 then some (cpu.LDrr .A .B) -- LD A, B
  else if Opcode = 0x79 then some (cpu.LDrr .A .C) -- LD A, C
  else if Opcode = 0x7A then some (cpu.LDrr .A .D) -- LD A, D
  else if Opcode = 0x7B then some (cpu.LDrr .A .E) -- LD A, E
  else if Opcode = 0x7C then some (cpu.LDrr .A .H) -- LD A, H
  else if Opcode = 0x7D then some (cpu.LDrr .A .L) -- LD A, L
  else if Opcode = 0x47 then some (cpu.LDrr .B .A) -- LD B, A
  else if Opcode = 0x40 then some (cpu.LDrr .B .B) -- LD B, B
  else if Opcode = 0x41 then some (cpu.LDrr .B .C) -- LD B, C
  else if Opcode = 0x42 then some (cpu.LDrr .B .D) -- LD B, D
  else if Opcode = 0x43 then some (cpu.LDrr .B .E) -- LD B, E
  else if Opcode = 0x44 then some (cpu.LDrr .B .H) -- LD B, H
  else if Opcode = 0x45 then some (cpu.LDrr .B .L) -- LD B, L
  else if Opcode = 0x46 then some (Z80.LDr_hl bus cpu .B) -- LD B, (HL)
  else if Opcode = 0x4F then some (cpu.LDrr .C .A) -- LD C, A
  else if Opcode = 0x48 then some (cpu.LDrr .C .B) -- LD C, B
  else if Opcode = 0x49 then some (cpu.LDrr .C .C) -- LD C, C
  else if Opcode = 0x4A then some (cpu.LDrr .C .D) -- LD C, D
  else if Opcode = 0x4B then some (cpu.LDrr .C .E) -- LD C, E
  else if Opcode = 0x4C then some (cpu.LDrr .C .H) -- LD C, H
  else if Opcode = 0x4D then some (cpu.LDrr .C .L) -- LD C, L
  else if Opcode = 0x4E then some (Z80.LDr_hl bus cpu .C) -- LD C, (HL)
  else if Opcode = 0x57 then some (cpu.LDrr .D .A) -- LD D, A
  else if Opcode = 0x50 then some (cpu.LDrr .D .B) -- LD D, B
  else if Opcode = 0x51 then some (cpu.LDrr .D .C) -- LD D, C
  else if Opcode = 0x52 then some (cpu.LDrr .D .D) -- LD D, D
  else if Opcode = 0x53 then some (cpu.LDrr .D .E) -- LD D, E
  else if Opcode = 0x54 then some (cpu.LDrr .D .H) -- LD D, H
  else if Opcode = 0x55 then some (cpu.LDrr .D .L) -- LD D, L
  else if Opcode = 0x56 then some (Z80.LDr_hl bus cpu .D) -- LD D, (HL)
  else if Opcode = 0x5F then some (cpu.LDrr .E .A) -- LD E, A
  else if Opcode = 0x58 then some (cpu.LDrr .E .B) -- LD E, B
  else if Opcode = 0x59 then some (cpu.LDrr .E .C) -- LD E, C
  else if Opcode = 0x5A then some (cpu.LDrr .E .D) -- LD E, D
  else if Opcode = 0x5B then some (cpu.LDrr .E .E) -- LD E, E
  else if Opcode = 0x5C then some (cpu.LDrr .E .H) -- LD E, H
  else if Opcode = 0x5D then some (cpu.LDrr .E .L) -- LD E, L
  else if Opcode = 0x5E then some (Z80.LDr_hl bus cpu .E) -- LD E, (HL)
  else if Opcode = 0x67 then some (cpu.LDrr .H .A) -- LD H, A
  else if Opcode = 0x60 then some (cpu.LDrr .H .B) -- LD H, B
  else if Opcode = 0x61 then some (cpu.LDrr .H .C) -- LD H, C
  else if Opcode = 0x62 then some (cpu.LDrr .H .D) -- LD H, D
  else if Opcode = 0x63 then some (cpu.LDrr .H .E) -- LD H, E
  else if Opcode = 0x64 then some (cpu.LDrr .H .H) -- LD H, H
  else if Opcode = 0x65 then some (cpu.LDrr .H .L) -- LD H, L
  else if Opcode = 0x66 then some (Z80.LDr_hl bus cpu .H) -- LD H, (HL)
  else if Opcode = 0x6F then some (cpu.LDrr .L .A) -- LD L, A
  else if Opcode = 0x68 then some (cpu.LDrr .L .B) -- LD L, B
  else if Opcode = 0x69 then some (cpu.LDrr .L .C) -- LD L, C
  else if Opcode = 0x6A then some (cpu.LDrr .L .D) -- LD L, D
  else if Opcode = 0x6B then some (cpu.LDrr .L .E) -- LD L, E
  else if Opcode = 0x6C then some (cpu.LDrr .L .H) -- LD L, H
  else if Opcode = 0x6D then some (cpu.LDrr .L .L) -- LD L, L
  else if Opcode = 0x6E then some (Z80.LDr_hl bus cpu .L) -- LD L, (HL)
  else if Opcode = 0x77 then some (Z80.LDhl_r bus cpu .A) -- LD (HL), A
  else if Opcode = 0x70 then some (Z80.LDhl_r bus cpu .B) -- LD (HL), B
  else if Opcode = 0x71 then some (Z80.LDhl_r bus cpu .C) -- LD (HL), C
  else if Opcode = 0x72 then some (Z80.LDhl_r bus cpu .D) -- LD (HL), D
  else if Opcode = 0x73 then some (Z80.LDhl_r bus cpu .E) -- LD (HL), E
  else if Opcode = 0x74 then some (Z80.LDhl_r bus cpu .H) -- LD (HL), H
  else if Opcode = 0x75 then some (Z80.LDhl_r bus cpu .L) -- LD (HL), L
  else if Opcode = 0x02 then some (Z80.LDbc_r bus cpu .A) -- LD (BC), A
  else if Opcode = 0x12 then some (Z80.LDde_r bus cpu .A) -- LD (DE), A
  else if Opcode = 0xEA then some (Z80.LDnn_r bus cpu .A) -- LD (nn), A
  else if Opcode = 0x36 then some (Z80.LDhl_n bus cpu) -- LD (HL), n
  else if Opcode = 0xF2 then some (Z80.LDr_ffplusc bus cpu .A) -- LD A,(C)
  else if Opcode = 0xE2 then some (Z80.LDffplusc_r bus cpu .A) -- LD (C),A
  else if Opcode = 0x3A then some (Z80.LDDr_hl bus cpu .A) -- LDD A, (HL)
  else if Opcode = 0x32 then some (Z80.LDDhl_r bus cpu .A) -- LDD (HL), A
  else if Opcode = 0x2A then some (Z80.LDIr_hl bus cpu .A) -- LDI A, (HL)
  else if Opcode = 0x22 then some (Z80.LDIhl_r bus cpu .A) -- LDI (HL), A
  else if Opcode = 0xE0 then some (Z80.LDHn_r bus cpu .A) -- LDH n, r
  else if Opcode = 0xF0 then some (Z80.LDHr_n bus cpu .A) -- LDH r, n
  else if Opcode = 0x01 then some (Z80.LDn_nn bus cpu .B .C) -- LD BC, nn
  else if Opcode = 0x11 then some (Z80.LDn_nn bus cpu .D .E) -- LD DE, nn
  else if Opcode = 0x21 then some (Z80.LDn_nn bus cpu .H .L) -- LD HL, nn
  else if Opcode = 0x31 then some (Z80.LDSP_nn bus cpu) -- LD SP, nn
  else if Opcode = 0xF8 then Z80.LDHLSP_n bus cpu -- LDHL SP, n
  else if Opcode = 0xF9 then some (cpu.LDSP_rr .H .L) -- LD SP, HL
  else if Opcode = 0x87 then cpu.AddA_r .A -- ADD A, A
  else if Opcode = 0x80 then cpu.AddA_r .B -- ADD A, B
  else if Opcode = 0x81 then cpu.AddA_r .C -- ADD A, C
  else if Opcode = 0x82 then cpu.AddA_r .D -- ADD A, D
  else if Opcode = 0x83 then cpu.AddA_r .E -- ADD A, E
  else if Opcode = 0x84 then cpu.AddA_r .H -- ADD A, H
  else if Opcode = 0x85 then cpu.AddA_r .L -- ADD A, L
  else if Opcode = 0x86 then Z80.AddA_hl bus cpu -- ADD A,(HL)
  else if Opcode = 0xC6 then Z80.AddA_n bus cpu -- ADD A,#
  else none -- log.Fatalf("Invalid/Unknown instruction %X", Opcode)

/-- Go: `func (cpu *Z80) Step()`. -/
def Z80.Step (bus : MMU M) (cpu : Z80 M) : Option (Z80 M) := do
  let Opcode := bus.ReadByte cpu.mmu cpu.PC
  let cpu := cpu.IncrementPC 1
  let cpu ← cpu.Dispatch bus Opcode
  let cpu := { cpu with MachineCycles :=
    { cpu.MachineCycles with m := (cpu.MachineCycles.m + cpu.LastInstrCycle.m) % 65536 } }
  let cpu := { cpu with MachineCycles :=
    { cpu.MachineCycles with t := (cpu.MachineCycles.t + cpu.LastInstrCycle.t) % 65536 } }
  pure { cpu with LastInstrCycle := cpu.LastInstrCycle.Reset }

/-! ## A flat read/write memory -/

/-- Modelled from the spec: the memory behind the bus is not part of the
sources at hand; this is the flat 64 KiB array of the end-to-end scenarios,
a byte per 16-bit address, with words little-endian (the byte at the address
is the low byte, the next address holds the high byte). -/
def flatBus : MMU (Nat → Nat) where
  ReadByte m a := m (a % 65536) % 256
  WriteByte m a v := fun x => if x = a % 65536 then v % 256 else m x
  ReadWord m a := (m (a % 65536) % 256 + 256 * (m ((a + 1) % 65536) % 256)) % 65536
  WriteWord m a v := fun x =>
    if x = (a + 1) % 65536 then (v / 256) % 256
    else if x = a % 65536 then v % 256
    else m x
  ReadByte_lt := fun _ _ => Nat.mod_lt _ (by decide)
  ReadWord_lt := fun _ _ => Nat.mod_lt _ (by decide)

/-- A memory image: the listed bytes from address 0 on, zero elsewhere. -/
def memOf (bytes : List Nat) : Nat → Nat := fun a => bytes.getD a 0

/-- A CPU state given by its registers, flags, pointers and memory, with both
clocks at zero. -/
def mkCPU (R : Registers) (PC SP : Nat) (m : M) : Z80 M :=
  { PC := PC, SP := SP, R := R
    MachineCycles := { m := 0, t := 0 }
    LastInstrCycle := { m := 0, t := 0 }
    mmu := m }

/-! ## The implemented opcodes and their documented costs -/

/-- Documented with no immediate operand and cost (1, 4): NOP, HALT, DI, EI,
`LD r,r'` and ADD/ADC/SUB/AND/OR/XOR `A,r`. -/
def opsPlain14 : List Nat :=
  [0x00, 0x76, 0xF3, 0xFB, 0x40, 0x41, 0x42, 0x43, 0x44, 0x45, 0x47, 0x48,
   0x49, 0x4A, 0x4B, 0x4C, 0x4D, 0x4F, 0x50, 0x51, 0x52, 0x53, 0x54, 0x55,
   0x57, 0x58, 0x59, 0x5A, 0x5B, 0x5C, 0x5D, 0x5F, 0x60, 0x61, 0x62, 0x63,
   0x64, 0x65, 0x67, 0x68, 0x69, 0x6A, 0x6B, 0x6C, 0x6D, 0x6F, 0x78, 0x79,
   0x7A, 0x7B, 0x7C, 0x7D, 0x7F, 0x80, 0x81, 0x82, 0x83, 0x84, 0x85, 0x87,
   0x88, 0x89, 0x8A, 0x8B, 0x8C, 0x8D, 0x8F, 0x90, 0x91, 0x92, 0x93, 0x94,
   0x95, 0x97, 0xA0, 0xA1, 0xA2, 0xA3, 0xA4, 0xA5, 0xA7, 0xA8, 0xA9, 0xAA,
   0xAB, 0xAC, 0xAD, 0xAF, 0xB0, 0xB1, 0xB2, 0xB3, 0xB4, 0xB5, 0xB7]

/-- Documented with no immediate operand and cost (2, 8): `LD r,(HL)`,
`LD (HL),r`, `LD A,(BC)`, `LD A,(DE)`, `LD (BC),A`, `LD (DE),A`,
`LD A,(0xFF00+C)`, `LD (0xFF00+C),A`, LDD, LDI, `LD SP,HL` and the six ALU
operations on `(HL)`. -/
def opsPlain28 : List Nat :=
  [0x46, 0x4E, 0x56, 0x5E, 0x66, 0x6E, 0x7E, 0x70, 0x71, 0x72, 0x73, 0x74,
   0x75, 0x77, 0x0A, 0x1A, 0x02, 0x12, 0xF2, 0xE2, 0x3A, 0x32, 0x2A, 0x22,
   0xF9, 0x86, 0x8E, 0x96, 0xA6, 0xB6, 0xAE]

/-- Documented with one immediate byte and cost (2, 8): `LD r,n` and the six ALU
operations on an immediate. -/
def opsByte28 : List Nat :=
  [0x06, 0x0E, 0x16, 0x1E, 0x26, 0x2E, 0x3E, 0xC6, 0xCE, 0xD6, 0xE6, 0xF6,
   0xEE]

/-- Documented with one immediate byte and cost (3, 12): `LD (HL),n`, both LDH
forms and `LDHL SP,n`. -/
def opsByte312 : List Nat :=
  [0x36, 0xE0, 0xF0, 0xF8]

/-- Documented with two immediate bytes and cost (3, 12): `LD BC/DE/HL,nn` and
`LD SP,nn`. -/
def opsWord312 : List Nat :=
  [0x01, 0x11, 0x21, 0x31]

/-- Documented with two immediate bytes and cost (4, 16): `LD A,(nn)` and
`LD (nn),A`. -/
def opsWord416 : List Nat :=
  [0xFA, 0xEA]

/-- Documented with two immediate bytes and cost (5, 20): `LD (nn),SP`. -/
def opsWord520 : List Nat :=
  [0x08]

/-- Documented with no immediate operand and cost (3, 12): PUSH and POP. -/
def opsStack312 : List Nat :=
  [0xF5, 0xC5, 0xD5, 0xE5, 0xF1, 0xC1, 0xD1, 0xE1]

/-- The implemented set: every opcode with a case in `Dispatch` that calls an
instruction, family by family. -/
def implementedOpcodes : List Nat :=
  [0x00, 0x76, 0xF3, 0xFB, 0x40, 0x41, 0x42, 0x43, 0x44, 0x45, 0x47, 0x48,
   0x49, 0x4A, 0x4B, 0x4C, 0x4D, 0x4F, 0x50, 0x51, 0x52, 0x53, 0x54, 0x55,
   0x57, 0x58, 0x59, 0x5A, 0x5B, 0x5C, 0x5D, 0x5F, 0x60, 0x61, 0x62, 0x63,
   0x64, 0x65, 0x67, 0x68, 0x69, 0x6A, 0x6B, 0x6C, 0x6D, 0x6F, 0x78, 0x79,
   0x7A, 0x7B, 0x7C, 0x7D, 0x7F, 0x80, 0x81, 0x82, 0x83, 0x84, 0x85, 0x87,
   0x88, 0x89, 0x8A, 0x8B, 0x8C, 0x8D, 0x8F, 0x90, 0x91, 0x92, 0x93, 0x94,
   0x95, 0x97, 0xA0, 0xA1, 0xA2, 0xA3, 0xA4, 0xA5, 0xA7, 0xA8, 0xA9, 0xAA,
   0xAB, 0xAC, 0xAD, 0xAF, 0xB0, 0xB1, 0xB2, 0xB3, 0xB4, 0xB5, 0xB7, 0x46,
   0x4E, 0x56, 0x5E, 0x66, 0x6E, 0x7E, 0x70, 0x71, 0x72, 0x73, 0x74, 0x75,
   0x77, 0x0A, 0x1A, 0x02, 0x12, 0xF2, 0xE2, 0x3A, 0x32, 0x2A, 0x22, 0xF9,
   0x86, 0x8E, 0x96, 0xA6, 0xB6, 0xAE, 0x06, 0x0E, 0x16, 0x1E, 0x26, 0x2E,
   0x3E, 0xC6, 0xCE, 0xD6, 0xE6, 0xF6, 0xEE, 0x36, 0xE0, 0xF0, 0xF8, 0x01,
   0x11, 0x21, 0x31, 0xFA, 0xEA, 0x08, 0xF5, 0xC5, 0xD5, 0xE5, 0xF1, 0xC1,
   0xD1, 0xE1]

/-- The documented immediate-operand count of an opcode. -/
def operandCount (op : Nat) : Nat :=
  if op ∈ opsByte28 ∨ op ∈ opsByte312 then 1
  else if op ∈ opsWord312 ∨ op ∈ opsWord416 ∨ op ∈ opsWord520 then 2
  else 0

/-- The documented cost `(m, t)` of an opcode. -/
def documentedCost (op : Nat) : Nat × Nat :=
  if op ∈ opsPlain28 ∨ op ∈ opsByte28 then (2, 8)
  else if op ∈ opsByte312 ∨ op ∈ opsWord312 ∨ op ∈ opsStack312 then (3, 12)
  else if op ∈ opsWord416 then (4, 16)
  else if op ∈ opsWord520 then (5, 20)
  else (1, 4)

/-! ## Reasoning support -/

/-- The state after `if c { cpu.SetFlag(f) }`, for the flag with bit `mask`. -/
def Z80.xorIf (cpu : Z80 M) (c : Prop) [Decidable c] (mask : Nat) : Z80 M :=
  if c then cpu.set .F (cpu.R.F ^^^ mask) else cpu

/-- Every register holds a byte. -/
def Registers.WF (R : Registers) : Prop :=
  R.A < 256 ∧ R.B < 256 ∧ R.C < 256 ∧ R.D < 256 ∧ R.E < 256 ∧ R.H < 256 ∧ R.L < 256 ∧ R.F < 256

instance (R : Registers) : Decidable R.WF := by
  unfold Registers.WF; infer_instance

/-- The values a Go `Z80` can hold: bytes in the registers, 16-bit words in
`PC`, `SP` and the clocks. -/
def Z80.WF (cpu : Z80 M) : Prop :=
  cpu.PC < 65536 ∧ cpu.SP < 65536 ∧ cpu.R.WF ∧
  cpu.MachineCycles.m < 65536 ∧ cpu.MachineCycles.t < 65536 ∧
  cpu.LastInstrCycle.m < 65536 ∧ cpu.LastInstrCycle.t < 65536

instance (cpu : Z80 M) : Decidable cpu.WF := by
  unfold Z80.WF; infer_instance

/-- The program counter after `n` immediate bytes have been consumed. -/
def advance (pc n : Nat) : Nat := if n = 0 then pc else (pc + n) % 65536

/-- What the instructions share: from `cpu` to `d` the machine-cycle clock is
untouched, the recorded cost is `cost`, `PC` has moved over `count` immediate
bytes and, when `keepsF` holds, the low nibble of `F` is as before. -/
def Frame (cpu d : Z80 M) (count : Nat) (cost : Nat × Nat) (keepsF : Prop) : Prop :=
  d.MachineCycles = cpu.MachineCycles ∧
  d.LastInstrCycle = { m := cost.1, t := cost.2 } ∧
  d.PC = advance cpu.PC count ∧
  (keepsF → d.R.F &&& 0x0F = cpu.R.F &&& 0x0F)

/-! ## The 8-bit arithmetic and logical opcodes, as documented -/

/-- ADD A,r / ADD A,(HL) / ADD A,n. -/
def addOps : List Nat := [0x80, 0x81, 0x82, 0x83, 0x84, 0x85, 0x86, 0x87, 0xC6]
/-- ADC A,r / ADC A,(HL) / ADC A,n. -/
def adcOps : List Nat := [0x88, 0x89, 0x8A, 0x8B, 0x8C, 0x8D, 0x8E, 0x8F, 0xCE]
/-- SUB A,r / SUB A,(HL) / SUB A,n. -/
def subOps : List Nat := [0x90, 0x91, 0x92, 0x93, 0x94, 0x95, 0x96, 0x97, 0xD6]
/-- AND A,r / AND A,(HL) / AND A,n. -/
def andOps : List Nat := [0xA0, 0xA1, 0xA2, 0xA3, 0xA4, 0xA5, 0xA6, 0xA7, 0xE6]
/-- XOR A,r / XOR A,(HL) / XOR A,n. -/
def xorOps : List Nat := [0xA8, 0xA9, 0xAA, 0xAB, 0xAC, 0xAD, 0xAE, 0xAF, 0xEE]
/-- OR A,r / OR A,(HL) / OR A,n. -/
def orOps : List Nat := [0xB0, 0xB1, 0xB2, 0xB3, 0xB4, 0xB5, 0xB6, 0xB7, 0xF6]

/-- The operand an 8-bit arithmetic or logical opcode names, read in the state
the instruction starts from: the immediate byte at `PC` for 0xC6, 0xCE, 0xD6,
0xE6, 0xEE and 0xF6, else by the low three bits of the opcode one of `B`, `C`,
`D`, `E`, `H`, `L`, the byte at address `HL`, `A`. -/
def aluOperand (bus : MMU M) (cpu : Z80 M) (op : Nat) : Nat :=
  if op ∈ [0xC6, 0xCE, 0xD6, 0xE6, 0xEE, 0xF6] then bus.ReadByte cpu.mmu cpu.PC
  else if op % 8 = 0 then cpu.R.B
  else if op % 8 = 1 then cpu.R.C
  else if op % 8 = 2 then cpu.R.D
  else if op % 8 = 3 then cpu.R.E
  else if op % 8 = 4 then cpu.R.H
  else if op % 8 = 5 then cpu.R.L
  else if op % 8 = 6 then bus.ReadByte cpu.mmu (JoinBytes cpu.R.H cpu.R.L)
  else cpu.R.A

/-- Subtraction of bytes as the integers say it: `(x - y) mod 256`. -/
def sub8 (x y : Nat) : Nat := (((x : Int) - (y : Int)) % 256).toNat

/-- The documented value of `A` after an 8-bit arithmetic or logical opcode on
accumulator `a`, operand `v` and carry-in `c`. -/
def aluResult (op a v c : Nat) : Nat :=
  if op ∈ addOps then (a + v) % 256
  else if op ∈ adcOps then (a + v + c) % 256
  else if op ∈ subOps then sub8 a v
  else if op ∈ andOps then a &&& v
  else if op ∈ xorOps then a ^^^ v
  else a ||| v

/-! ## The stack opcodes -/

/-- The register pairs of PUSH and POP: push opcode, pop opcode, high register,
low register. -/
structure StackPair where
  push : Nat
  pop : Nat
  hi : Reg
  lo : Reg
deriving DecidableEq

/-- AF, BC, DE and HL with their PUSH and POP opcodes. -/
def stackPairs : List StackPair :=
  [{ push := 0xF5, pop := 0xF1, hi := .A, lo := .F },
   { push := 0xC5, pop := 0xC1, hi := .B, lo := .C },
   { push := 0xD5, pop := 0xD1, hi := .D, lo := .E },
   { push := 0xE5, pop := 0xE1, hi := .H, lo := .L }]

/-! ## Reachable states -/

/-- The states reached from a newly created CPU, over any bus state, by
successful steps each of which starts in a state satisfying `ok`. -/
inductive ReachableBy (bus : MMU M) (ok : Z80 M → Prop) : Z80 M → Prop where
  | new (m : M) : ReachableBy bus ok (NewCPU m)
  | step {cpu s : Z80 M} : ReachableBy bus ok cpu → ok cpu → cpu.Step bus = some s →
      ReachableBy bus ok s

/-- The states reached from a newly created CPU by any number of successful
steps. -/
def Reachable (bus : MMU M) (cpu : Z80 M) : Prop := ReachableBy bus (fun _ => True) cpu

/-- A step that is not a `POP AF` putting a byte with a non-zero low nibble into
`F`: when the opcode at `PC` is 0xF1, the byte at `SP` has its low nibble
clear. -/
def popAFClean (bus : MMU M) (cpu : Z80 M) : Prop :=
  bus.ReadByte cpu.mmu cpu.PC = 0xF1 → bus.ReadByte cpu.mmu cpu.SP &&& 0x0F = 0

/-- The registers all zero. -/
def zeroRegisters : Registers :=
  { A := 0, B := 0, C := 0, D := 0, E := 0, F := 0, H := 0, L := 0 }

/-- The documented flags of SUB, on the state `d` the instruction leaves, for
the old accumulator `a` and the operand `v`: N set, Z set iff the new `A` is 0,
C set iff the new `A` is greater than the old one, which is to say that the
operand is greater than the old `A`, and H set iff
`((a & 0xF) - (v & 0xF)) & 0x10` is non-zero in 8-bit arithmetic, which is to
say that the operand's low nibble is greater than the old `A`'s. -/
def subFlagsDocumented (a v : Nat) (d : Z80 M) : Prop :=
  d.IsFlagSet N = some true ∧
  (d.IsFlagSet Z = some true ↔ d.R.A = 0) ∧
  (d.IsFlagSet C = some true ↔ d.R.A > a) ∧ (d.R.A > a ↔ v > a) ∧
  (d.IsFlagSet H = some true ↔ sub8 (a &&& 0xF) (v &&& 0xF) &&& 0x10 ≠ 0) ∧
  (sub8 (a &&& 0xF) (v &&& 0xF) &&& 0x10 ≠ 0 ↔ v &&& 0xF > a &&& 0xF)

/-! ## Concrete machines -/

/-- A flat-memory state about to run `LD A,0x42` with both clocks non-zero, the
machine-cycle clock one step from wrapping. -/
def clockedCPU : Z80 (Nat → Nat) :=
  { PC := 0, SP := 0, R := zeroRegisters, MachineCycles := { m := 65535, t := 65532 },
    LastInstrCycle := { m := 7, t := 9 }, mmu := memOf [0x3E, 0x42] }

/-- A flat-memory state about to run `LD D,D` (0x52), with values in every
register, both clocks non-zero and a last-instruction clock of (7, 9). -/
def staleClockCPU : Z80 (Nat → Nat) :=
  { PC := 0, SP := 9, R := ⟨1, 2, 3, 4, 5, 6, 7, 0xF0⟩, MachineCycles := { m := 10, t := 40 },
    LastInstrCycle := { m := 7, t := 9 }, mmu := memOf [0x52] }

/-- The flat memory holding `LD SP,0x0004` and `POP AF`, with 0xB0 and 0x55 on
the stack. -/
def popAFProgram : Nat → Nat := memOf [0x31, 0x04, 0x00, 0xF1, 0xB0, 0x55]

/-- The state after `LD SP,0x0004`. -/
def popAFState1 : Z80 (Nat → Nat) :=
  ((NewCPU popAFProgram).Step flatBus).getD (NewCPU popAFProgram)

/-- The state after `LD SP,0x0004` and `POP AF`. -/
def popAFState2 : Z80 (Nat → Nat) := (popAFState1.Step flatBus).getD popAFState1

/-! ## Tables and documented effects for the loads, the stack and the flags -/

/-- The four flags: identifier, mask in `F`, bit position. -/
def flagTable : List (Nat × Nat × Nat) := [(Z, 0x80, 7), (N, 0x40, 6), (H, 0x20, 5), (C, 0x10, 4)]

/-- Subtraction of 16-bit words as the integers say it: `(x - k) mod 2^16`. -/
def sub16 (x k : Nat) : Nat := (((x : Int) - (k : Int)) % 65536).toNat

/-- The 16-bit immediate loads into a register pair: opcode, high register, low
register. -/
def wordLoads : List (Nat × Reg × Reg) := [(0x01, .B, .C), (0x11, .D, .E), (0x21, .H, .L)]

/-- The loads of a register into itself: opcode and register. -/
def selfLoads : List (Nat × Reg) :=
  [(0x7F, .A), (0x40, .B), (0x49, .C), (0x52, .D), (0x5B, .E), (0x64, .H), (0x6D, .L)]

/-- The documented effect of `LD rr,nn` from the state `c` the instruction starts
in, with `PC` past the opcode, to the state `d`: the byte at `PC` is in the high
register, the byte at `PC + 1` in the low register, `PC` is two further, and no
other register, nor `SP`, nor the memory has changed. -/
def pairLoaded (bus : MMU M) (c d : Z80 M) (hi lo : Reg) : Prop :=
  d.R.get hi = bus.ReadByte c.mmu c.PC ∧
  d.R.get lo = bus.ReadByte c.mmu ((c.PC + 1) % 65536) ∧
  d.PC = (c.PC + 2) % 65536 ∧
  (∀ r, r ≠ hi → r ≠ lo → d.R.get r = c.R.get r) ∧
  d.SP = c.SP ∧ d.mmu = c.mmu

/-- The documented effect of `PUSH rr` over the flat memory, from `cpu` to `d`:
`SP` is `(SP - 2) mod 2^16`, the byte at `(SP - 1) mod 2^16` is the high
register, the byte at `(SP - 2) mod 2^16` the low register, so that the
little-endian word at the new `SP` is `high * 256 + low`, every other memory
byte, every register and `PC` are unchanged, and the recorded cost is (3, 12). -/
def pushed (cpu d : Z80 (Nat → Nat)) (hi lo : Reg) : Prop :=
  d.SP = sub16 cpu.SP 2 ∧
  flatBus.ReadByte d.mmu (sub16 cpu.SP 1) = cpu.get hi ∧
  flatBus.ReadByte d.mmu (sub16 cpu.SP 2) = cpu.get lo ∧
  flatBus.ReadWord d.mmu d.SP = cpu.get hi * 256 + cpu.get lo ∧
  (∀ a, a ≠ sub16 cpu.SP 1 → a ≠ sub16 cpu.SP 2 → d.mmu a = cpu.mmu a) ∧
  d.R = cpu.R ∧ d.PC = cpu.PC ∧
  d.LastInstrCycle = { m := 3, t := 12 }

/-- The 8-bit load opcodes: `LD r,n`; `LD r,r'`; `LD r,(HL)`; `LD (HL),r`;
`LD A,(BC)`; `LD A,(DE)`; `LD (BC),A`; `LD (DE),A`; `LD A,(nn)`; `LD (nn),A`;
`LD (HL),n`; `LD A,(0xFF00+C)`; `LD (0xFF00+C),A`; the two LDH forms; LDD and
LDI in both directions. -/
def load8Ops : List Nat :=
  [0x06, 0x0E, 0x16, 0x1E, 0x26, 0x2E, 0x3E, 0x40, 0x41, 0x42, 0x43, 0x44,
   0x45, 0x47, 0x48, 0x49, 0x4A, 0x4B, 0x4C, 0x4D, 0x4F, 0x50, 0x51, 0x52,
   0x53, 0x54, 0x55, 0x57, 0x58, 0x59, 0x5A, 0x5B, 0x5C, 0x5D, 0x5F, 0x60,
   0x61, 0x62, 0x63, 0x64, 0x65, 0x67, 0x68, 0x69, 0x6A, 0x6B, 0x6C, 0x6D,
   0x6F, 0x78, 0x79, 0x7A, 0x7B, 0x7C, 0x7D, 0x7F, 0x46, 0x4E, 0x56, 0x5E,
   0x66, 0x6E, 0x7E, 0x70, 0x71, 0x72, 0x73, 0x74, 0x75, 0x77, 0x0A, 0x1A,
   0x02, 0x12, 0xFA, 0xEA, 0x36, 0xF2, 0xE2, 0xE0, 0xF0, 0x3A, 0x32, 0x2A,
   0x22]

/-! ## The flags of ADD and ADC, as documented -/

/-- The ADD opcodes whose operand is not `A`: ADD A,B / C / D / E / H / L,
ADD A,(HL) and ADD A,n. -/
def addOpsNotA : List Nat := [0x80, 0x81, 0x82, 0x83, 0x84, 0x85, 0x86, 0xC6]

/-- The documented result of ADD on the state `d` the instruction leaves, for
the old accumulator `a` and the operand `v`: the new `A` is `(a + v) mod 256`,
N is clear, Z is set iff `(a + v) mod 256 = 0`, C is set iff `a + v >= 256`, a
carry out of bit 7, and H is set iff `(a & 0xF) + (v & 0xF) >= 16`, a carry from
bit 3 to bit 4. -/
def addFlagsDocumented (a v : Nat) (d : Z80 M) : Prop :=
  d.R.A = (a + v) % 256 ∧
  d.IsFlagSet N = some false ∧
  (d.IsFlagSet Z = some true ↔ (a + v) % 256 = 0) ∧
  (d.IsFlagSet C = some true ↔ a + v ≥ 256) ∧
  (d.IsFlagSet H = some true ↔ (a &&& 0xF) + (v &&& 0xF) ≥ 16)

/-- The carry an ADC instruction leaves in `d`, against the carry it found in
`cpu`: found clear, C is set afterwards iff the new `A` is less than the old
one; found set, C is set afterwards iff the new `A` is not less than the old
one. -/
def adcCarry (cpu d : Z80 M) : Prop :=
  (cpu.IsFlagSet C = some false → (d.IsFlagSet C = some true ↔ d.R.A < cpu.R.A)) ∧
  (cpu.IsFlagSet C = some true → (d.IsFlagSet C = some true ↔ ¬ d.R.A < cpu.R.A))

/-! ## The loads that step HL, and LDHL -/

/-- The 8-bit loads that step HL: opcode, whether the byte goes from memory to
`A` (else from `A` to memory), whether HL steps down (else up). These are
LDD A,(HL), LDD (HL),A, LDI A,(HL) and LDI (HL),A. -/
def hlMoves : List (Nat × Bool × Bool) :=
  [(0x3A, true, true), (0x32, false, true), (0x2A, true, false), (0x22, false, false)]

/-- The documented effect of LDD and LDI from `cpu` to `d`, writing HL for
`H * 256 + L`: the byte moves between `A` and the address given by the old HL;
afterwards `H` and `L` are bytes, HL is the old HL less one (`down`) or plus
one, modulo 2^16, and `H` has changed iff `L` wrapped, from 0x00 to 0xFF going
down and from 0xFF to 0x00 going up. -/
def hlEffect (bus : MMU M) (cpu d : Z80 M) (load down : Bool) : Prop :=
  (if load then d.R.A = bus.ReadByte cpu.mmu (cpu.R.H * 256 + cpu.R.L) ∧ d.mmu = cpu.mmu
    else d.mmu = bus.WriteByte cpu.mmu (cpu.R.H * 256 + cpu.R.L) cpu.R.A ∧ d.R.A = cpu.R.A) ∧
  d.R.H < 256 ∧ d.R.L < 256 ∧
  d.R.H * 256 + d.R.L =
    (if down then sub16 (cpu.R.H * 256 + cpu.R.L) 1 else (cpu.R.H * 256 + cpu.R.L + 1) % 65536) ∧
  (d.R.H ≠ cpu.R.H ↔
    if down then cpu.R.L = 0x00 ∧ d.R.L = 0xFF else cpu.R.L = 0xFF ∧ d.R.L = 0x00)

/-- The documented effect of `LDHL SP,n` from `cpu` to `d`, for the immediate
byte `n` as an unsigned value: `H * 256 + L` is `(SP + n) mod 2^16` with `H` and
`L` bytes, `SP` is unchanged, Z and N are clear, C is set iff `SP + n >= 2^16`
and H is set iff `(SP & 0xF) + (n & 0xF) >= 16`. -/
def ldhlEffect (cpu d : Z80 M) (n : Nat) : Prop :=
  d.R.H * 256 + d.R.L = (cpu.SP + n) % 65536 ∧ d.R.H < 256 ∧ d.R.L < 256 ∧
  d.SP = cpu.SP ∧
  d.IsFlagSet Z = some false ∧ d.IsFlagSet N = some false ∧
  (d.IsFlagSet C = some true ↔ cpu.SP + n ≥ 65536) ∧
  (d.IsFlagSet H = some true ↔ (cpu.SP &&& 0xF) + (n &&& 0xF) ≥ 16)

/-! ## The high-page loads -/

/-- The bus address `0xFF00 + Word(cpu.R.C)` that `LDr_ffplusc` reads and
`LDffplusc_r` writes (`valueAddr` in the source). -/
def Z80.valueAddr (cpu : Z80 M) : Nat := (0xFF00 + cpu.R.C) % 65536

/-- The bus address `Word(0xFF00) + cpu.PC` that `LDHn_r` reads and `LDHr_n`
writes, a sum of 16-bit words. -/
def Z80.ldhAddr (cpu : Z80 M) : Nat := (0xFF00 + cpu.PC) % 65536

/-- The high page, addresses 0xFF00-0xFFFF. -/
def highPage (a : Nat) : Prop := 0xFF00 ≤ a ∧ a ≤ 0xFFFF

instance (a : Nat) : Decidable (highPage a) := by
  unfold highPage; infer_instance

/-- A flat memory with the opcode `op` at address 0x00FF, the byte 0x99 at
address 0x0000 and zero elsewhere. -/
def ldhMemory (op : Nat) : Nat → Nat :=
  fun a => if a = 0xFF then op else if a = 0 then 0x99 else 0

/-- A CPU about to fetch at `PC = 0x00FF` over `ldhMemory op`, with `A = 0x42`. -/
def ldhCPU (op : Nat) : Z80 (Nat → Nat) :=
  mkCPU { zeroRegisters with A := 0x42 } 0xFF 0 (ldhMemory op)

/-! ## The load block 0x40-0x7F, decoded by table -/

/-- An operand of the load block: a register, or the byte at address HL. -/
inductive Operand where
  | reg (r : Reg)
  | atHL
deriving DecidableEq

/-- The operand table of the load block:
`[B, C, D, E, H, L, the byte at address HL, A]`. -/
def operandTable : List Operand :=
  [.reg .B, .reg .C, .reg .D, .reg .E, .reg .H, .reg .L, .atHL, .reg .A]

/-- The opcodes 0x40-0x7F other than 0x76 (HALT). -/
def loadBlock : List Nat :=
  ((List.range 64).map (fun i => 0x40 + i)).filter (fun op => op ≠ 0x76)

/-- The regular decoding of the load block, written from its description and
not from the dispatcher: the state one step on `op` leaves when it is the
move `destination <- source` with destination `operandTable[(op >> 3) & 7]` and
source `operandTable[op & 7]`. The source value and the address HL
(`H * 256 + L`) are read in the state before; `PC` advances by 1; the flags and
all other registers are as before; the machine-cycle clock advances by (1, 4)
when both operands are registers and by (2, 8) when one is the byte at HL; the
last-instruction clock is (0, 0), as after every step. -/
def tableLoad (bus : MMU M) (cpu : Z80 M) (op : Nat) : Z80 M :=
  let dst := operandTable.getD ((op >>> 3) &&& 7) .atHL
  let src := operandTable.getD (op &&& 7) .atHL
  let HL := cpu.R.H * 256 + cpu.R.L
  let v := match src with
    | .reg r => cpu.R.get r
    | .atHL => bus.ReadByte cpu.mmu HL
  let cost : Nat × Nat := if dst = .atHL ∨ src = .atHL then (2, 8) else (1, 4)
  { PC := (cpu.PC + 1) % 65536
    SP := cpu.SP
    R := match dst with
      | .reg r => cpu.R.set r v
      | .atHL => cpu.R
    mmu := match dst with
      | .reg _ => cpu.mmu
      | .atHL => bus.WriteByte cpu.mmu HL v
    MachineCycles :=
      { m := (cpu.MachineCycles.m + cost.1) % 65536
        t := (cpu.MachineCycles.t + cost.2) % 65536 }
    LastInstrCycle := { m := 0, t := 0 } }

/-! ## The flag operations on their four identifiers -/

theorem SetFlag_Z (cpu : Z80 M) : cpu.SetFlag Z = some (cpu.set .F (cpu.R.F ^^^ 0x80)) := by
  simp [Z80.SetFlag]

theorem SetFlag_N (cpu : Z80 M) : cpu.SetFlag N = some (cpu.set .F (cpu.R.F ^^^ 0x40)) := by
  simp [Z80.SetFlag, N, Z]

theorem SetFlag_H (cpu : Z80 M) : cpu.SetFlag H = some (cpu.set .F (cpu.R.F ^^^ 0x20)) := by
  simp [Z80.SetFlag, N, Z, H]

theorem SetFlag_C (cpu : Z80 M) : cpu.SetFlag C = some (cpu.set .F (cpu.R.F ^^^ 0x10)) := by
  simp [Z80.SetFlag, N, Z, H, C]

theorem ResetFlag_Z (cpu : Z80 M) : cpu.ResetFlag Z = some (cpu.set .F (cpu.R.F &&& 0x7F)) := by
  simp [Z80.ResetFlag]

theorem ResetFlag_N (cpu : Z80 M) : cpu.ResetFlag N = some (cpu.set .F (cpu.R.F &&& 0xBF)) := by
  simp [Z80.ResetFlag, N, Z]

theorem ResetFlag_H (cpu : Z80 M) : cpu.ResetFlag H = some (cpu.set .F (cpu.R.F &&& 0xDF)) := by
  simp [Z80.ResetFlag, N, Z, H]

theorem ResetFlag_C (cpu : Z80 M) : cpu.ResetFlag C = some (cpu.set .F (cpu.R.F &&& 0xEF)) := by
  simp [Z80.ResetFlag, N, Z, H, C]

theorem IsFlagSet_C (cpu : Z80 M) : cpu.IsFlagSet C = some (cpu.R.F &&& 0x10 == 0x10) := by
  simp [Z80.IsFlagSet, N, Z, H, C]

theorem ite_SetFlag (cpu : Z80 M) (c : Prop) [Decidable c] (k : Nat) :
    (if c then some (cpu.set .F (cpu.R.F ^^^ k)) else some cpu) = some (cpu.xorIf c k) := by
  unfold Z80.xorIf; split <;> rfl

/-! ## Projections of the state updates -/

@[simp] theorem set_PC (cpu : Z80 M) (r : Reg) (v : Nat) : (cpu.set r v).PC = cpu.PC := rfl
@[simp] theorem set_SP (cpu : Z80 M) (r : Reg) (v : Nat) : (cpu.set r v).SP = cpu.SP := rfl
@[simp] theorem set_mmu (cpu : Z80 M) (r : Reg) (v : Nat) : (cpu.set r v).mmu = cpu.mmu := rfl
@[simp] theorem set_MachineCycles (cpu : Z80 M) (r : Reg) (v : Nat) :
    (cpu.set r v).MachineCycles = cpu.MachineCycles := rfl
@[simp] theorem set_LastInstrCycle (cpu : Z80 M) (r : Reg) (v : Nat) :
    (cpu.set r v).LastInstrCycle = cpu.LastInstrCycle := rfl
@[simp] theorem set_R (cpu : Z80 M) (r : Reg) (v : Nat) : (cpu.set r v).R = cpu.R.set r v := rfl

@[simp] theorem xorIf_PC (cpu : Z80 M) (c : Prop) [Decidable c] (k : Nat) :
    (cpu.xorIf c k).PC = cpu.PC := by unfold Z80.xorIf; split <;> rfl
@[simp] theorem xorIf_SP (cpu : Z80 M) (c : Prop) [Decidable c] (k : Nat) :
    (cpu.xorIf c k).SP = cpu.SP := by unfold Z80.xorIf; split <;> rfl
@[simp] theorem xorIf_mmu (cpu : Z80 M) (c : Prop) [Decidable c] (k : Nat) :
    (cpu.xorIf c k).mmu = cpu.mmu := by unfold Z80.xorIf; split <;> rfl
@[simp] theorem xorIf_MachineCycles (cpu : Z80 M) (c : Prop) [Decidable c] (k : Nat) :
    (cpu.xorIf c k).MachineCycles = cpu.MachineCycles := by unfold Z80.xorIf; split <;> rfl
@[simp] theorem xorIf_LastInstrCycle (cpu : Z80 M) (c : Prop) [Decidable c] (k : Nat) :
    (cpu.xorIf c k).LastInstrCycle = cpu.LastInstrCycle := by unfold Z80.xorIf; split <;> rfl
@[simp] theorem xorIf_R (cpu : Z80 M) (c : Prop) [Decidable c] (k : Nat) :
    (cpu.xorIf c k).R = cpu.R.set .F (cpu.R.F ^^^ (if c then k else 0)) := by
  unfold Z80.xorIf; split <;> simp [Registers.set, Z80.set]

@[simp] theorem setLast_PC (cpu : Z80 M) (m t : Nat) : (cpu.setLast m t).PC = cpu.PC := rfl
@[simp] theorem setLast_SP (cpu : Z80 M) (m t : Nat) : (cpu.setLast m t).SP = cpu.SP := rfl
@[simp] theorem setLast_mmu (cpu : Z80 M) (m t : Nat) : (cpu.setLast m t).mmu = cpu.mmu := rfl
@[simp] theorem setLast_R (cpu : Z80 M) (m t : Nat) : (cpu.setLast m t).R = cpu.R := rfl
@[simp] theorem setLast_MachineCycles (cpu : Z80 M) (m t : Nat) :
    (cpu.setLast m t).MachineCycles = cpu.MachineCycles := rfl
@[simp] theorem setLast_LastInstrCycle (cpu : Z80 M) (m t : Nat) :
    (cpu.setLast m t).LastInstrCycle = { m := m, t := t } := rfl

@[simp] theorem IncrementPC_PC (cpu : Z80 M) (n : Nat) :
    (cpu.IncrementPC n).PC = (cpu.PC + n) % 65536 := rfl
@[simp] theorem IncrementPC_SP (cpu : Z80 M) (n : Nat) : (cpu.IncrementPC n).SP = cpu.SP := rfl
@[simp] theorem IncrementPC_mmu (cpu : Z80 M) (n : Nat) : (cpu.IncrementPC n).mmu = cpu.mmu := rfl
@[simp] theorem IncrementPC_R (cpu : Z80 M) (n : Nat) : (cpu.IncrementPC n).R = cpu.R := rfl
@[simp] theorem IncrementPC_MachineCycles (cpu : Z80 M) (n : Nat) :
    (cpu.IncrementPC n).MachineCycles = cpu.MachineCycles := rfl
@[simp] theorem IncrementPC_LastInstrCycle (cpu : Z80 M) (n : Nat) :
    (cpu.IncrementPC n).LastInstrCycle = cpu.LastInstrCycle := rfl

@[simp] theorem Registers.set_get (R : Registers) (r r' : Reg) (v : Nat) :
    (R.set r v).get r' = if r' = r then v else R.get r' := by
  cases r <;> cases r' <;> rfl

@[simp] theorem get_eq (cpu : Z80 M) (r : Reg) : cpu.get r = cpu.R.get r := rfl

@[simp] theorem Registers.get_A (R : Registers) : R.get .A = R.A := rfl
@[simp] theorem Registers.get_B (R : Registers) : R.get .B = R.B := rfl
@[simp] theorem Registers.get_C (R : Registers) : R.get .C = R.C := rfl
@[simp] theorem Registers.get_D (R : Registers) : R.get .D = R.D := rfl
@[simp] theorem Registers.get_E (R : Registers) : R.get .E = R.E := rfl
@[simp] theorem Registers.get_H (R : Registers) : R.get .H = R.H := rfl
@[simp] theorem Registers.get_L (R : Registers) : R.get .L = R.L := rfl
@[simp] theorem Registers.get_F (R : Registers) : R.get .F = R.F := rfl

@[simp] theorem Registers.set_A (R : Registers) (r : Reg) (v : Nat) :
    (R.set r v).A = if r = .A then v else R.A := by cases r <;> rfl
@[simp] theorem Registers.set_B (R : Registers) (r : Reg) (v : Nat) :
    (R.set r v).B = if r = .B then v else R.B := by cases r <;> rfl
@[simp] theorem Registers.set_C (R : Registers) (r : Reg) (v : Nat) :
    (R.set r v).C = if r = .C then v else R.C := by cases r <;> rfl
@[simp] theorem Registers.set_D (R : Registers) (r : Reg) (v : Nat) :
    (R.set r v).D = if r = .D then v else R.D := by cases r <;> rfl
@[simp] theorem Registers.set_E (R : Registers) (r : Reg) (v : Nat) :
    (R.set r v).E = if r = .E then v else R.E := by cases r <;> rfl
@[simp] theorem Registers.set_H (R : Registers) (r : Reg) (v : Nat) :
    (R.set r v).H = if r = .H then v else R.H := by cases r <;> rfl
@[simp] theorem Registers.set_L (R : Registers) (r : Reg) (v : Nat) :
    (R.set r v).L = if r = .L then v else R.L := by cases r <;> rfl
@[simp] theorem Registers.set_F (R : Registers) (r : Reg) (v : Nat) :
    (R.set r v).F = if r = .F then v else R.F := by cases r <;> rfl

@[simp] theorem ite_PC (c : Prop) [Decidable c] (a b : Z80 M) :
    (if c then a else b).PC = if c then a.PC else b.PC := by split <;> rfl
@[simp] theorem ite_SP (c : Prop) [Decidable c] (a b : Z80 M) :
    (if c then a else b).SP = if c then a.SP else b.SP := by split <;> rfl
@[simp] theorem ite_mmu (c : Prop) [Decidable c] (a b : Z80 M) :
    (if c then a else b).mmu = if c then a.mmu else b.mmu := by split <;> rfl
@[simp] theorem ite_R (c : Prop) [Decidable c] (a b : Z80 M) :
    (if c then a else b).R = if c then a.R else b.R := by split <;> rfl
@[simp] theorem ite_MachineCycles (c : Prop) [Decidable c] (a b : Z80 M) :
    (if c then a else b).MachineCycles = if c then a.MachineCycles else b.MachineCycles := by
  split <;> rfl
@[simp] theorem ite_LastInstrCycle (c : Prop) [Decidable c] (a b : Z80 M) :
    (if c then a else b).LastInstrCycle = if c then a.LastInstrCycle else b.LastInstrCycle := by
  split <;> rfl
@[simp] theorem Registers.ite_get (c : Prop) [Decidable c] (a b : Registers) (r : Reg) :
    (if c then a else b).get r = if c then a.get r else b.get r := by split <;> rfl
@[simp] theorem Registers.ite_A (c : Prop) [Decidable c] (a b : Registers) :
    (if c then a else b).A = if c then a.A else b.A := by split <;> rfl
@[simp] theorem Registers.ite_F (c : Prop) [Decidable c] (a b : Registers) :
    (if c then a else b).F = if c then a.F else b.F := by split <;> rfl

/-! ## Bits of the flag register -/

theorem xor_and_low (F k : Nat) (hk : k &&& 0xF = 0) : (F ^^^ k) &&& 0xF = F &&& 0xF := by
  rw [Nat.and_xor_distrib_right, hk, Nat.xor_zero]

theorem and_and_low (F k : Nat) (hk : k &&& 0xF = 0xF) : (F &&& k) &&& 0xF = F &&& 0xF := by
  rw [Nat.and_assoc, hk]

theorem and_16_15 : (16 &&& 15 : Nat) = 0 := rfl
theorem and_32_15 : (32 &&& 15 : Nat) = 0 := rfl
theorem and_64_15 : (64 &&& 15 : Nat) = 0 := rfl
theorem and_128_15 : (128 &&& 15 : Nat) = 0 := rfl
theorem and_127_15 : (127 &&& 15 : Nat) = 15 := rfl
theorem and_191_15 : (191 &&& 15 : Nat) = 15 := rfl
theorem and_223_15 : (223 &&& 15 : Nat) = 15 := rfl
theorem and_239_15 : (239 &&& 15 : Nat) = 15 := rfl

theorem ite_and (c : Prop) [Decidable c] (k m : Nat) :
    (if c then k else 0) &&& m = if c then k &&& m else 0 := by
  split <;> simp

/-! ## The frame of every instruction -/

theorem NOP_frame (cpu : Z80 M) (k : Prop) :
    Frame cpu (cpu.NOP) 0 (1, 4) k := by
  simp [Frame, advance, Z80.NOP]

theorem HALT_frame (cpu : Z80 M) (k : Prop) :
    Frame cpu (cpu.HALT) 0 (1, 4) k := by
  simp [Frame, advance, Z80.HALT]

theorem DI_frame (cpu : Z80 M) (k : Prop) :
    Frame cpu (cpu.DI) 0 (1, 4) k := by
  simp [Frame, advance, Z80.DI]

theorem EI_frame (cpu : Z80 M) (k : Prop) :
    Frame cpu (cpu.EI) 0 (1, 4) k := by
  simp [Frame, advance, Z80.EI]

theorem AndA_r_frame (cpu : Z80 M) (r : Reg) (k : Prop) :
    ∃ d, cpu.AndA_r r = some d ∧ Frame cpu d 0 (1, 4) k := by
  simp only [Z80.AndA_r, SetFlag_Z, SetFlag_N, SetFlag_H, SetFlag_C, ResetFlag_Z, ResetFlag_N,
    ResetFlag_H, ResetFlag_C, IsFlagSet_C, ite_SetFlag, Option.pure_def, Option.bind_eq_bind,
    Option.some_bind]
  refine ⟨_, rfl, ?_⟩
  simp [Frame, advance, Nat.and_xor_distrib_right, Nat.and_assoc, ite_and, and_16_15, and_32_15,
    and_64_15, and_128_15, and_127_15, and_191_15, and_223_15, and_239_15]

theorem AndA_hl_frame (bus : MMU M) (cpu : Z80 M) (k : Prop) :
    ∃ d, Z80.AndA_hl bus cpu = some d ∧ Frame cpu d 0 (2, 8) k := by
  simp only [Z80.AndA_hl, SetFlag_Z, SetFlag_N, SetFlag_H, SetFlag_C, ResetFlag_Z, ResetFlag_N,
    ResetFlag_H, ResetFlag_C, IsFlagSet_C, ite_SetFlag, Option.pure_def, Option.bind_eq_bind,
    Option.some_bind]
  refine ⟨_, rfl, ?_⟩
  simp [Frame, advance, Nat.and_xor_distrib_right, Nat.and_assoc, ite_and, and_16_15, and_32_15,
    and_64_15, and_128_15, and_127_15, and_191_15, and_223_15, and_239_15]

theorem AndA_n_frame (bus : MMU M) (cpu : Z80 M) (k : Prop) :
    ∃ d, Z80.AndA_n bus cpu = some d ∧ Frame cpu d 1 (2, 8) k := by
  simp only [Z80.AndA_n, SetFlag_Z, SetFlag_N, SetFlag_H, SetFlag_C, ResetFlag_Z, ResetFlag_N,
    ResetFlag_H, ResetFlag_C, IsFlagSet_C, ite_SetFlag, Option.pure_def, Option.bind_eq_bind,
    Option.some_bind]
  refine ⟨_, rfl, ?_⟩
  simp [Frame, advance, Nat.and_xor_distrib_right, Nat.and_assoc, ite_and, and_16_15, and_32_15,
    and_64_15, and_128_15, and_127_15, and_191_15, and_223_15, and_239_15]

theorem OrA_r_frame (cpu : Z80 M) (r : Reg) (k : Prop) :
    ∃ d, cpu.OrA_r r = some d ∧ Frame cpu d 0 (1, 4) k := by
  simp only [Z80.OrA_r, SetFlag_Z, SetFlag_N, SetFlag_H, SetFlag_C, ResetFlag_Z, ResetFlag_N,
    ResetFlag_H, ResetFlag_C, IsFlagSet_C, ite_SetFlag, Option.pure_def, Option.bind_eq_bind,
    Option.some_bind]
  refine ⟨_, rfl, ?_⟩
  simp [Frame, advance, Nat.and_xor_distrib_right, Nat.and_assoc, ite_and, and_16_15, and_32_15,
    and_64_15, and_128_15, and_127_15, and_191_15, and_223_15, and_239_15]

theorem OrA_hl_frame (bus : MMU M) (cpu : Z80 M) (k : Prop) :
    ∃ d, Z80.OrA_hl bus cpu = some d ∧ Frame cpu d 0 (2, 8) k := by
  simp only [Z80.OrA_hl, SetFlag_Z, SetFlag_N, SetFlag_H, SetFlag_C, ResetFlag_Z, ResetFlag_N,
    ResetFlag_H, ResetFlag_C, IsFlagSet_C, ite_SetFlag, Option.pure_def, Option.bind_eq_bind,
    Option.some_bind]
  refine ⟨_, rfl, ?_⟩
  simp [Frame, advance, Nat.and_xor_distrib_right, Nat.and_assoc, ite_and, and_16_15, and_32_15,
    and_64_15, and_128_15, and_127_15, and_191_15, and_223_15, and_239_15]

theorem OrA_n_frame (bus : MMU M) (cpu : Z80 M) (k : Prop) :
    ∃ d, Z80.OrA_n bus cpu = some d ∧ Frame cpu d 1 (2, 8) k := by
  simp only [Z80.OrA_n, SetFlag_Z, SetFlag_N, SetFlag_H, SetFlag_C, ResetFlag_Z, ResetFlag_N,
    ResetFlag_H, ResetFlag_C, IsFlagSet_C, ite_SetFlag, Option.pure_def, Option.bind_eq_bind,
    Option.some_bind]
  refine ⟨_, rfl, ?_⟩
  simp [Frame, advance, Nat.and_xor_distrib_right, Nat.and_assoc, ite_and, and_16_15, and_32_15,
    and_64_15, and_128_15, and_127_15, and_191_15, and_223_15, and_239_15]

theorem XorA_r_frame (cpu : Z80 M) (r : Reg) (k : Prop) :
    ∃ d, cpu.XorA_r r = some d ∧ Frame cpu d 0 (1, 4) k := by
  simp only [Z80.XorA_r, SetFlag_Z, SetFlag_N, SetFlag_H, SetFlag_C, ResetFlag_Z, ResetFlag_N,
    ResetFlag_H, ResetFlag_C, IsFlagSet_C, ite_SetFlag, Option.pure_def, Option.bind_eq_bind,
    Option.some_bind]
  refine ⟨_, rfl, ?_⟩
  simp [Frame, advance, Nat.and_xor_distrib_right, Nat.and_assoc, ite_and, and_16_15, and_32_15,
    and_64_15, and_128_15, and_127_15, and_191_15, and_223_15, and_239_15]

theorem XorA_hl_frame (bus : MMU M) (cpu : Z80 M) (k : Prop) :
    ∃ d, Z80.XorA_hl bus cpu = some d ∧ Frame cpu d 0 (2, 8) k := by
  simp only [Z80.XorA_hl, SetFlag_Z, SetFlag_N, SetFlag_H, SetFlag_C, ResetFlag_Z, ResetFlag_N,
    ResetFlag_H, ResetFlag_C, IsFlagSet_C, ite_SetFlag, Option.pure_def, Option.bind_eq_bind,
    Option.some_bind]
  refine ⟨_, rfl, ?_⟩
  simp [Frame, advance, Nat.and_xor_distrib_right, Nat.and_assoc, ite_and, and_16_15, and_32_15,
    and_64_15, and_128_15, and_127_15, and_191_15, and_223_15, and_239_15]

theorem XorA_n_frame (bus : MMU M) (cpu : Z80 M) (k : Prop) :
    ∃ d, Z80.XorA_n bus cpu = some d ∧ Frame cpu d 1 (2, 8) k := by
  simp only [Z80.XorA_n, SetFlag_Z, SetFlag_N, SetFlag_H, SetFlag_C, ResetFlag_Z, ResetFlag_N,
    ResetFlag_H, ResetFlag_C, IsFlagSet_C, ite_SetFlag, Option.pure_def, Option.bind_eq_bind,
    Option.some_bind]
  refine ⟨_, rfl, ?_⟩
  simp [Frame, advance, Nat.and_xor_distrib_right, Nat.and_assoc, ite_and, and_16_15, and_32_15,
    and_64_15, and_128_15, and_127_15, and_191_15, and_223_15, and_239_15]

theorem SubA_r_frame (cpu : Z80 M) (r : Reg) (k : Prop) :
    ∃ d, cpu.SubA_r r = some d ∧ Frame cpu d 0 (1, 4) k := by
  simp only [Z80.SubA_r, SetFlag_Z, SetFlag_N, SetFlag_H, SetFlag_C, ResetFlag_Z, ResetFlag_N,
    ResetFlag_H, ResetFlag_C, IsFlagSet_C, ite_SetFlag, Option.pure_def, Option.bind_eq_bind,
    Option.some_bind]
  refine ⟨_, rfl, ?_⟩
  simp [Frame, advance, Nat.and_xor_distrib_right, Nat.and_assoc, ite_and, and_16_15, and_32_15,
    and_64_15, and_128_15, and_127_15, and_191_15, and_223_15, and_239_15]

theorem SubA_hl_frame (bus : MMU M) (cpu : Z80 M) (k : Prop) :
    ∃ d, Z80.SubA_hl bus cpu = some d ∧ Frame cpu d 0 (2, 8) k := by
  simp only [Z80.SubA_hl, SetFlag_Z, SetFlag_N, SetFlag_H, SetFlag_C, ResetFlag_Z, ResetFlag_N,
    ResetFlag_H, ResetFlag_C, IsFlagSet_C, ite_SetFlag, Option.pure_def, Option.bind_eq_bind,
    Option.some_bind]
  refine ⟨_, rfl, ?_⟩
  simp [Frame, advance, Nat.and_xor_distrib_right, Nat.and_assoc, ite_and, and_16_15, and_32_15,
    and_64_15, and_128_15, and_127_15, and_191_15, and_223_15, and_239_15]

theorem SubA_n_frame (bus : MMU M) (cpu : Z80 M) (k : Prop) :
    ∃ d, Z80.SubA_n bus cpu = some d ∧ Frame cpu d 1 (2, 8) k := by
  simp only [Z80.SubA_n, SetFlag_Z, SetFlag_N, SetFlag_H, SetFlag_C, ResetFlag_Z, ResetFlag_N,
    ResetFlag_H, ResetFlag_C, IsFlagSet_C, ite_SetFlag, Option.pure_def, Option.bind_eq_bind,
    Option.some_bind]
  refine ⟨_, rfl, ?_⟩
  simp [Frame, advance, Nat.and_xor_distrib_right, Nat.and_assoc, ite_and, and_16_15, and_32_15,
    and_64_15, and_128_15, and_127_15, and_191_15, and_223_15, and_239_15]

theorem Push_nn_frame (bus : MMU M) (cpu : Z80 M) (r1 r2 : Reg) (k : Prop) :
    Frame cpu (Z80.Push_nn bus cpu r1 r2) 0 (3, 12) k := by
  simp [Frame, advance, Z80.Push_nn]

theorem AddCA_r_frame (cpu : Z80 M) (r : Reg) (k : Prop) :
    ∃ d, cpu.AddCA_r r = some d ∧ Frame cpu d 0 (1, 4) k := by
  simp only [Z80.AddCA_r, SetFlag_Z, SetFlag_N, SetFlag_H, SetFlag_C, ResetFlag_Z, ResetFlag_N,
    ResetFlag_H, ResetFlag_C, IsFlagSet_C, ite_SetFlag, Option.pure_def, Option.bind_eq_bind,
    Option.some_bind]
  refine ⟨_, rfl, ?_⟩
  simp [Frame, advance, Nat.and_xor_distrib_right, Nat.and_assoc, ite_and, and_16_15, and_32_15,
    and_64_15, and_128_15, and_127_15, and_191_15, and_223_15, and_239_15]

theorem AddCA_hl_frame (bus : MMU M) (cpu : Z80 M) (k : Prop) :
    ∃ d, Z80.AddCA_hl bus cpu = some d ∧ Frame cpu d 0 (2, 8) k := by
  simp only [Z80.AddCA_hl, SetFlag_Z, SetFlag_N, SetFlag_H, SetFlag_C, ResetFlag_Z, ResetFlag_N,
    ResetFlag_H, ResetFlag_C, IsFlagSet_C, ite_SetFlag, Option.pure_def, Option.bind_eq_bind,
    Option.some_bind]
  refine ⟨_, rfl, ?_⟩
  simp [Frame, advance, Nat.and_xor_distrib_right, Nat.and_assoc, ite_and, and_16_15, and_32_15,
    and_64_15, and_128_15, and_127_15, and_191_15, and_223_15, and_239_15]

theorem AddCA_n_frame (bus : MMU M) (cpu : Z80 M) (k : Prop) :
    ∃ d, Z80.AddCA_n bus cpu = some d ∧ Frame cpu d 1 (2, 8) k := by
  simp only [Z80.AddCA_n, SetFlag_Z, SetFlag_N, SetFlag_H, SetFlag_C, ResetFlag_Z, ResetFlag_N,
    ResetFlag_H, ResetFlag_C, IsFlagSet_C, ite_SetFlag, Option.pure_def, Option.bind_eq_bind,
    Option.some_bind]
  refine ⟨_, rfl, ?_⟩
  simp [Frame, advance, Nat.and_xor_distrib_right, Nat.and_assoc, ite_and, and_16_15, and_32_15,
    and_64_15, and_128_15, and_127_15, and_191_15, and_223_15, and_239_15]

theorem Pop_nn_frame (bus : MMU M) (cpu : Z80 M) (r1 r2 : Reg) (k : Prop) (hk : k → r1 ≠ .F ∧ r2 ≠ .F) :
    Frame cpu (Z80.Pop_nn bus cpu r1 r2) 0 (3, 12) k := by
  simp [Frame, advance, Z80.Pop_nn]
  intro h
  simp [(hk h).1, (hk h).2]

theorem LDnn_SP_frame (bus : MMU M) (cpu : Z80 M) (k : Prop) :
    Frame cpu (Z80.LDnn_SP bus cpu) 2 (5, 20) k := by
  simp [Frame, advance, Z80.LDnn_SP]

theorem LDrn_frame (bus : MMU M) (cpu : Z80 M) (r : Reg) (k : Prop) (hr : r ≠ .F) :
    Frame cpu (Z80.LDrn bus cpu r) 1 (2, 8) k := by
  simp [Frame, advance, Z80.LDrn, hr]

theorem LDr_hl_frame (bus : MMU M) (cpu : Z80 M) (r : Reg) (k : Prop) (hr : r ≠ .F) :
    Frame cpu (Z80.LDr_hl bus cpu r) 0 (2, 8) k := by
  simp [Frame, advance, Z80.LDr_hl, hr]

theorem LDr_bc_frame (bus : MMU M) (cpu : Z80 M) (r : Reg) (k : Prop) (hr : r ≠ .F) :
    Frame cpu (Z80.LDr_bc bus cpu r) 0 (2, 8) k := by
  simp [Frame, advance, Z80.LDr_bc, hr]

theorem LDr_de_frame (bus : MMU M) (cpu : Z80 M) (r : Reg) (k : Prop) (hr : r ≠ .F) :
    Frame cpu (Z80.LDr_de bus cpu r) 0 (2, 8) k := by
  simp [Frame, advance, Z80.LDr_de, hr]

theorem LDr_nn_frame (bus : MMU M) (cpu : Z80 M) (r : Reg) (k : Prop) (hr : r ≠ .F) :
    Frame cpu (Z80.LDr_nn bus cpu r) 2 (4, 16) k := by
  simp [Frame, advance, Z80.LDr_nn, hr]

theorem LDrr_frame (cpu : Z80 M) (r1 r2 : Reg) (k : Prop) (hr1 : r1 ≠ .F) :
    Frame cpu (cpu.LDrr r1 r2) 0 (1, 4) k := by
  simp [Frame, advance, Z80.LDrr, hr1]

theorem LDhl_r_frame (bus : MMU M) (cpu : Z80 M) (r : Reg) (k : Prop) :
    Frame cpu (Z80.LDhl_r bus cpu r) 0 (2, 8) k := by
  simp [Frame, advance, Z80.LDhl_r]

theorem LDbc_r_frame (bus : MMU M) (cpu : Z80 M) (r : Reg) (k : Prop) :
    Frame cpu (Z80.LDbc_r bus cpu r) 0 (2, 8) k := by
  simp [Frame, advance, Z80.LDbc_r]

theorem LDde_r_frame (bus : MMU M) (cpu : Z80 M) (r : Reg) (k : Prop) :
    Frame cpu (Z80.LDde_r bus cpu r) 0 (2, 8) k := by
  simp [Frame, advance, Z80.LDde_r]

theorem LDnn_r_frame (bus : MMU M) (cpu : Z80 M) (r : Reg) (k : Prop) :
    Frame cpu (Z80.LDnn_r bus cpu r) 2 (4, 16) k := by
  simp [Frame, advance, Z80.LDnn_r]

theorem LDhl_n_frame (bus : MMU M) (cpu : Z80 M) (k : Prop) :
    Frame cpu (Z80.LDhl_n bus cpu) 1 (3, 12) k := by
  simp [Frame, advance, Z80.LDhl_n]

theorem LDr_ffplusc_frame (bus : MMU M) (cpu : Z80 M) (r : Reg) (k : Prop) (hr : r ≠ .F) :
    Frame cpu (Z80.LDr_ffplusc bus cpu r) 0 (2, 8) k := by
  simp [Frame, advance, Z80.LDr_ffplusc, hr]

theorem LDffplusc_r_frame (bus : MMU M) (cpu : Z80 M) (r : Reg) (k : Prop) :
    Frame cpu (Z80.LDffplusc_r bus cpu r) 0 (2, 8) k := by
  simp [Frame, advance, Z80.LDffplusc_r]

theorem LDDr_hl_frame (bus : MMU M) (cpu : Z80 M) (r : Reg) (k : Prop) (hr : r ≠ .F) :
    Frame cpu (Z80.LDDr_hl bus cpu r) 0 (2, 8) k := by
  simp [Frame, advance, Z80.LDDr_hl, Z80.decHL, hr]

theorem LDDhl_r_frame (bus : MMU M) (cpu : Z80 M) (r : Reg) (k : Prop) :
    Frame cpu (Z80.LDDhl_r bus cpu r) 0 (2, 8) k := by
  simp [Frame, advance, Z80.LDDhl_r, Z80.decHL]

theorem LDIr_hl_frame (bus : MMU M) (cpu : Z80 M) (r : Reg) (k : Prop) (hr : r ≠ .F) :
    Frame cpu (Z80.LDIr_hl bus cpu r) 0 (2, 8) k := by
  simp [Frame, advance, Z80.LDIr_hl, Z80.incHL, hr]

theorem LDIhl_r_frame (bus : MMU M) (cpu : Z80 M) (r : Reg) (k : Prop) :
    Frame cpu (Z80.LDIhl_r bus cpu r) 0 (2, 8) k := by
  simp [Frame, advance, Z80.LDIhl_r, Z80.incHL]

theorem LDHn_r_frame (bus : MMU M) (cpu : Z80 M) (r : Reg) (k : Prop) (hr : r ≠ .F) :
    Frame cpu (Z80.LDHn_r bus cpu r) 1 (3, 12) k := by
  simp [Frame, advance, Z80.LDHn_r, hr]

theorem LDHr_n_frame (bus : MMU M) (cpu : Z80 M) (r : Reg) (k : Prop) :
    Frame cpu (Z80.LDHr_n bus cpu r) 1 (3, 12) k := by
  simp [Frame, advance, Z80.LDHr_n]

theorem LDn_nn_frame (bus : MMU M) (cpu : Z80 M) (r1 r2 : Reg) (k : Prop) (hr1 : r1 ≠ .F) (hr2 : r2 ≠ .F) :
    Frame cpu (Z80.LDn_nn bus cpu r1 r2) 2 (3, 12) k := by
  simp [Frame, advance, Z80.LDn_nn, hr1, hr2]

theorem LDSP_nn_frame (bus : MMU M) (cpu : Z80 M) (k : Prop) :
    Frame cpu (Z80.LDSP_nn bus cpu) 2 (3, 12) k := by
  simp [Frame, advance, Z80.LDSP_nn]

theorem LDHLSP_n_frame (bus : MMU M) (cpu : Z80 M) (k : Prop) :
    ∃ d, Z80.LDHLSP_n bus cpu = some d ∧ Frame cpu d 1 (3, 12) k := by
  simp only [Z80.LDHLSP_n, SetFlag_Z, SetFlag_N, SetFlag_H, SetFlag_C, ResetFlag_Z, ResetFlag_N,
    ResetFlag_H, ResetFlag_C, IsFlagSet_C, ite_SetFlag, Option.pure_def, Option.bind_eq_bind,
    Option.some_bind]
  refine ⟨_, rfl, ?_⟩
  simp [Frame, advance, Nat.and_xor_distrib_right, Nat.and_assoc, ite_and, and_16_15, and_32_15,
    and_64_15, and_128_15, and_127_15, and_191_15, and_223_15, and_239_15]

theorem LDSP_rr_frame (cpu : Z80 M) (r1 r2 : Reg) (k : Prop) :
    Frame cpu (cpu.LDSP_rr r1 r2) 0 (2, 8) k := by
  simp [Frame, advance, Z80.LDSP_rr]

theorem AddA_r_frame (cpu : Z80 M) (r : Reg) (k : Prop) :
    ∃ d, cpu.AddA_r r = some d ∧ Frame cpu d 0 (1, 4) k := by
  simp only [Z80.AddA_r, SetFlag_Z, SetFlag_N, SetFlag_H, SetFlag_C, ResetFlag_Z, ResetFlag_N,
    ResetFlag_H, ResetFlag_C, IsFlagSet_C, ite_SetFlag, Option.pure_def, Option.bind_eq_bind,
    Option.some_bind]
  refine ⟨_, rfl, ?_⟩
  simp [Frame, advance, Nat.and_xor_distrib_right, Nat.and_assoc, ite_and, and_16_15, and_32_15,
    and_64_15, and_128_15, and_127_15, and_191_15, and_223_15, and_239_15]

theorem AddA_hl_frame (bus : MMU M) (cpu : Z80 M) (k : Prop) :
    ∃ d, Z80.AddA_hl bus cpu = some d ∧ Frame cpu d 0 (2, 8) k := by
  simp only [Z80.AddA_hl, SetFlag_Z, SetFlag_N, SetFlag_H, SetFlag_C, ResetFlag_Z, ResetFlag_N,
    ResetFlag_H, ResetFlag_C, IsFlagSet_C, ite_SetFlag, Option.pure_def, Option.bind_eq_bind,
    Option.some_bind]
  refine ⟨_, rfl, ?_⟩
  simp [Frame, advance, Nat.and_xor_distrib_right, Nat.and_assoc, ite_and, and_16_15, and_32_15,
    and_64_15, and_128_15, and_127_15, and_191_15, and_223_15, and_239_15]

theorem AddA_n_frame (bus : MMU M) (cpu : Z80 M) (k : Prop) :
    ∃ d, Z80.AddA_n bus cpu = some d ∧ Frame cpu d 1 (2, 8) k := by
  simp only [Z80.AddA_n, SetFlag_Z, SetFlag_N, SetFlag_H, SetFlag_C, ResetFlag_Z, ResetFlag_N,
    ResetFlag_H, ResetFlag_C, IsFlagSet_C, ite_SetFlag, Option.pure_def, Option.bind_eq_bind,
    Option.some_bind]
  refine ⟨_, rfl, ?_⟩
  simp [Frame, advance, Nat.and_xor_distrib_right, Nat.and_assoc, ite_and, and_16_15, and_32_15,
    and_64_15, and_128_15, and_127_15, and_191_15, and_223_15, and_239_15]

/-- Every implemented opcode is dispatched to an instruction that returns, leaves
the machine-cycle clock alone, records the documented cost, advances `PC` by
the documented operand count and, `POP AF` apart, keeps the low nibble of
`F`. -/
theorem Dispatch_frame (bus : MMU M) (cpu : Z80 M) :
    ∀ op ∈ implementedOpcodes, ∃ d, cpu.Dispatch bus op = some d ∧
      Frame cpu d (operandCount op) (documentedCost op) (op ≠ 0xF1) := by
  simp only [implementedOpcodes, List.forall_mem_cons, List.not_mem_nil, false_imp_iff,
    implies_true, and_true]
  refine ⟨?_, ?_, ?_, ?_, ?_, ?_, ?_, ?_, ?_, ?_, ?_, ?_, ?_, ?_, ?_, ?_,
    ?_, ?_, ?_, ?_, ?_, ?_, ?_, ?_, ?_, ?_, ?_, ?_, ?_, ?_, ?_, ?_,
    ?_, ?_, ?_, ?_, ?_, ?_, ?_, ?_, ?_, ?_, ?_, ?_, ?_, ?_, ?_, ?_,
    ?_, ?_, ?_, ?_, ?_, ?_, ?_, ?_, ?_, ?_, ?_, ?_, ?_, ?_, ?_, ?_,
    ?_, ?_, ?_, ?_, ?_, ?_, ?_, ?_, ?_, ?_, ?_, ?_, ?_, ?_, ?_, ?_,
    ?_, ?_, ?_, ?_, ?_, ?_, ?_, ?_, ?_, ?_, ?_, ?_, ?_, ?_, ?_, ?_,
    ?_, ?_, ?_, ?_, ?_, ?_, ?_, ?_, ?_, ?_, ?_, ?_, ?_, ?_, ?_, ?_,
    ?_, ?_, ?_, ?_, ?_, ?_, ?_, ?_, ?_, ?_, ?_, ?_, ?_, ?_, ?_, ?_,
    ?_, ?_, ?_, ?_, ?_, ?_, ?_, ?_, ?_, ?_, ?_, ?_, ?_, ?_, ?_, ?_,
    ?_, ?_, ?_, ?_, ?_, ?_, ?_, ?_, ?_, ?_, ?_, ?_, ?_, ?_⟩
  · exact ⟨_, rfl, NOP_frame cpu _⟩
  · exact ⟨_, rfl, HALT_frame cpu _⟩
  · exact ⟨_, rfl, DI_frame cpu _⟩
  · exact ⟨_, rfl, EI_frame cpu _⟩
  · exact ⟨_, rfl, LDrr_frame cpu .B .B _ (by decide)⟩
  · exact ⟨_, rfl, LDrr_frame cpu .B .C _ (by decide)⟩
  · exact ⟨_, rfl, LDrr_frame cpu .B .D _ (by decide)⟩
  · exact ⟨_, rfl, LDrr_frame cpu .B .E _ (by decide)⟩
  · exact ⟨_, rfl, LDrr_frame cpu .B .H _ (by decide)⟩
  · exact ⟨_, rfl, LDrr_frame cpu .B .L _ (by decide)⟩
  · exact ⟨_, rfl, LDrr_frame cpu .B .A _ (by decide)⟩
  · exact ⟨_, rfl, LDrr_frame cpu .C .B _ (by decide)⟩
  · exact ⟨_, rfl, LDrr_frame cpu .C .C _ (by decide)⟩
  · exact ⟨_, rfl, LDrr_frame cpu .C .D _ (by decide)⟩
  · exact ⟨_, rfl, LDrr_frame cpu .C .E _ (by decide)⟩
  · exact ⟨_, rfl, LDrr_frame cpu .C .H _ (by decide)⟩
  · exact ⟨_, rfl, LDrr_frame cpu .C .L _ (by decide)⟩
  · exact ⟨_, rfl, LDrr_frame cpu .C .A _ (by decide)⟩
  · exact ⟨_, rfl, LDrr_frame cpu .D .B _ (by decide)⟩
  · exact ⟨_, rfl, LDrr_frame cpu .D .C _ (by decide)⟩
  · exact ⟨_, rfl, LDrr_frame cpu .D .D _ (by decide)⟩
  · exact ⟨_, rfl, LDrr_frame cpu .D .E _ (by decide)⟩
  · exact ⟨_, rfl, LDrr_frame cpu .D .H _ (by decide)⟩
  · exact ⟨_, rfl, LDrr_frame cpu .D .L _ (by decide)⟩
  · exact ⟨_, rfl, LDrr_frame cpu .D .A _ (by decide)⟩
  · exact ⟨_, rfl, LDrr_frame cpu .E .B _ (by decide)⟩
  · exact ⟨_, rfl, LDrr_frame cpu .E .C _ (by decide)⟩
  · exact ⟨_, rfl, LDrr_frame cpu .E .D _ (by decide)⟩
  · exact ⟨_, rfl, LDrr_frame cpu .E .E _ (by decide)⟩
  · exact ⟨_, rfl, LDrr_frame cpu .E .H _ (by decide)⟩
  · exact ⟨_, rfl, LDrr_frame cpu .E .L _ (by decide)⟩
  · exact ⟨_, rfl, LDrr_frame cpu .E .A _ (by decide)⟩
  · exact ⟨_, rfl, LDrr_frame cpu .H .B _ (by decide)⟩
  · exact ⟨_, rfl, LDrr_frame cpu .H .C _ (by decide)⟩
  · exact ⟨_, rfl, LDrr_frame cpu .H .D _ (by decide)⟩
  · exact ⟨_, rfl, LDrr_frame cpu .H .E _ (by decide)⟩
  · exact ⟨_, rfl, LDrr_frame cpu .H .H _ (by decide)⟩
  · exact ⟨_, rfl, LDrr_frame cpu .H .L _ (by decide)⟩
  · exact ⟨_, rfl, LDrr_frame cpu .H .A _ (by decide)⟩
  · exact ⟨_, rfl, LDrr_frame cpu .L .B _ (by decide)⟩
  · exact ⟨_, rfl, LDrr_frame cpu .L .C _ (by decide)⟩
  · exact ⟨_, rfl, LDrr_frame cpu .L .D _ (by decide)⟩
  · exact ⟨_, rfl, LDrr_frame cpu .L .E _ (by decide)⟩
  · exact ⟨_, rfl, LDrr_frame cpu .L .H _ (by decide)⟩
  · exact ⟨_, rfl, LDrr_frame cpu .L .L _ (by decide)⟩
  · exact ⟨_, rfl, LDrr_frame cpu .L .A _ (by decide)⟩
  · exact ⟨_, rfl, LDrr_frame cpu .A .B _ (by decide)⟩
  · exact ⟨_, rfl, LDrr_frame cpu .A .C _ (by decide)⟩
  · exact ⟨_, rfl, LDrr_frame cpu .A .D _ (by decide)⟩
  · exact ⟨_, rfl, LDrr_frame cpu .A .E _ (by decide)⟩
  · exact ⟨_, rfl, LDrr_frame cpu .A .H _ (by decide)⟩
  · exact ⟨_, rfl, LDrr_frame cpu .A .L _ (by decide)⟩
  · exact ⟨_, rfl, LDrr_frame cpu .A .A _ (by decide)⟩
  · exact AddA_r_frame cpu .B _
  · exact AddA_r_frame cpu .C _
  · exact AddA_r_frame cpu .D _
  · exact AddA_r_frame cpu .E _
  · exact AddA_r_frame cpu .H _
  · exact AddA_r_frame cpu .L _
  · exact AddA_r_frame cpu .A _
  · exact AddCA_r_frame cpu .B _
  · exact AddCA_r_frame cpu .C _
  · exact AddCA_r_frame cpu .D _
  · exact AddCA_r_frame cpu .E _
  · exact AddCA_r_frame cpu .H _
  · exact AddCA_r_frame cpu .L _
  · exact AddCA_r_frame cpu .A _
  · exact SubA_r_frame cpu .B _
  · exact SubA_r_frame cpu .C _
  · exact SubA_r_frame cpu .D _
  · exact SubA_r_frame cpu .E _
  · exact SubA_r_frame cpu .H _
  · exact SubA_r_frame cpu .L _
  · exact SubA_r_frame cpu .A _
  · exact AndA_r_frame cpu .B _
  · exact AndA_r_frame cpu .C _
  · exact AndA_r_frame cpu .D _
  · exact AndA_r_frame cpu .E _
  · exact AndA_r_frame cpu .H _
  · exact AndA_r_frame cpu .L _
  · exact AndA_r_frame cpu .A _
  · exact XorA_r_frame cpu .B _
  · exact XorA_r_frame cpu .C _
  · exact XorA_r_frame cpu .D _
  · exact XorA_r_frame cpu .E _
  · exact XorA_r_frame cpu .H _
  · exact XorA_r_frame cpu .L _
  · exact XorA_r_frame cpu .A _
  · exact OrA_r_frame cpu .B _
  · exact OrA_r_frame cpu .C _
  · exact OrA_r_frame cpu .D _
  · exact OrA_r_frame cpu .E _
  · exact OrA_r_frame cpu .H _
  · exact OrA_r_frame cpu .L _
  · exact OrA_r_frame cpu .A _
  · exact ⟨_, rfl, LDr_hl_frame bus cpu .B _ (by decide)⟩
  · exact ⟨_, rfl, LDr_hl_frame bus cpu .C _ (by decide)⟩
  · exact ⟨_, rfl, LDr_hl_frame bus cpu .D _ (by decide)⟩
  · exact ⟨_, rfl, LDr_hl_frame bus cpu .E _ (by decide)⟩
  · exact ⟨_, rfl, LDr_hl_frame bus cpu .H _ (by decide)⟩
  · exact ⟨_, rfl, LDr_hl_frame bus cpu .L _ (by decide)⟩
  · exact ⟨_, rfl, LDr_hl_frame bus cpu .A _ (by decide)⟩
  · exact ⟨_, rfl, LDhl_r_frame bus cpu .B _⟩
  · exact ⟨_, rfl, LDhl_r_frame bus cpu .C _⟩
  · exact ⟨_, rfl, LDhl_r_frame bus cpu .D _⟩
  · exact ⟨_, rfl, LDhl_r_frame bus cpu .E _⟩
  · exact ⟨_, rfl, LDhl_r_frame bus cpu .H _⟩
  · exact ⟨_, rfl, LDhl_r_frame bus cpu .L _⟩
  · exact ⟨_, rfl, LDhl_r_frame bus cpu .A _⟩
  · exact ⟨_, rfl, LDr_bc_frame bus cpu .A _ (by decide)⟩
  · exact ⟨_, rfl, LDr_de_frame bus cpu .A _ (by decide)⟩
  · exact ⟨_, rfl, LDbc_r_frame bus cpu .A _⟩
  · exact ⟨_, rfl, LDde_r_frame bus cpu .A _⟩
  · exact ⟨_, rfl, LDr_ffplusc_frame bus cpu .A _ (by decide)⟩
  · exact ⟨_, rfl, LDffplusc_r_frame bus cpu .A _⟩
  · exact ⟨_, rfl, LDDr_hl_frame bus cpu .A _ (by decide)⟩
  · exact ⟨_, rfl, LDDhl_r_frame bus cpu .A _⟩
  · exact ⟨_, rfl, LDIr_hl_frame bus cpu .A _ (by decide)⟩
  · exact ⟨_, rfl, LDIhl_r_frame bus cpu .A _⟩
  · exact ⟨_, rfl, LDSP_rr_frame cpu .H .L _⟩
  · exact AddA_hl_frame bus cpu _
  · exact AddCA_hl_frame bus cpu _
  · exact SubA_hl_frame bus cpu _
  · exact AndA_hl_frame bus cpu _
  · exact OrA_hl_frame bus cpu _
  · exact XorA_hl_frame bus cpu _
  · exact ⟨_, rfl, LDrn_frame bus cpu .B _ (by decide)⟩
  · exact ⟨_, rfl, LDrn_frame bus cpu .C _ (by decide)⟩
  · exact ⟨_, rfl, LDrn_frame bus cpu .D _ (by decide)⟩
  · exact ⟨_, rfl, LDrn_frame bus cpu .E _ (by decide)⟩
  · exact ⟨_, rfl, LDrn_frame bus cpu .H _ (by decide)⟩
  · exact ⟨_, rfl, LDrn_frame bus cpu .L _ (by decide)⟩
  · exact ⟨_, rfl, LDrn_frame bus cpu .A _ (by decide)⟩
  · exact AddA_n_frame bus cpu _
  · exact AddCA_n_frame bus cpu _
  · exact SubA_n_frame bus cpu _
  · exact AndA_n_frame bus cpu _
  · exact OrA_n_frame bus cpu _
  · exact XorA_n_frame bus cpu _
  · exact ⟨_, rfl, LDhl_n_frame bus cpu _⟩
  · exact ⟨_, rfl, LDHn_r_frame bus cpu .A _ (by decide)⟩
  · exact ⟨_, rfl, LDHr_n_frame bus cpu .A _⟩
  · exact LDHLSP_n_frame bus cpu _
  · exact ⟨_, rfl, LDn_nn_frame bus cpu .B .C _ (by decide) (by decide)⟩
  · exact ⟨_, rfl, LDn_nn_frame bus cpu .D .E _ (by decide) (by decide)⟩
  · exact ⟨_, rfl, LDn_nn_frame bus cpu .H .L _ (by decide) (by decide)⟩
  · exact ⟨_, rfl, LDSP_nn_frame bus cpu _⟩
  · exact ⟨_, rfl, LDr_nn_frame bus cpu .A _ (by decide)⟩
  · exact ⟨_, rfl, LDnn_r_frame bus cpu .A _⟩
  · exact ⟨_, rfl, LDnn_SP_frame bus cpu _⟩
  · exact ⟨_, rfl, Push_nn_frame bus cpu .A .F _⟩
  · exact ⟨_, rfl, Push_nn_frame bus cpu .B .C _⟩
  · exact ⟨_, rfl, Push_nn_frame bus cpu .D .E _⟩
  · exact ⟨_, rfl, Push_nn_frame bus cpu .H .L _⟩
  · exact ⟨_, rfl, Pop_nn_frame bus cpu .A .F _ (fun h => absurd rfl h)⟩
  · exact ⟨_, rfl, Pop_nn_frame bus cpu .B .C _ (fun _ => by decide)⟩
  · exact ⟨_, rfl, Pop_nn_frame bus cpu .D .E _ (fun _ => by decide)⟩
  · exact ⟨_, rfl, Pop_nn_frame bus cpu .H .L _ (fun _ => by decide)⟩

/-- An opcode outside the implemented set ends `Dispatch` in the fatal exit. -/
theorem Dispatch_none (bus : MMU M) (cpu : Z80 M) (op : Nat) (h : op ∉ implementedOpcodes) :
    cpu.Dispatch bus op = none := by
  simp only [implementedOpcodes, List.mem_cons, List.mem_singleton, List.not_mem_nil, or_false,
    not_or] at h
  simp only [Z80.Dispatch, h, if_false, ite_self]

/-! ## The single step -/

/-- A step is the dispatch of the byte at `PC` in the state with `PC` moved on,
followed by the clock bookkeeping. -/
theorem Step_of_Dispatch (bus : MMU M) (cpu d : Z80 M)
    (h : (cpu.IncrementPC 1).Dispatch bus (bus.ReadByte cpu.mmu cpu.PC) = some d) :
    cpu.Step bus = some
      { d with
        MachineCycles :=
          { m := (d.MachineCycles.m + d.LastInstrCycle.m) % 65536
            t := (d.MachineCycles.t + d.LastInstrCycle.t) % 65536 }
        LastInstrCycle := { m := 0, t := 0 } } := by
  simp [Z80.Step, h, Clock.Reset]

/-- A step ends in the fatal exit exactly when its dispatch does. -/
theorem Step_eq_none_iff (bus : MMU M) (cpu : Z80 M) :
    cpu.Step bus = none ↔
      (cpu.IncrementPC 1).Dispatch bus (bus.ReadByte cpu.mmu cpu.PC) = none := by
  cases h : (cpu.IncrementPC 1).Dispatch bus (bus.ReadByte cpu.mmu cpu.PC) with
  | none => simp [Z80.Step, h]
  | some d => simp [Step_of_Dispatch bus cpu d h]

/-- C1: for every CPU state and every bus whose byte at `PC` is an implemented
opcode, one `Step` returns; the machine-cycle clock afterwards is the clock
before plus the cost the dispatched instruction recorded, componentwise
modulo 2^16, and the last-instruction clock is (0, 0). -/
theorem Step_clock (bus : MMU M) (cpu : Z80 M)
    (h : bus.ReadByte cpu.mmu cpu.PC ∈ implementedOpcodes) :
    ∃ d s, (cpu.IncrementPC 1).Dispatch bus (bus.ReadByte cpu.mmu cpu.PC) = some d ∧
      cpu.Step bus = some s ∧
      s.MachineCycles.m = (cpu.MachineCycles.m + d.LastInstrCycle.m) % 65536 ∧
      s.MachineCycles.t = (cpu.MachineCycles.t + d.LastInstrCycle.t) % 65536 ∧
      s.LastInstrCycle = { m := 0, t := 0 } := by
  obtain ⟨d, hd, hmc, -, -, -⟩ := Dispatch_frame bus (cpu.IncrementPC 1) _ h
  refine ⟨d, _, hd, Step_of_Dispatch bus cpu d hd, ?_, ?_, rfl⟩
  · show (d.MachineCycles.m + d.LastInstrCycle.m) % 65536 = _
    rw [hmc]; rfl
  · show (d.MachineCycles.t + d.LastInstrCycle.t) % 65536 = _
    rw [hmc]; rfl

/-- C1 at `LD A,0x42` in a state whose clocks are not zero. -/
theorem Step_clock_witness :
    flatBus.ReadByte clockedCPU.mmu clockedCPU.PC ∈ implementedOpcodes ∧
    ∃ d s, (clockedCPU.IncrementPC 1).Dispatch flatBus
        (flatBus.ReadByte clockedCPU.mmu clockedCPU.PC) = some d ∧
      clockedCPU.Step flatBus = some s ∧
      s.MachineCycles.m = (clockedCPU.MachineCycles.m + d.LastInstrCycle.m) % 65536 ∧
      s.MachineCycles.t = (clockedCPU.MachineCycles.t + d.LastInstrCycle.t) % 65536 ∧
      s.LastInstrCycle = { m := 0, t := 0 } :=
  ⟨by decide, Step_clock flatBus clockedCPU (by decide)⟩

/-- C2: `Dispatch` ends in the fatal exit exactly on the opcodes outside the
implemented set, and so does `Step` on the byte it fetches, whatever the state
and the bus; in particular an implemented opcode reaches neither the
unknown-opcode branch nor the unknown-flag branch of the flag operations. The
nine SBC opcodes and 0xCB, 0xC3, 0xB8, 0x04 are outside the set. -/
theorem Dispatch_fatal_iff (bus : MMU M) (cpu : Z80 M) (op : Nat) :
    (cpu.Dispatch bus op = none ↔ op ∉ implementedOpcodes) ∧
    (cpu.Step bus = none ↔ bus.ReadByte cpu.mmu cpu.PC ∉ implementedOpcodes) ∧
    [0x98, 0x99, 0x9A, 0x9B, 0x9C, 0x9D, 0x9E, 0x9F, 0xDE, 0xCB, 0xC3, 0xB8, 0x04].all
      (fun k => decide (k ∉ implementedOpcodes)) = true := by
  have key : ∀ (c : Z80 M) (k : Nat), c.Dispatch bus k = none ↔ k ∉ implementedOpcodes := by
    intro c k
    constructor
    · intro hnone hmem
      obtain ⟨d, hd, -⟩ := Dispatch_frame bus c k hmem
      rw [hnone] at hd
      exact Option.noConfusion hd
    · exact Dispatch_none bus c k
  refine ⟨key cpu op, ?_, by decide⟩
  rw [Step_eq_none_iff]
  exact key _ _

/-- The documented operand counts are 0, 1 or 2. -/
theorem operandCount_le (op : Nat) : operandCount op ≤ 2 := by
  unfold operandCount; split_ifs <;> omega

/-- The documented costs are `t = 4 * m` with `1 ≤ m ≤ 5`. -/
theorem documentedCost_bounds (op : Nat) :
    (documentedCost op).2 = 4 * (documentedCost op).1 ∧
    1 ≤ (documentedCost op).1 ∧ (documentedCost op).1 ≤ 5 := by
  unfold documentedCost; split_ifs <;> simp

/-- C3: for every implemented opcode and every bus, dispatching it from the
state with all registers and flags zero returns, advances `PC` by the
documented immediate-operand count and sets the last-instruction clock to the
documented cost; one `Step` of the new CPU on that opcode leaves
`PC = 1 + count`, the machine-cycle clock at the cost and the last-instruction
clock at (0, 0). -/
theorem Dispatch_documented (bus : MMU M) (m : M) :
    ∀ op ∈ implementedOpcodes,
      (∃ d, (NewCPU m).Dispatch bus op = some d ∧
        d.PC = operandCount op ∧
        d.LastInstrCycle = { m := (documentedCost op).1, t := (documentedCost op).2 }) ∧
      (bus.ReadByte m 0 = op → ∃ s, (NewCPU m).Step bus = some s ∧
        s.PC = 1 + operandCount op ∧
        s.MachineCycles = { m := (documentedCost op).1, t := (documentedCost op).2 } ∧
        s.LastInstrCycle = { m := 0, t := 0 }) := by
  intro op hop
  have hc := operandCount_le op
  have hb := documentedCost_bounds op
  constructor
  · obtain ⟨d, hd, -, hl, hpc, -⟩ := Dispatch_frame bus (NewCPU m) op hop
    refine ⟨d, hd, ?_, hl⟩
    rw [hpc]
    show advance 0 (operandCount op) = _
    unfold advance; split_ifs <;> omega
  · intro hop0
    have hfetch : bus.ReadByte (NewCPU m).mmu (NewCPU m).PC = op := hop0
    obtain ⟨d, hd, hmc, hl, hpc, -⟩ := Dispatch_frame bus ((NewCPU m).IncrementPC 1) op hop
    rw [← hfetch] at hd
    refine ⟨_, Step_of_Dispatch bus (NewCPU m) d hd, ?_, ?_, rfl⟩
    · show d.PC = _
      rw [hpc]
      show advance 1 (operandCount op) = _
      unfold advance; split_ifs <;> omega
    · show ({ m := (d.MachineCycles.m + d.LastInstrCycle.m) % 65536,
              t := (d.MachineCycles.t + d.LastInstrCycle.t) % 65536 } : Clock) = _
      rw [hmc, hl]
      show ({ m := (0 + (documentedCost op).1) % 65536,
              t := (0 + (documentedCost op).2) % 65536 } : Clock) = _
      congr 1 <;> omega

/-- C3 at `LD (nn),SP`, two immediate bytes and cost (5, 20). -/
theorem Dispatch_documented_witness :
    0x08 ∈ implementedOpcodes ∧
    (∃ d, (NewCPU (memOf [0x08, 0x34, 0x12])).Dispatch flatBus 0x08 = some d ∧
        d.PC = 2 ∧ d.LastInstrCycle = { m := 5, t := 20 }) ∧
      (flatBus.ReadByte (memOf [0x08, 0x34, 0x12]) 0 = 0x08 →
        ∃ s, (NewCPU (memOf [0x08, 0x34, 0x12])).Step flatBus = some s ∧
        s.PC = 1 + 2 ∧ s.MachineCycles = { m := 5, t := 20 } ∧
        s.LastInstrCycle = { m := 0, t := 0 }) :=
  ⟨by decide, Dispatch_documented flatBus (memOf [0x08, 0x34, 0x12]) 0x08 (by decide)⟩

/-! ## The accumulator after the 8-bit arithmetic and logical instructions -/

theorem AddA_r_A (cpu : Z80 M) (r : Reg) :
    ∃ d, cpu.AddA_r r = some d ∧ d.R.A = (cpu.R.A + cpu.get r) % 256 := by
  simp only [Z80.AddA_r, SetFlag_Z, SetFlag_N, SetFlag_H, SetFlag_C, ResetFlag_Z, ResetFlag_N,
    ResetFlag_H, ResetFlag_C, IsFlagSet_C, ite_SetFlag, Option.pure_def, Option.bind_eq_bind,
    Option.some_bind]
  refine ⟨_, rfl, ?_⟩
  simp

theorem AddA_hl_A (bus : MMU M) (cpu : Z80 M) :
    ∃ d, Z80.AddA_hl bus cpu = some d ∧ d.R.A = (cpu.R.A + bus.ReadByte cpu.mmu (JoinBytes cpu.R.H cpu.R.L)) % 256 := by
  simp only [Z80.AddA_hl, SetFlag_Z, SetFlag_N, SetFlag_H, SetFlag_C, ResetFlag_Z, ResetFlag_N,
    ResetFlag_H, ResetFlag_C, IsFlagSet_C, ite_SetFlag, Option.pure_def, Option.bind_eq_bind,
    Option.some_bind]
  refine ⟨_, rfl, ?_⟩
  simp

theorem AddA_n_A (bus : MMU M) (cpu : Z80 M) :
    ∃ d, Z80.AddA_n bus cpu = some d ∧ d.R.A = (cpu.R.A + bus.ReadByte cpu.mmu cpu.PC) % 256 := by
  simp only [Z80.AddA_n, SetFlag_Z, SetFlag_N, SetFlag_H, SetFlag_C, ResetFlag_Z, ResetFlag_N,
    ResetFlag_H, ResetFlag_C, IsFlagSet_C, ite_SetFlag, Option.pure_def, Option.bind_eq_bind,
    Option.some_bind]
  refine ⟨_, rfl, ?_⟩
  simp

theorem AddCA_r_A (cpu : Z80 M) (r : Reg) :
    ∃ d, cpu.AddCA_r r = some d ∧ d.R.A = (cpu.R.A + cpu.get r + if cpu.IsFlagSet C = some true then 1 else 0) % 256 := by
  simp only [Z80.AddCA_r, SetFlag_Z, SetFlag_N, SetFlag_H, SetFlag_C, ResetFlag_Z, ResetFlag_N,
    ResetFlag_H, ResetFlag_C, IsFlagSet_C, ite_SetFlag, Option.pure_def, Option.bind_eq_bind,
    Option.some_bind]
  refine ⟨_, rfl, ?_⟩
  simp
  split_ifs <;> omega

theorem AddCA_hl_A (bus : MMU M) (cpu : Z80 M) :
    ∃ d, Z80.AddCA_hl bus cpu = some d ∧ d.R.A = (cpu.R.A + bus.ReadByte cpu.mmu (JoinBytes cpu.R.H cpu.R.L) + if cpu.IsFlagSet C = some true then 1 else 0) % 256 := by
  simp only [Z80.AddCA_hl, SetFlag_Z, SetFlag_N, SetFlag_H, SetFlag_C, ResetFlag_Z, ResetFlag_N,
    ResetFlag_H, ResetFlag_C, IsFlagSet_C, ite_SetFlag, Option.pure_def, Option.bind_eq_bind,
    Option.some_bind]
  refine ⟨_, rfl, ?_⟩
  simp
  split_ifs <;> omega

theorem AddCA_n_A (bus : MMU M) (cpu : Z80 M) :
    ∃ d, Z80.AddCA_n bus cpu = some d ∧ d.R.A = (cpu.R.A + bus.ReadByte cpu.mmu cpu.PC + if cpu.IsFlagSet C = some true then 1 else 0) % 256 := by
  simp only [Z80.AddCA_n, SetFlag_Z, SetFlag_N, SetFlag_H, SetFlag_C, ResetFlag_Z, ResetFlag_N,
    ResetFlag_H, ResetFlag_C, IsFlagSet_C, ite_SetFlag, Option.pure_def, Option.bind_eq_bind,
    Option.some_bind]
  refine ⟨_, rfl, ?_⟩
  simp
  split_ifs <;> omega

theorem SubA_r_A (cpu : Z80 M) (r : Reg) :
    ∃ d, cpu.SubA_r r = some d ∧ d.R.A = sub8 cpu.R.A (cpu.get r) := by
  simp only [Z80.SubA_r, SetFlag_Z, SetFlag_N, SetFlag_H, SetFlag_C, ResetFlag_Z, ResetFlag_N,
    ResetFlag_H, ResetFlag_C, IsFlagSet_C, ite_SetFlag, Option.pure_def, Option.bind_eq_bind,
    Option.some_bind]
  refine ⟨_, rfl, ?_⟩
  simp [sub8]
  omega

theorem SubA_hl_A (bus : MMU M) (cpu : Z80 M) :
    ∃ d, Z80.SubA_hl bus cpu = some d ∧ d.R.A = sub8 cpu.R.A (bus.ReadByte cpu.mmu (JoinBytes cpu.R.H cpu.R.L)) := by
  simp only [Z80.SubA_hl, SetFlag_Z, SetFlag_N, SetFlag_H, SetFlag_C, ResetFlag_Z, ResetFlag_N,
    ResetFlag_H, ResetFlag_C, IsFlagSet_C, ite_SetFlag, Option.pure_def, Option.bind_eq_bind,
    Option.some_bind]
  refine ⟨_, rfl, ?_⟩
  simp [sub8]
  omega

theorem SubA_n_A (bus : MMU M) (cpu : Z80 M) :
    ∃ d, Z80.SubA_n bus cpu = some d ∧ d.R.A = sub8 cpu.R.A (bus.ReadByte cpu.mmu cpu.PC) := by
  simp only [Z80.SubA_n, SetFlag_Z, SetFlag_N, SetFlag_H, SetFlag_C, ResetFlag_Z, ResetFlag_N,
    ResetFlag_H, ResetFlag_C, IsFlagSet_C, ite_SetFlag, Option.pure_def, Option.bind_eq_bind,
    Option.some_bind]
  refine ⟨_, rfl, ?_⟩
  simp [sub8]
  omega

theorem AndA_r_A (cpu : Z80 M) (r : Reg) :
    ∃ d, cpu.AndA_r r = some d ∧ d.R.A = cpu.R.A &&& cpu.get r := by
  simp only [Z80.AndA_r, SetFlag_Z, SetFlag_N, SetFlag_H, SetFlag_C, ResetFlag_Z, ResetFlag_N,
    ResetFlag_H, ResetFlag_C, IsFlagSet_C, ite_SetFlag, Option.pure_def, Option.bind_eq_bind,
    Option.some_bind]
  refine ⟨_, rfl, ?_⟩
  simp

theorem AndA_hl_A (bus : MMU M) (cpu : Z80 M) :
    ∃ d, Z80.AndA_hl bus cpu = some d ∧ d.R.A = cpu.R.A &&& bus.ReadByte cpu.mmu (JoinBytes cpu.R.H cpu.R.L) := by
  simp only [Z80.AndA_hl, SetFlag_Z, SetFlag_N, SetFlag_H, SetFlag_C, ResetFlag_Z, ResetFlag_N,
    ResetFlag_H, ResetFlag_C, IsFlagSet_C, ite_SetFlag, Option.pure_def, Option.bind_eq_bind,
    Option.some_bind]
  refine ⟨_, rfl, ?_⟩
  simp

theorem AndA_n_A (bus : MMU M) (cpu : Z80 M) :
    ∃ d, Z80.AndA_n bus cpu = some d ∧ d.R.A = cpu.R.A &&& bus.ReadByte cpu.mmu cpu.PC := by
  simp only [Z80.AndA_n, SetFlag_Z, SetFlag_N, SetFlag_H, SetFlag_C, ResetFlag_Z, ResetFlag_N,
    ResetFlag_H, ResetFlag_C, IsFlagSet_C, ite_SetFlag, Option.pure_def, Option.bind_eq_bind,
    Option.some_bind]
  refine ⟨_, rfl, ?_⟩
  simp

theorem OrA_r_A (cpu : Z80 M) (r : Reg) :
    ∃ d, cpu.OrA_r r = some d ∧ d.R.A = cpu.R.A ||| cpu.get r := by
  simp only [Z80.OrA_r, SetFlag_Z, SetFlag_N, SetFlag_H, SetFlag_C, ResetFlag_Z, ResetFlag_N,
    ResetFlag_H, ResetFlag_C, IsFlagSet_C, ite_SetFlag, Option.pure_def, Option.bind_eq_bind,
    Option.some_bind]
  refine ⟨_, rfl, ?_⟩
  simp

theorem OrA_hl_A (bus : MMU M) (cpu : Z80 M) :
    ∃ d, Z80.OrA_hl bus cpu = some d ∧ d.R.A = cpu.R.A ||| bus.ReadByte cpu.mmu (JoinBytes cpu.R.H cpu.R.L) := by
  simp only [Z80.OrA_hl, SetFlag_Z, SetFlag_N, SetFlag_H, SetFlag_C, ResetFlag_Z, ResetFlag_N,
    ResetFlag_H, ResetFlag_C, IsFlagSet_C, ite_SetFlag, Option.pure_def, Option.bind_eq_bind,
    Option.some_bind]
  refine ⟨_, rfl, ?_⟩
  simp

theorem OrA_n_A (bus : MMU M) (cpu : Z80 M) :
    ∃ d, Z80.OrA_n bus cpu = some d ∧ d.R.A = cpu.R.A ||| bus.ReadByte cpu.mmu cpu.PC := by
  simp only [Z80.OrA_n, SetFlag_Z, SetFlag_N, SetFlag_H, SetFlag_C, ResetFlag_Z, ResetFlag_N,
    ResetFlag_H, ResetFlag_C, IsFlagSet_C, ite_SetFlag, Option.pure_def, Option.bind_eq_bind,
    Option.some_bind]
  refine ⟨_, rfl, ?_⟩
  simp

theorem XorA_r_A (cpu : Z80 M) (r : Reg) :
    ∃ d, cpu.XorA_r r = some d ∧ d.R.A = cpu.R.A ^^^ cpu.get r := by
  simp only [Z80.XorA_r, SetFlag_Z, SetFlag_N, SetFlag_H, SetFlag_C, ResetFlag_Z, ResetFlag_N,
    ResetFlag_H, ResetFlag_C, IsFlagSet_C, ite_SetFlag, Option.pure_def, Option.bind_eq_bind,
    Option.some_bind]
  refine ⟨_, rfl, ?_⟩
  simp

theorem XorA_hl_A (bus : MMU M) (cpu : Z80 M) :
    ∃ d, Z80.XorA_hl bus cpu = some d ∧ d.R.A = cpu.R.A ^^^ bus.ReadByte cpu.mmu (JoinBytes cpu.R.H cpu.R.L) := by
  simp only [Z80.XorA_hl, SetFlag_Z, SetFlag_N, SetFlag_H, SetFlag_C, ResetFlag_Z, ResetFlag_N,
    ResetFlag_H, ResetFlag_C, IsFlagSet_C, ite_SetFlag, Option.pure_def, Option.bind_eq_bind,
    Option.some_bind]
  refine ⟨_, rfl, ?_⟩
  simp

theorem XorA_n_A (bus : MMU M) (cpu : Z80 M) :
    ∃ d, Z80.XorA_n bus cpu = some d ∧ d.R.A = cpu.R.A ^^^ bus.ReadByte cpu.mmu cpu.PC := by
  simp only [Z80.XorA_n, SetFlag_Z, SetFlag_N, SetFlag_H, SetFlag_C, ResetFlag_Z, ResetFlag_N,
    ResetFlag_H, ResetFlag_C, IsFlagSet_C, ite_SetFlag, Option.pure_def, Option.bind_eq_bind,
    Option.some_bind]
  refine ⟨_, rfl, ?_⟩
  simp

/-- C4: for every state and every 8-bit arithmetic or logical opcode, the
instruction returns and leaves in `A` the documented value: `(A + op) mod 256`
for ADD, `(A + op + c) mod 256` for ADC with `c = 1` iff the C flag was set
beforehand, `(A - op) mod 256` for SUB, `A AND op`, `A XOR op`, `A OR op`, with
`A` and `op` the values held before the instruction, `op` being the named
register (also when it is `A` itself), the byte at address `HL` or the
immediate byte at `PC`. -/
theorem Dispatch_alu_result (bus : MMU M) (cpu : Z80 M) :
    ∀ op ∈ addOps ++ adcOps ++ subOps ++ andOps ++ xorOps ++ orOps,
      ∃ d, cpu.Dispatch bus op = some d ∧
        d.R.A = aluResult op cpu.R.A (aluOperand bus cpu op)
          (if cpu.IsFlagSet C = some true then 1 else 0) := by
  simp only [addOps, adcOps, subOps, andOps, xorOps, orOps, List.cons_append, List.nil_append,
    List.forall_mem_cons, List.not_mem_nil, false_imp_iff, implies_true, and_true]
  refine ⟨?_, ?_, ?_, ?_, ?_, ?_, ?_, ?_, ?_, ?_, ?_, ?_, ?_, ?_, ?_, ?_,
    ?_, ?_, ?_, ?_, ?_, ?_, ?_, ?_, ?_, ?_, ?_, ?_, ?_, ?_, ?_, ?_,
    ?_, ?_, ?_, ?_, ?_, ?_, ?_, ?_, ?_, ?_, ?_, ?_, ?_, ?_, ?_, ?_,
    ?_, ?_, ?_, ?_, ?_, ?_⟩
  · exact AddA_r_A cpu .B
  · exact AddA_r_A cpu .C
  · exact AddA_r_A cpu .D
  · exact AddA_r_A cpu .E
  · exact AddA_r_A cpu .H
  · exact AddA_r_A cpu .L
  · exact AddA_hl_A bus cpu
  · exact AddA_r_A cpu .A
  · exact AddA_n_A bus cpu
  · exact AddCA_r_A cpu .B
  · exact AddCA_r_A cpu .C
  · exact AddCA_r_A cpu .D
  · exact AddCA_r_A cpu .E
  · exact AddCA_r_A cpu .H
  · exact AddCA_r_A cpu .L
  · exact AddCA_hl_A bus cpu
  · exact AddCA_r_A cpu .A
  · exact AddCA_n_A bus cpu
  · exact SubA_r_A cpu .B
  · exact SubA_r_A cpu .C
  · exact SubA_r_A cpu .D
  · exact SubA_r_A cpu .E
  · exact SubA_r_A cpu .H
  · exact SubA_r_A cpu .L
  · exact SubA_hl_A bus cpu
  · exact SubA_r_A cpu .A
  · exact SubA_n_A bus cpu
  · exact AndA_r_A cpu .B
  · exact AndA_r_A cpu .C
  · exact AndA_r_A cpu .D
  · exact AndA_r_A cpu .E
  · exact AndA_r_A cpu .H
  · exact AndA_r_A cpu .L
  · exact AndA_hl_A bus cpu
  · exact AndA_r_A cpu .A
  · exact AndA_n_A bus cpu
  · exact XorA_r_A cpu .B
  · exact XorA_r_A cpu .C
  · exact XorA_r_A cpu .D
  · exact XorA_r_A cpu .E
  · exact XorA_r_A cpu .H
  · exact XorA_r_A cpu .L
  · exact XorA_hl_A bus cpu
  · exact XorA_r_A cpu .A
  · exact XorA_n_A bus cpu
  · exact OrA_r_A cpu .B
  · exact OrA_r_A cpu .C
  · exact OrA_r_A cpu .D
  · exact OrA_r_A cpu .E
  · exact OrA_r_A cpu .H
  · exact OrA_r_A cpu .L
  · exact OrA_hl_A bus cpu
  · exact OrA_r_A cpu .A
  · exact OrA_n_A bus cpu

/-- C4 at `ADC A,A` with `A = 0x90` and the C flag set: the new `A` is 0x21. -/
theorem Dispatch_alu_result_witness :
    0x8F ∈ addOps ++ adcOps ++ subOps ++ andOps ++ xorOps ++ orOps ∧
    ∃ d, (mkCPU { zeroRegisters with A := 0x90, F := 0x10 } 0 0 (memOf [])).Dispatch flatBus 0x8F
        = some d ∧ d.R.A = 0x21 :=
  ⟨by decide, Dispatch_alu_result flatBus
    (mkCPU { zeroRegisters with A := 0x90, F := 0x10 } 0 0 (memOf [])) 0x8F (by decide)⟩

/-! ## PUSH then POP over the flat memory -/

/-- Writing back into two registers the values they hold changes nothing. -/
theorem Registers.set_set_self (R : Registers) (hi lo : Reg) :
    (R.set lo (R.get lo)).set hi (R.get hi) = R := by
  cases hi <;> cases lo <;> rfl

/-- After `Push_nn` of one pair followed by `Pop_nn` into another, the popped pair
holds the pushed bytes and `SP` is back. -/
theorem Pop_Push (cpu : Z80 (Nat → Nat)) (r1 r2 r3 r4 : Reg) (h34 : r3 ≠ r4)
    (hsp : cpu.SP < 65536) (h1 : cpu.get r1 < 256) (h2 : cpu.get r2 < 256) :
    ((cpu.Push_nn flatBus r1 r2).Pop_nn flatBus r3 r4).get r3 = cpu.get r1 ∧
    ((cpu.Push_nn flatBus r1 r2).Pop_nn flatBus r3 r4).get r4 = cpu.get r2 ∧
    ((cpu.Push_nn flatBus r1 r2).Pop_nn flatBus r3 r4).SP = cpu.SP ∧
    (r3 = r1 → r4 = r2 → ((cpu.Push_nn flatBus r1 r2).Pop_nn flatBus r3 r4).R = cpu.R) := by
  have h43 : r4 ≠ r3 := fun h => h34 h.symm
  have hm : ∀ a v : Nat, a < 65536 → v < 256 →
      ∀ m : Nat → Nat, flatBus.ReadByte (flatBus.WriteByte m a v) a = v := by
    intro a v ha hv m
    simp [flatBus, Nat.mod_eq_of_lt ha, Nat.mod_eq_of_lt hv]
  have hm' : ∀ a b v : Nat, a < 65536 → b < 65536 → a ≠ b →
      ∀ m : Nat → Nat, flatBus.ReadByte (flatBus.WriteByte m b v) a = flatBus.ReadByte m a := by
    intro a b v ha hb hab m
    simp [flatBus, Nat.mod_eq_of_lt ha, Nat.mod_eq_of_lt hb, hab]
  have key : ((cpu.Push_nn flatBus r1 r2).Pop_nn flatBus r3 r4).R =
        (cpu.R.set r4 (cpu.get r2)).set r3 (cpu.get r1) ∧
      ((cpu.Push_nn flatBus r1 r2).Pop_nn flatBus r3 r4).SP = cpu.SP := by
    simp only [Z80.Push_nn, Z80.Pop_nn, set_R, setLast_R, get_eq, set_SP, setLast_SP, set_mmu,
      setLast_mmu]
    have h1' : cpu.R.get r1 < 256 := h1
    have h2' : cpu.R.get r2 < 256 := h2
    generalize hsp1 : (if cpu.SP = 0 then 65535 else (cpu.SP - 1) % 65536) = sp1
    generalize hsp2 : (if sp1 = 0 then 65535 else (sp1 - 1) % 65536) = sp2
    have b1 : sp1 < 65536 := by rw [← hsp1]; split_ifs <;> omega
    have b2 : sp2 < 65536 := by rw [← hsp2]; split_ifs <;> omega
    have e1 : (sp2 + 1) % 65536 = sp1 := by rw [← hsp2]; split_ifs <;> omega
    have e2 : (sp1 + 1) % 65536 = cpu.SP := by rw [← hsp1]; split_ifs <;> omega
    have ne : sp1 ≠ sp2 := by rw [← hsp2]; split_ifs <;> omega
    rw [e1, e2, hm sp2 _ b2 h2', hm' sp1 sp2 _ b1 b2 ne, hm sp1 _ b1 h1']
    exact ⟨rfl, rfl⟩
  refine ⟨?_, ?_, key.2, ?_⟩
  · rw [get_eq, key.1]; simp
  · rw [get_eq, key.1]; simp [h43]
  · intro h31 h42
    rw [key.1, h31, h42]
    exact Registers.set_set_self cpu.R r1 r2

/-- In a well-formed state every register holds a byte. -/
theorem WF_get (cpu : Z80 M) (h : cpu.WF) (r : Reg) : cpu.get r < 256 := by
  obtain ⟨-, -, ⟨hA, hB, hC, hD, hE, hH, hL, hF⟩, -⟩ := h
  cases r <;> assumption

/-- C5: over the flat memory, for every well-formed state (every `SP`, the
wrapping ones included) and all register pairs `p`, `q` among AF, BC, DE, HL,
PUSH `p` immediately followed by POP `q` returns, leaves in the high and low
register of `q` what the high and low register of `p` held before the PUSH and
leaves `SP` where it was; with `q = p` the register file is unchanged. -/
theorem Push_Pop_roundtrip (cpu : Z80 (Nat → Nat)) (hwf : cpu.WF) :
    ∀ p ∈ stackPairs, ∀ q ∈ stackPairs,
      ∃ d s, cpu.Dispatch flatBus p.push = some d ∧ d.Dispatch flatBus q.pop = some s ∧
        s.get q.hi = cpu.get p.hi ∧ s.get q.lo = cpu.get p.lo ∧ s.SP = cpu.SP ∧
        (q = p → s.R = cpu.R) := by
  have hsp : cpu.SP < 65536 := hwf.2.1
  have hr := WF_get cpu hwf
  intro p hp q hq
  simp only [stackPairs, List.mem_cons, List.mem_singleton, List.not_mem_nil, or_false] at hp hq
  rcases hp with rfl | rfl | rfl | rfl <;> rcases hq with rfl | rfl | rfl | rfl <;>
    refine ⟨_, _, rfl, rfl, ?_⟩ <;>
    first
    | exact ⟨(Pop_Push cpu _ _ _ _ (by decide) hsp (hr _) (hr _)).1,
        (Pop_Push cpu _ _ _ _ (by decide) hsp (hr _) (hr _)).2.1,
        (Pop_Push cpu _ _ _ _ (by decide) hsp (hr _) (hr _)).2.2.1,
        fun _ => (Pop_Push cpu _ _ _ _ (by decide) hsp (hr _) (hr _)).2.2.2 rfl rfl⟩
    | exact ⟨(Pop_Push cpu _ _ _ _ (by decide) hsp (hr _) (hr _)).1,
        (Pop_Push cpu _ _ _ _ (by decide) hsp (hr _) (hr _)).2.1,
        (Pop_Push cpu _ _ _ _ (by decide) hsp (hr _) (hr _)).2.2.1,
        fun h => absurd h (by decide)⟩

/-- C5 at `PUSH BC` then `POP DE` with `SP = 1`, where the stack pointer wraps. -/
theorem Push_Pop_roundtrip_witness :
    (mkCPU { zeroRegisters with B := 0xAB, C := 0xCD } 0 1 (memOf [])).WF ∧
    ∃ d s, (mkCPU { zeroRegisters with B := 0xAB, C := 0xCD } 0 1 (memOf [])).Dispatch flatBus 0xC5
        = some d ∧ d.Dispatch flatBus 0xD1 = some s ∧
      s.get .D = 0xAB ∧ s.get .E = 0xCD ∧ s.SP = 1 ∧
      ((⟨0xD5, 0xD1, .D, .E⟩ : StackPair) = ⟨0xC5, 0xC1, .B, .C⟩ →
        s.R = { zeroRegisters with B := 0xAB, C := 0xCD }) :=
  ⟨by decide, Push_Pop_roundtrip (mkCPU { zeroRegisters with B := 0xAB, C := 0xCD } 0 1 (memOf []))
    (by decide) ⟨0xC5, 0xC1, .B, .C⟩ (by decide) ⟨0xD5, 0xD1, .D, .E⟩ (by decide)⟩

/-! ## The low nibble of `F` -/

/-- A step that returns has dispatched an implemented opcode, and its registers
are those the dispatch left. -/
theorem Step_some (bus : MMU M) (cpu s : Z80 M) (h : cpu.Step bus = some s) :
    bus.ReadByte cpu.mmu cpu.PC ∈ implementedOpcodes ∧
    ∃ d, (cpu.IncrementPC 1).Dispatch bus (bus.ReadByte cpu.mmu cpu.PC) = some d ∧ s.R = d.R := by
  have hmem : bus.ReadByte cpu.mmu cpu.PC ∈ implementedOpcodes := by
    by_contra hn
    have := (Step_eq_none_iff bus cpu).2 (Dispatch_none bus _ _ hn)
    rw [this] at h
    exact Option.noConfusion h
  obtain ⟨d, hd, -⟩ := Dispatch_frame bus (cpu.IncrementPC 1) _ hmem
  refine ⟨hmem, d, hd, ?_⟩
  rw [Step_of_Dispatch bus cpu d hd] at h
  injection h with h
  rw [← h]

/-- The C6 counterexample: one step of a newly created CPU over the flat memory
[0xF1] is a `POP AF` with `SP = 0`; it returns and puts the byte at address 0,
0xF1, into `F`, whose low nibble is then 1. -/
theorem F_low_nibble_counterexample :
    ∃ s, (NewCPU (memOf [0xF1])).Step flatBus = some s ∧ Reachable flatBus s ∧
      s.R.F = 0xF1 ∧ s.R.F &&& 0x0F ≠ 0 :=
  ⟨_, Step_of_Dispatch flatBus (NewCPU (memOf [0xF1])) _ rfl,
    ReachableBy.step (ReachableBy.new (memOf [0xF1])) trivial
      (Step_of_Dispatch flatBus (NewCPU (memOf [0xF1])) _ rfl),
    by decide, by decide⟩

/-- C6, amended: in every state reached from a newly created CPU by successful
steps, none of which is a `POP AF` reading at `SP` a byte with a non-zero low
nibble, the low nibble of `F` is zero. -/
theorem F_low_nibble_invariant (bus : MMU M) (s : Z80 M)
    (h : ReachableBy bus (popAFClean bus) s) : s.R.F &&& 0x0F = 0 := by
  induction h with
  | new m =>
    show (0 &&& 0x0F : Nat) = 0
    decide
  | @step cpu s _ hok hstep ih =>
    obtain ⟨hmem, d, hd, hR⟩ := Step_some bus cpu s hstep
    rw [hR]
    by_cases hop : bus.ReadByte cpu.mmu cpu.PC = 0xF1
    · rw [hop] at hd
      have hd' : d = Z80.Pop_nn bus (cpu.IncrementPC 1) .A .F := by
        have : (cpu.IncrementPC 1).Dispatch bus 0xF1 =
            some (Z80.Pop_nn bus (cpu.IncrementPC 1) .A .F) := rfl
        rw [this] at hd
        injection hd with hd
        exact hd.symm
      rw [hd']
      simpa [Z80.Pop_nn] using hok hop
    · obtain ⟨d', hd', -, -, -, hF⟩ := Dispatch_frame bus (cpu.IncrementPC 1) _ hmem
      rw [hd] at hd'
      injection hd' with hd'
      subst hd'
      rw [hF hop]
      exact ih

/-- C6, amended, after `LD SP,0x0004` and a `POP AF` that loads 0xB0 into `F`. -/
theorem F_low_nibble_invariant_witness :
    ReachableBy flatBus (popAFClean flatBus) popAFState2 ∧ popAFState2.R.F = 0xB0 ∧
      popAFState2.R.F &&& 0x0F = 0 :=
  have h : ReachableBy flatBus (popAFClean flatBus) popAFState2 :=
    ReachableBy.step
      (ReachableBy.step (ReachableBy.new popAFProgram)
        (show popAFClean flatBus (NewCPU popAFProgram) from fun h => absurd h (by decide))
        (show (NewCPU popAFProgram).Step flatBus = some popAFState1 from rfl))
      (show popAFClean flatBus popAFState1 from fun _ => by decide)
      (show popAFState1.Step flatBus = some popAFState2 from rfl)
  ⟨h, by decide, F_low_nibble_invariant flatBus popAFState2 h⟩

/-! ## The flags of SUB, and the flag defects -/

theorem IsFlagSet_Z (cpu : Z80 M) : cpu.IsFlagSet Z = some (cpu.R.F &&& 0x80 == 0x80) := by
  simp [Z80.IsFlagSet]

theorem IsFlagSet_N (cpu : Z80 M) : cpu.IsFlagSet N = some (cpu.R.F &&& 0x40 == 0x40) := by
  simp [Z80.IsFlagSet, N, Z]

theorem IsFlagSet_H (cpu : Z80 M) : cpu.IsFlagSet H = some (cpu.R.F &&& 0x20 == 0x20) := by
  simp [Z80.IsFlagSet, N, Z, H]

/-- Bit 4 of a byte, arithmetically. -/
theorem and_16_eq (y : Nat) (h : y < 256) : (y &&& 0x10 = 0x10 ↔ 16 ≤ y % 32) ∧
    (y &&& 0x10 ≠ 0 ↔ 16 ≤ y % 32) := by
  revert y
  decide

/-- The low nibble of a number, arithmetically. -/
theorem and_15_eq (x : Nat) : x &&& 15 = x % 16 := Nat.and_pow_two_sub_one_eq_mod x 4

/-- The 8-bit subtraction on naturals agrees with the integers. -/
theorem sub8_eq (x y : Nat) : sub8 x y = (x + (256 - y % 256)) % 256 := by
  unfold sub8; omega

/-- The half-borrow test of SUB on two nibbles. -/
theorem half_borrow (x y : Nat) (hx : x < 16) (hy : y < 16) :
    ((x + (256 - y % 256)) % 256 &&& 16 = 16 ↔ x < y) ∧ (sub8 x y &&& 16 ≠ 0 ↔ x < y) := by
  rw [sub8_eq]
  have h := and_16_eq ((x + (256 - y % 256)) % 256) (Nat.mod_lt _ (by decide))
  rw [h.1, h.2]
  omega

/-- The flags after `SetFlag(N)` and three conditional `SetFlag`s from `F = 0`. -/
theorem flags_from_zero (z c h : Prop) [Decidable z] [Decidable c] [Decidable h] :
    ((((0 ^^^ 64 ^^^ if z then 128 else 0) ^^^ if c then 16 else 0) ^^^
        if h then 32 else 0) &&& 64 = 64) ∧
    ((((0 ^^^ 64 ^^^ if z then 128 else 0) ^^^ if c then 16 else 0) ^^^
        if h then 32 else 0) &&& 128 = 128 ↔ z) ∧
    ((((0 ^^^ 64 ^^^ if z then 128 else 0) ^^^ if c then 16 else 0) ^^^
        if h then 32 else 0) &&& 16 = 16 ↔ c) ∧
    ((((0 ^^^ 64 ^^^ if z then 128 else 0) ^^^ if c then 16 else 0) ^^^
        if h then 32 else 0) &&& 32 = 32 ↔ h) := by
  by_cases hz : z <;> by_cases hc : c <;> by_cases hh : h <;> simp [hz, hc, hh] <;> decide

/-- The arithmetic of the SUB flags from `F = 0`: `a` is the old accumulator,
`v` the operand, `w` the operand as the half-borrow test reads it back, which
is `v` again or, when the operand is `A` itself, the new accumulator. -/
theorem sub_flags (a v w F : Nat) (ha : a < 256) (hv : v < 256)
    (hw : w = v ∨ (w = (a + (256 - v % 256)) % 256 ∧ v = a))
    (hF : F = ((0 ^^^ 64 ^^^ if (a + (256 - v % 256)) % 256 = 0 then 128 else 0) ^^^
            if (a + (256 - v % 256)) % 256 > a then 16 else 0) ^^^
          if ((a &&& 15) + (256 - (w &&& 15) % 256)) % 256 &&& 16 = 16 then 32 else 0) :
    F &&& 64 = 64 ∧
    (F &&& 128 = 128 ↔ (a + (256 - v % 256)) % 256 = 0) ∧
    (F &&& 16 = 16 ↔ (a + (256 - v % 256)) % 256 > a) ∧
    ((a + (256 - v % 256)) % 256 > a ↔ v > a) ∧
    (F &&& 32 = 32 ↔ sub8 (a &&& 15) (v &&& 15) &&& 16 ≠ 0) ∧
    (sub8 (a &&& 15) (v &&& 15) &&& 16 ≠ 0 ↔ v &&& 15 > a &&& 15) := by
  obtain ⟨f1, f2, f3, f4⟩ := flags_from_zero ((a + (256 - v % 256)) % 256 = 0)
    ((a + (256 - v % 256)) % 256 > a)
    (((a &&& 15) + (256 - (w &&& 15) % 256)) % 256 &&& 16 = 16)
  rw [← hF] at f1 f2 f3 f4
  have ha15 : a &&& 15 < 16 := by rw [and_15_eq]; omega
  have hv15 : v &&& 15 < 16 := by rw [and_15_eq]; omega
  have hb := half_borrow (a &&& 15) (v &&& 15) ha15 hv15
  refine ⟨f1, f2, f3, by omega, f4.trans ?_, hb.2⟩
  rcases hw with hw | ⟨hw, hva⟩
  · rw [hw]; exact hb.1.trans hb.2.symm
  · subst hva
    have h0 : (v + (256 - v % 256)) % 256 = 0 := by omega
    rw [h0] at hw
    subst hw
    have hz := half_borrow (v &&& 15) 0 ha15 (by decide)
    have e : (0 &&& 15 : Nat) = 0 := by decide
    rw [e, hz.1, hb.2]
    omega

theorem SubA_hl_flags (bus : MMU M) (cpu : Z80 M) (hF : cpu.R.F = 0) (hA : cpu.R.A < 256) :
    ∃ d, Z80.SubA_hl bus cpu = some d ∧
      subFlagsDocumented cpu.R.A (bus.ReadByte cpu.mmu (JoinBytes cpu.R.H cpu.R.L)) d := by
  simp only [Z80.SubA_hl, SetFlag_Z, SetFlag_N, SetFlag_H, SetFlag_C, ResetFlag_Z, ResetFlag_N,
    ResetFlag_H, ResetFlag_C, IsFlagSet_C, ite_SetFlag, Option.pure_def, Option.bind_eq_bind,
    Option.some_bind]
  refine ⟨_, rfl, ?_⟩
  simp only [subFlagsDocumented, IsFlagSet_Z, IsFlagSet_N, IsFlagSet_H, IsFlagSet_C,
    set_R, xorIf_R, setLast_R, Registers.set_F, Registers.set_A, get_eq,
    Registers.set_get, hF, if_true, if_false, reduceCtorEq, Option.some.injEq, beq_iff_eq,
    Registers.get_A]
  exact sub_flags cpu.R.A _ _ _ hA (bus.ReadByte_lt _ _) (Or.inl rfl) rfl

theorem SubA_n_flags (bus : MMU M) (cpu : Z80 M) (hF : cpu.R.F = 0) (hA : cpu.R.A < 256) :
    ∃ d, Z80.SubA_n bus cpu = some d ∧
      subFlagsDocumented cpu.R.A (bus.ReadByte cpu.mmu cpu.PC) d := by
  simp only [Z80.SubA_n, SetFlag_Z, SetFlag_N, SetFlag_H, SetFlag_C, ResetFlag_Z, ResetFlag_N,
    ResetFlag_H, ResetFlag_C, IsFlagSet_C, ite_SetFlag, Option.pure_def, Option.bind_eq_bind,
    Option.some_bind]
  refine ⟨_, rfl, ?_⟩
  simp only [subFlagsDocumented, IsFlagSet_Z, IsFlagSet_N, IsFlagSet_H, IsFlagSet_C,
    set_R, xorIf_R, setLast_R, IncrementPC_R, Registers.set_F, Registers.set_A, get_eq,
    Registers.set_get, hF, if_true, if_false, reduceCtorEq, Option.some.injEq, beq_iff_eq,
    Registers.get_A]
  exact sub_flags cpu.R.A _ _ _ hA (bus.ReadByte_lt _ _) (Or.inl rfl) rfl

theorem SubA_r_flags (cpu : Z80 M) (r : Reg) (hr : r ≠ .F) (hF : cpu.R.F = 0)
    (hA : cpu.R.A < 256) (hv : cpu.get r < 256) :
    ∃ d, cpu.SubA_r r = some d ∧ subFlagsDocumented cpu.R.A (cpu.get r) d := by
  simp only [Z80.SubA_r, SetFlag_Z, SetFlag_N, SetFlag_H, SetFlag_C, ResetFlag_Z, ResetFlag_N,
    ResetFlag_H, ResetFlag_C, IsFlagSet_C, ite_SetFlag, Option.pure_def, Option.bind_eq_bind,
    Option.some_bind]
  refine ⟨_, rfl, ?_⟩
  simp only [subFlagsDocumented, IsFlagSet_Z, IsFlagSet_N, IsFlagSet_H, IsFlagSet_C]
  by_cases hrA : r = .A
  · subst hrA
    simp only [set_R, xorIf_R, setLast_R, Registers.set_F, Registers.set_A, get_eq,
      Registers.set_get, hF, if_true, if_false, reduceCtorEq, Option.some.injEq, beq_iff_eq,
      Registers.get_A]
    exact sub_flags cpu.R.A _ _ _ hA hA (Or.inr ⟨rfl, rfl⟩) rfl
  · simp only [set_R, xorIf_R, setLast_R, Registers.set_F, Registers.set_A, get_eq,
      Registers.set_get, hF, hr, hrA, if_true, if_false, reduceCtorEq, Option.some.injEq,
      beq_iff_eq, Registers.get_A]
    exact sub_flags cpu.R.A _ _ _ hA hv (Or.inl rfl) rfl

/-- C9: for every state with `F = 0` and byte-valued registers and every SUB
opcode, the instruction returns with N set, Z set iff the new `A` is 0, C set
iff the new `A` is greater than the old `A`, which holds iff the operand is
greater than the old `A`, and H set iff `((oldA & 0xF) - (operand & 0xF)) & 0x10`
is non-zero in 8-bit arithmetic, which holds iff the operand's low nibble is
greater than the old `A`'s low nibble. -/
theorem Dispatch_sub_flags (bus : MMU M) (cpu : Z80 M) (hF : cpu.R.F = 0) (hwf : cpu.R.WF) :
    ∀ op ∈ subOps, ∃ d, cpu.Dispatch bus op = some d ∧
      subFlagsDocumented cpu.R.A (aluOperand bus cpu op) d := by
  obtain ⟨hA, hB, hC, hD, hE, hH, hL, -⟩ := hwf
  simp only [subOps, List.forall_mem_cons, List.not_mem_nil, false_imp_iff, implies_true,
    and_true]
  refine ⟨?_, ?_, ?_, ?_, ?_, ?_, ?_, ?_, ?_⟩
  · exact SubA_r_flags cpu .B (by decide) hF hA hB
  · exact SubA_r_flags cpu .C (by decide) hF hA hC
  · exact SubA_r_flags cpu .D (by decide) hF hA hD
  · exact SubA_r_flags cpu .E (by decide) hF hA hE
  · exact SubA_r_flags cpu .H (by decide) hF hA hH
  · exact SubA_r_flags cpu .L (by decide) hF hA hL
  · exact SubA_hl_flags bus cpu hF hA
  · exact SubA_r_flags cpu .A (by decide) hF hA hA
  · exact SubA_n_flags bus cpu hF hA

/-- C9 at `SUB A,A` from `A = 0x42`: `A = 0`, Z and N set, C and H clear, that
is `F = 0xC0`. -/
theorem Dispatch_sub_flags_witness :
    ((mkCPU { zeroRegisters with A := 0x42 } 0 0 (memOf [0x97])).R.F = 0 ∧
      (mkCPU { zeroRegisters with A := 0x42 } 0 0 (memOf [0x97])).R.WF ∧ 0x97 ∈ subOps) ∧
    (∃ d, (mkCPU { zeroRegisters with A := 0x42 } 0 0 (memOf [0x97])).Dispatch flatBus 0x97
        = some d ∧
      subFlagsDocumented 0x42
        (aluOperand flatBus (mkCPU { zeroRegisters with A := 0x42 } 0 0 (memOf [0x97])) 0x97) d) ∧
    ((mkCPU { zeroRegisters with A := 0x42 } 0 0 (memOf [0x97])).Step flatBus).map
      (fun s => (s.R.A, s.R.F, s.PC)) = some (0, 0xC0, 1) :=
  ⟨⟨rfl, by decide, by decide⟩,
    Dispatch_sub_flags flatBus (mkCPU { zeroRegisters with A := 0x42 } 0 0 (memOf [0x97])) rfl
      (by decide) 0x97 (by decide),
    by decide⟩

/-- C7, at the failing input: with all four flags set (`F = 0xF0`), `SetFlag`
of each of Z, N, H, C returns and leaves that flag clear, `IsFlagSet` answering
false. -/
theorem SetFlag_clears_a_set_flag :
    [Z, N, H, C].map (fun f =>
      ((mkCPU { zeroRegisters with F := 0xF0 } 0 0 (memOf [])).SetFlag f).bind
        (fun c => c.IsFlagSet f)) = [some false, some false, some false, some false] := by
  decide

/-- C8, at the failing input: with `A = 0x42` and the Z flag already set
(`F = 0x80`), one step of `XOR A,A` leaves `A = 0` and `F = 0`, and one step of
`SUB A,A` leaves `A = 0` and `F = 0x40`: the Z flag is clear after both. -/
theorem XorAA_SubAA_clear_a_set_Z :
    ((mkCPU { zeroRegisters with A := 0x42, F := 0x80 } 0 0 (memOf [0xAF])).Step flatBus).map
        (fun s => (s.R.A, s.R.F, s.IsFlagSet Z)) = some (0, 0x00, some false) ∧
    ((mkCPU { zeroRegisters with A := 0x42, F := 0x80 } 0 0 (memOf [0x97])).Step flatBus).map
        (fun s => (s.R.A, s.R.F, s.IsFlagSet Z)) = some (0, 0x40, some false) := by
  decide

/-- C10, at the failing inputs: with the H flag already set (`F = 0x20`) and
`A = 0xF0`, one step of `AND A,0x0F` leaves `A = 0` and `F = 0x80`, H clear; with
the Z flag already set (`F = 0x80`) and `A = 0xFF`, one step of `AND A,0xFF`
leaves `A = 0xFF` and `F = 0xA0`, Z set although `A` is not zero. -/
theorem AndA_n_stale_flags :
    ((mkCPU { zeroRegisters with A := 0xF0, F := 0x20 } 0 0 (memOf [0xE6, 0x0F])).Step
        flatBus).map (fun s => (s.R.A, s.R.F, s.IsFlagSet H)) = some (0, 0x80, some false) ∧
    ((mkCPU { zeroRegisters with A := 0xFF, F := 0x80 } 0 0 (memOf [0xE6, 0xFF])).Step
        flatBus).map (fun s => (s.R.A, s.R.F, s.IsFlagSet Z)) = some (0xFF, 0xA0, some true) := by
  decide


/-! ## Immediate loads -/

/-- The state a step leaves agrees with the state its dispatch left on the
registers, `PC`, `SP` and the bus. -/
theorem Step_fields (bus : MMU M) (cpu d : Z80 M)
    (h : (cpu.IncrementPC 1).Dispatch bus (bus.ReadByte cpu.mmu cpu.PC) = some d) :
    ∃ s, cpu.Step bus = some s ∧ s.R = d.R ∧ s.PC = d.PC ∧ s.SP = d.SP ∧ s.mmu = d.mmu ∧
      s.MachineCycles = { m := (d.MachineCycles.m + d.LastInstrCycle.m) % 65536,
                          t := (d.MachineCycles.t + d.LastInstrCycle.t) % 65536 } ∧
      s.LastInstrCycle = { m := 0, t := 0 } :=
  ⟨_, Step_of_Dispatch bus cpu d h, rfl, rfl, rfl, rfl, rfl, rfl⟩

/-- The C11 counterexample: after one step of a new CPU over the flat memory
[0x3E, 0x42] the last-instruction clock is (0, 0), not (2, 8). -/
theorem Step_LD_A_n_counterexample :
    ∃ s, (NewCPU (memOf [0x3E, 0x42])).Step flatBus = some s ∧
      s.LastInstrCycle = { m := 0, t := 0 } ∧ s.LastInstrCycle ≠ { m := 2, t := 8 } :=
  ⟨_, Step_of_Dispatch flatBus (NewCPU (memOf [0x3E, 0x42])) _ rfl, rfl, by decide⟩

/-- C11, amended: for every byte `n`, a new CPU over a memory whose first two
bytes are 0x3E and `n` dispatches `LD A,n`, which records the cost (2, 8), and
after the one `Step` `A = n`, `PC = 2`, the machine-cycle clock is (2, 8) and
the last-instruction clock is (0, 0). -/
theorem Step_LD_A_n (bus : MMU M) (m : M) (n : Nat)
    (h0 : bus.ReadByte m 0 = 0x3E) (h1 : bus.ReadByte m 1 = n) :
    ∃ d s, ((NewCPU m).IncrementPC 1).Dispatch bus (bus.ReadByte m 0) = some d ∧
      d.LastInstrCycle = { m := 2, t := 8 } ∧
      (NewCPU m).Step bus = some s ∧ s.R.A = n ∧ s.PC = 2 ∧
      s.MachineCycles = { m := 2, t := 8 } ∧ s.LastInstrCycle = { m := 0, t := 0 } := by
  have hd : ((NewCPU m).IncrementPC 1).Dispatch bus (bus.ReadByte (NewCPU m).mmu (NewCPU m).PC) =
      some (Z80.LDrn bus ((NewCPU m).IncrementPC 1) .A) := by
    show ((NewCPU m).IncrementPC 1).Dispatch bus (bus.ReadByte m 0) = _
    rw [h0]; rfl
  refine ⟨_, _, hd, rfl, Step_of_Dispatch bus (NewCPU m) _ hd, ?_, rfl, rfl, rfl⟩
  show bus.ReadByte m 1 = n
  exact h1

/-- C11, amended, at `n = 0x42` over the flat memory. -/
theorem Step_LD_A_n_witness :
    (flatBus.ReadByte (memOf [0x3E, 0x42]) 0 = 0x3E ∧
      flatBus.ReadByte (memOf [0x3E, 0x42]) 1 = 0x42) ∧
    ∃ d s, ((NewCPU (memOf [0x3E, 0x42])).IncrementPC 1).Dispatch flatBus
        (flatBus.ReadByte (memOf [0x3E, 0x42]) 0) = some d ∧
      d.LastInstrCycle = { m := 2, t := 8 } ∧
      (NewCPU (memOf [0x3E, 0x42])).Step flatBus = some s ∧ s.R.A = 0x42 ∧ s.PC = 2 ∧
      s.MachineCycles = { m := 2, t := 8 } ∧ s.LastInstrCycle = { m := 0, t := 0 } :=
  ⟨⟨by decide, by decide⟩, Step_LD_A_n flatBus (memOf [0x3E, 0x42]) 0x42 (by decide) (by decide)⟩

/-! ## The flags across the 8-bit loads -/

theorem LDrn_F (bus : MMU M) (cpu : Z80 M) (r : Reg) (hr : r ≠ .F) :
    (Z80.LDrn bus cpu r).R.F = cpu.R.F := by
  simp [Z80.LDrn, hr]

theorem LDrr_F (cpu : Z80 M) (r1 r2 : Reg) (hr1 : r1 ≠ .F) :
    (cpu.LDrr r1 r2).R.F = cpu.R.F := by
  simp [Z80.LDrr, hr1]

theorem LDr_hl_F (bus : MMU M) (cpu : Z80 M) (r : Reg) (hr : r ≠ .F) :
    (Z80.LDr_hl bus cpu r).R.F = cpu.R.F := by
  simp [Z80.LDr_hl, hr]

theorem LDhl_r_F (bus : MMU M) (cpu : Z80 M) (r : Reg) :
    (Z80.LDhl_r bus cpu r).R.F = cpu.R.F := by
  rfl

theorem LDr_bc_F (bus : MMU M) (cpu : Z80 M) (r : Reg) (hr : r ≠ .F) :
    (Z80.LDr_bc bus cpu r).R.F = cpu.R.F := by
  simp [Z80.LDr_bc, hr]

theorem LDr_de_F (bus : MMU M) (cpu : Z80 M) (r : Reg) (hr : r ≠ .F) :
    (Z80.LDr_de bus cpu r).R.F = cpu.R.F := by
  simp [Z80.LDr_de, hr]

theorem LDbc_r_F (bus : MMU M) (cpu : Z80 M) (r : Reg) :
    (Z80.LDbc_r bus cpu r).R.F = cpu.R.F := by
  rfl

theorem LDde_r_F (bus : MMU M) (cpu : Z80 M) (r : Reg) :
    (Z80.LDde_r bus cpu r).R.F = cpu.R.F := by
  rfl

theorem LDr_nn_F (bus : MMU M) (cpu : Z80 M) (r : Reg) (hr : r ≠ .F) :
    (Z80.LDr_nn bus cpu r).R.F = cpu.R.F := by
  simp [Z80.LDr_nn, hr]

theorem LDnn_r_F (bus : MMU M) (cpu : Z80 M) (r : Reg) :
    (Z80.LDnn_r bus cpu r).R.F = cpu.R.F := by
  rfl

theorem LDhl_n_F (bus : MMU M) (cpu : Z80 M) :
    (Z80.LDhl_n bus cpu).R.F = cpu.R.F := by
  rfl

theorem LDr_ffplusc_F (bus : MMU M) (cpu : Z80 M) (r : Reg) (hr : r ≠ .F) :
    (Z80.LDr_ffplusc bus cpu r).R.F = cpu.R.F := by
  simp [Z80.LDr_ffplusc, hr]

theorem LDffplusc_r_F (bus : MMU M) (cpu : Z80 M) (r : Reg) :
    (Z80.LDffplusc_r bus cpu r).R.F = cpu.R.F := by
  rfl

theorem LDHn_r_F (bus : MMU M) (cpu : Z80 M) (r : Reg) (hr : r ≠ .F) :
    (Z80.LDHn_r bus cpu r).R.F = cpu.R.F := by
  simp [Z80.LDHn_r, hr]

theorem LDHr_n_F (bus : MMU M) (cpu : Z80 M) (r : Reg) :
    (Z80.LDHr_n bus cpu r).R.F = cpu.R.F := by
  rfl

theorem LDDr_hl_F (bus : MMU M) (cpu : Z80 M) (r : Reg) (hr : r ≠ .F) :
    (Z80.LDDr_hl bus cpu r).R.F = cpu.R.F := by
  simp [Z80.LDDr_hl, Z80.decHL, hr]

theorem LDDhl_r_F (bus : MMU M) (cpu : Z80 M) (r : Reg) :
    (Z80.LDDhl_r bus cpu r).R.F = cpu.R.F := by
  simp [Z80.LDDhl_r, Z80.decHL]

theorem LDIr_hl_F (bus : MMU M) (cpu : Z80 M) (r : Reg) (hr : r ≠ .F) :
    (Z80.LDIr_hl bus cpu r).R.F = cpu.R.F := by
  simp [Z80.LDIr_hl, Z80.incHL, hr]

theorem LDIhl_r_F (bus : MMU M) (cpu : Z80 M) (r : Reg) :
    (Z80.LDIhl_r bus cpu r).R.F = cpu.R.F := by
  simp [Z80.LDIhl_r, Z80.incHL]

/-- Every 8-bit load opcode is dispatched to an instruction that returns and
leaves `F` as it is. -/
theorem Dispatch_load_F (bus : MMU M) (cpu : Z80 M) :
    ∀ op ∈ load8Ops, ∃ d, cpu.Dispatch bus op = some d ∧ d.R.F = cpu.R.F := by
  simp only [load8Ops, List.forall_mem_cons, List.not_mem_nil, false_imp_iff, implies_true,
    and_true]
  refine ⟨?_, ?_, ?_, ?_, ?_, ?_, ?_, ?_, ?_, ?_, ?_, ?_, ?_, ?_, ?_, ?_,
    ?_, ?_, ?_, ?_, ?_, ?_, ?_, ?_, ?_, ?_, ?_, ?_, ?_, ?_, ?_, ?_,
    ?_, ?_, ?_, ?_, ?_, ?_, ?_, ?_, ?_, ?_, ?_, ?_, ?_, ?_, ?_, ?_,
    ?_, ?_, ?_, ?_, ?_, ?_, ?_, ?_, ?_, ?_, ?_, ?_, ?_, ?_, ?_, ?_,
    ?_, ?_, ?_, ?_, ?_, ?_, ?_, ?_, ?_, ?_, ?_, ?_, ?_, ?_, ?_, ?_,
    ?_, ?_, ?_, ?_, ?_⟩
  · exact ⟨_, rfl, LDrn_F bus cpu .B (by decide)⟩
  · exact ⟨_, rfl, LDrn_F bus cpu .C (by decide)⟩
  · exact ⟨_, rfl, LDrn_F bus cpu .D (by decide)⟩
  · exact ⟨_, rfl, LDrn_F bus cpu .E (by decide)⟩
  · exact ⟨_, rfl, LDrn_F bus cpu .H (by decide)⟩
  · exact ⟨_, rfl, LDrn_F bus cpu .L (by decide)⟩
  · exact ⟨_, rfl, LDrn_F bus cpu .A (by decide)⟩
  · exact ⟨_, rfl, LDrr_F cpu .B .B (by decide)⟩
  · exact ⟨_, rfl, LDrr_F cpu .B .C (by decide)⟩
  · exact ⟨_, rfl, LDrr_F cpu .B .D (by decide)⟩
  · exact ⟨_, rfl, LDrr_F cpu .B .E (by decide)⟩
  · exact ⟨_, rfl, LDrr_F cpu .B .H (by decide)⟩
  · exact ⟨_, rfl, LDrr_F cpu .B .L (by decide)⟩
  · exact ⟨_, rfl, LDrr_F cpu .B .A (by decide)⟩
  · exact ⟨_, rfl, LDrr_F cpu .C .B (by decide)⟩
  · exact ⟨_, rfl, LDrr_F cpu .C .C (by decide)⟩
  · exact ⟨_, rfl, LDrr_F cpu .C .D (by decide)⟩
  · exact ⟨_, rfl, LDrr_F cpu .C .E (by decide)⟩
  · exact ⟨_, rfl, LDrr_F cpu .C .H (by decide)⟩
  · exact ⟨_, rfl, LDrr_F cpu .C .L (by decide)⟩
  · exact ⟨_, rfl, LDrr_F cpu .C .A (by decide)⟩
  · exact ⟨_, rfl, LDrr_F cpu .D .B (by decide)⟩
  · exact ⟨_, rfl, LDrr_F cpu .D .C (by decide)⟩
  · exact ⟨_, rfl, LDrr_F cpu .D .D (by decide)⟩
  · exact ⟨_, rfl, LDrr_F cpu .D .E (by decide)⟩
  · exact ⟨_, rfl, LDrr_F cpu .D .H (by decide)⟩
  · exact ⟨_, rfl, LDrr_F cpu .D .L (by decide)⟩
  · exact ⟨_, rfl, LDrr_F cpu .D .A (by decide)⟩
  · exact ⟨_, rfl, LDrr_F cpu .E .B (by decide)⟩
  · exact ⟨_, rfl, LDrr_F cpu .E .C (by decide)⟩
  · exact ⟨_, rfl, LDrr_F cpu .E .D (by decide)⟩
  · exact ⟨_, rfl, LDrr_F cpu .E .E (by decide)⟩
  · exact ⟨_, rfl, LDrr_F cpu .E .H (by decide)⟩
  · exact ⟨_, rfl, LDrr_F cpu .E .L (by decide)⟩
  · exact ⟨_, rfl, LDrr_F cpu .E .A (by decide)⟩
  · exact ⟨_, rfl, LDrr_F cpu .H .B (by decide)⟩
  · exact ⟨_, rfl, LDrr_F cpu .H .C (by decide)⟩
  · exact ⟨_, rfl, LDrr_F cpu .H .D (by decide)⟩
  · exact ⟨_, rfl, LDrr_F cpu .H .E (by decide)⟩
  · exact ⟨_, rfl, LDrr_F cpu .H .H (by decide)⟩
  · exact ⟨_, rfl, LDrr_F cpu .H .L (by decide)⟩
  · exact ⟨_, rfl, LDrr_F cpu .H .A (by decide)⟩
  · exact ⟨_, rfl, LDrr_F cpu .L .B (by decide)⟩
  · exact ⟨_, rfl, LDrr_F cpu .L .C (by decide)⟩
  · exact ⟨_, rfl, LDrr_F cpu .L .D (by decide)⟩
  · exact ⟨_, rfl, LDrr_F cpu .L .E (by decide)⟩
  · exact ⟨_, rfl, LDrr_F cpu .L .H (by decide)⟩
  · exact ⟨_, rfl, LDrr_F cpu .L .L (by decide)⟩
  · exact ⟨_, rfl, LDrr_F cpu .L .A (by decide)⟩
  · exact ⟨_, rfl, LDrr_F cpu .A .B (by decide)⟩
  · exact ⟨_, rfl, LDrr_F cpu .A .C (by decide)⟩
  · exact ⟨_, rfl, LDrr_F cpu .A .D (by decide)⟩
  · exact ⟨_, rfl, LDrr_F cpu .A .E (by decide)⟩
  · exact ⟨_, rfl, LDrr_F cpu .A .H (by decide)⟩
  · exact ⟨_, rfl, LDrr_F cpu .A .L (by decide)⟩
  · exact ⟨_, rfl, LDrr_F cpu .A .A (by decide)⟩
  · exact ⟨_, rfl, LDr_hl_F bus cpu .B (by decide)⟩
  · exact ⟨_, rfl, LDr_hl_F bus cpu .C (by decide)⟩
  · exact ⟨_, rfl, LDr_hl_F bus cpu .D (by decide)⟩
  · exact ⟨_, rfl, LDr_hl_F bus cpu .E (by decide)⟩
  · exact ⟨_, rfl, LDr_hl_F bus cpu .H (by decide)⟩
  · exact ⟨_, rfl, LDr_hl_F bus cpu .L (by decide)⟩
  · exact ⟨_, rfl, LDr_hl_F bus cpu .A (by decide)⟩
  · exact ⟨_, rfl, LDhl_r_F bus cpu .B⟩
  · exact ⟨_, rfl, LDhl_r_F bus cpu .C⟩
  · exact ⟨_, rfl, LDhl_r_F bus cpu .D⟩
  · exact ⟨_, rfl, LDhl_r_F bus cpu .E⟩
  · exact ⟨_, rfl, LDhl_r_F bus cpu .H⟩
  · exact ⟨_, rfl, LDhl_r_F bus cpu .L⟩
  · exact ⟨_, rfl, LDhl_r_F bus cpu .A⟩
  · exact ⟨_, rfl, LDr_bc_F bus cpu .A (by decide)⟩
  · exact ⟨_, rfl, LDr_de_F bus cpu .A (by decide)⟩
  · exact ⟨_, rfl, LDbc_r_F bus cpu .A⟩
  · exact ⟨_, rfl, LDde_r_F bus cpu .A⟩
  · exact ⟨_, rfl, LDr_nn_F bus cpu .A (by decide)⟩
  · exact ⟨_, rfl, LDnn_r_F bus cpu .A⟩
  · exact ⟨_, rfl, LDhl_n_F bus cpu⟩
  · exact ⟨_, rfl, LDr_ffplusc_F bus cpu .A (by decide)⟩
  · exact ⟨_, rfl, LDffplusc_r_F bus cpu .A⟩
  · exact ⟨_, rfl, LDHn_r_F bus cpu .A (by decide)⟩
  · exact ⟨_, rfl, LDHr_n_F bus cpu .A⟩
  · exact ⟨_, rfl, LDDr_hl_F bus cpu .A (by decide)⟩
  · exact ⟨_, rfl, LDDhl_r_F bus cpu .A⟩
  · exact ⟨_, rfl, LDIr_hl_F bus cpu .A (by decide)⟩
  · exact ⟨_, rfl, LDIhl_r_F bus cpu .A⟩

/-- C12: for every state and every 8-bit load opcode, the `Step` that fetches it
returns and the `F` register after the step equals the `F` register before
it. -/
theorem Step_load_keeps_F (bus : MMU M) (cpu : Z80 M)
    (h : bus.ReadByte cpu.mmu cpu.PC ∈ load8Ops) :
    ∃ s, cpu.Step bus = some s ∧ s.R.F = cpu.R.F := by
  obtain ⟨d, hd, hF⟩ := Dispatch_load_F bus (cpu.IncrementPC 1) _ h
  obtain ⟨s, hs, hR, -⟩ := Step_fields bus cpu d hd
  exact ⟨s, hs, by rw [hR, hF]; rfl⟩

/-- C12 at `LDD (HL),A` (0x32) with all four flags set and `HL = 0x0100`. -/
theorem Step_load_keeps_F_witness :
    flatBus.ReadByte (mkCPU { zeroRegisters with A := 0x5A, H := 0x01, F := 0xF0 } 0 0
        (memOf [0x32])).mmu 0 ∈ load8Ops ∧
    ∃ s, (mkCPU { zeroRegisters with A := 0x5A, H := 0x01, F := 0xF0 } 0 0
        (memOf [0x32])).Step flatBus = some s ∧ s.R.F = 0xF0 :=
  ⟨by decide, Step_load_keeps_F flatBus
    (mkCPU { zeroRegisters with A := 0x5A, H := 0x01, F := 0xF0 } 0 0 (memOf [0x32])) (by decide)⟩


/-! ## The 16-bit immediate loads -/

/-- The effect of `LDn_nn` on a pair of distinct registers. -/
theorem LDn_nn_pairLoaded (bus : MMU M) (cpu : Z80 M) (hi lo : Reg) (h : hi ≠ lo) :
    pairLoaded bus cpu (cpu.LDn_nn bus hi lo) hi lo := by
  refine ⟨?_, ?_, rfl, ?_, rfl, rfl⟩
  · simp [Z80.LDn_nn, h]
  · simp [Z80.LDn_nn]
  · intro r h1 h2
    simp [Z80.LDn_nn, h1, h2]

/-- C13: for every state and each of `LD BC,nn` (0x01), `LD DE,nn` (0x11),
`LD HL,nn` (0x21), with `p` the value of `PC` after the opcode fetch: the
instruction returns, the high register of the pair holds the byte at `p`, the
low register the byte at `(p + 1) mod 2^16`, `PC` is `(p + 2) mod 2^16`, and no
other register, flag, `SP` or memory byte has changed; so for the dispatch
from a state with `PC = p`, and so for the whole `Step` that fetches the
opcode. -/
theorem LD_rr_nn (bus : MMU M) (cpu : Z80 M) :
    ∀ e ∈ wordLoads,
      (∃ d, cpu.Dispatch bus e.1 = some d ∧ pairLoaded bus cpu d e.2.1 e.2.2) ∧
      (bus.ReadByte cpu.mmu cpu.PC = e.1 → ∃ s, cpu.Step bus = some s ∧
        pairLoaded bus (cpu.IncrementPC 1) s e.2.1 e.2.2) := by
  have key : ∀ (c : Z80 M), ∀ e ∈ wordLoads,
      ∃ d, c.Dispatch bus e.1 = some d ∧ pairLoaded bus c d e.2.1 e.2.2 := by
    intro c e he
    simp only [wordLoads, List.mem_cons, List.mem_singleton, List.not_mem_nil, or_false] at he
    rcases he with rfl | rfl | rfl
    · exact ⟨_, rfl, LDn_nn_pairLoaded bus c .B .C (by decide)⟩
    · exact ⟨_, rfl, LDn_nn_pairLoaded bus c .D .E (by decide)⟩
    · exact ⟨_, rfl, LDn_nn_pairLoaded bus c .H .L (by decide)⟩
  intro e he
  refine ⟨key cpu e he, ?_⟩
  intro hop
  obtain ⟨d, hd, h1, h2, h3, h4, h5, h6⟩ := key (cpu.IncrementPC 1) e he
  rw [← hop] at hd
  obtain ⟨s, hs, hR, hPC, hSP, hmmu, -, -⟩ := Step_fields bus cpu d hd
  refine ⟨s, hs, ?_, ?_, ?_, ?_, ?_, ?_⟩
  · rw [hR]; exact h1
  · rw [hR]; exact h2
  · rw [hPC]; exact h3
  · intro r hr1 hr2; rw [hR]; exact h4 r hr1 hr2
  · rw [hSP]; exact h5
  · rw [hmmu]; exact h6

/-- C13 at `LD DE,nn` over the flat memory [0x11, 0xAB, 0xCD]. -/
theorem LD_rr_nn_witness :
    ((0x11, Reg.D, Reg.E) : Nat × Reg × Reg) ∈ wordLoads ∧
    (∃ d, (NewCPU (memOf [0x11, 0xAB, 0xCD])).Dispatch flatBus 0x11 = some d ∧
      pairLoaded flatBus (NewCPU (memOf [0x11, 0xAB, 0xCD])) d .D .E) ∧
    (flatBus.ReadByte (memOf [0x11, 0xAB, 0xCD]) 0 = 0x11 →
      ∃ s, (NewCPU (memOf [0x11, 0xAB, 0xCD])).Step flatBus = some s ∧
        pairLoaded flatBus ((NewCPU (memOf [0x11, 0xAB, 0xCD])).IncrementPC 1) s .D .E) :=
  ⟨by decide, LD_rr_nn flatBus (NewCPU (memOf [0x11, 0xAB, 0xCD])) (0x11, .D, .E) (by decide)⟩

/-! ## PUSH -/

/-- The effect of `Push_nn` over the flat memory. -/
theorem Push_nn_flat (cpu : Z80 (Nat → Nat)) (r1 r2 : Reg) (hsp : cpu.SP < 65536)
    (h1 : cpu.get r1 < 256) (h2 : cpu.get r2 < 256) :
    pushed cpu (cpu.Push_nn flatBus r1 r2) r1 r2 := by
  unfold pushed
  have h1' : cpu.R.get r1 < 256 := h1
  have h2' : cpu.R.get r2 < 256 := h2
  have e1 : (if cpu.SP = 0 then 65535 else (cpu.SP - 1) % 65536) = sub16 cpu.SP 1 := by
    unfold sub16; split_ifs <;> omega
  have e2 : (if sub16 cpu.SP 1 = 0 then 65535 else (sub16 cpu.SP 1 - 1) % 65536) =
      sub16 cpu.SP 2 := by
    unfold sub16; split_ifs <;> omega
  have b1 : sub16 cpu.SP 1 < 65536 := by unfold sub16; omega
  have b2 : sub16 cpu.SP 2 < 65536 := by unfold sub16; omega
  have ne : sub16 cpu.SP 1 ≠ sub16 cpu.SP 2 := by unfold sub16; omega
  have nx : (sub16 cpu.SP 2 + 1) % 65536 = sub16 cpu.SP 1 := by unfold sub16; omega
  have m1 : sub16 cpu.SP 1 % 65536 = sub16 cpu.SP 1 := Nat.mod_eq_of_lt b1
  have m2 : sub16 cpu.SP 2 % 65536 = sub16 cpu.SP 2 := Nat.mod_eq_of_lt b2
  have v1 : cpu.R.get r1 % 256 = cpu.R.get r1 := Nat.mod_eq_of_lt h1'
  have v2 : cpu.R.get r2 % 256 = cpu.R.get r2 := Nat.mod_eq_of_lt h2'
  simp only [Z80.Push_nn, setLast_SP, setLast_mmu, setLast_R, setLast_PC,
    setLast_LastInstrCycle, get_eq, e1, e2]
  refine ⟨trivial, ?_, ?_, ?_, ?_, trivial, trivial, trivial⟩
  · simp only [flatBus, m1, m2, if_neg ne, if_true, v1, Nat.mod_mod]
  · simp only [flatBus, m2, if_true, v2, Nat.mod_mod]
  · simp only [flatBus, m1, m2, nx, if_neg ne, if_true, v1, v2, Nat.mod_mod]
    omega
  · intro a ha1 ha2
    simp only [flatBus, m1, m2, if_neg ha1, if_neg ha2]

/-- C14: over the flat memory, for every well-formed state and every pair among
AF, BC, DE, HL, PUSH returns with `SP = (old SP - 2) mod 2^16`, the pair's high
register at address `(old SP - 1) mod 2^16` and its low register at
`(old SP - 2) mod 2^16`, the little-endian word at the new `SP` being
`high * 256 + low`, every other memory byte and every register unchanged, and
the recorded cost (3, 12). -/
theorem Push_effect (cpu : Z80 (Nat → Nat)) (hwf : cpu.WF) :
    ∀ p ∈ stackPairs, ∃ d, cpu.Dispatch flatBus p.push = some d ∧ pushed cpu d p.hi p.lo := by
  have hsp : cpu.SP < 65536 := hwf.2.1
  have hr := WF_get cpu hwf
  intro p hp
  simp only [stackPairs, List.mem_cons, List.mem_singleton, List.not_mem_nil, or_false] at hp
  rcases hp with rfl | rfl | rfl | rfl
  · exact ⟨_, rfl, Push_nn_flat cpu .A .F hsp (hr _) (hr _)⟩
  · exact ⟨_, rfl, Push_nn_flat cpu .B .C hsp (hr _) (hr _)⟩
  · exact ⟨_, rfl, Push_nn_flat cpu .D .E hsp (hr _) (hr _)⟩
  · exact ⟨_, rfl, Push_nn_flat cpu .H .L hsp (hr _) (hr _)⟩

/-- C14 at `PUSH HL` with `SP = 1`, `H = 0x12`, `L = 0x34`: the bytes go to
addresses 0 and 0xFFFF and `SP` becomes 0xFFFF. -/
theorem Push_effect_witness :
    (mkCPU { zeroRegisters with H := 0x12, L := 0x34 } 0 1 (memOf [])).WF ∧
    ∃ d, (mkCPU { zeroRegisters with H := 0x12, L := 0x34 } 0 1 (memOf [])).Dispatch flatBus 0xE5
        = some d ∧
      pushed (mkCPU { zeroRegisters with H := 0x12, L := 0x34 } 0 1 (memOf [])) d .H .L :=
  ⟨by decide, Push_effect (mkCPU { zeroRegisters with H := 0x12, L := 0x34 } 0 1 (memOf []))
    (by decide) ⟨0xE5, 0xE1, .H, .L⟩ (by decide)⟩

/-! ## Loading a register into itself -/

/-- The C16 counterexample: one step of `LD D,D` (0x52) from a state whose
last-instruction clock is (7, 9) returns a state whose last-instruction clock
is (0, 0); the step has changed the last-instruction clock besides `PC` and
the machine-cycle clock, and its result is not the starting state with only
`PC` and the machine-cycle clock moved. -/
theorem LDrr_self_counterexample :
    ((0x52, Reg.D) : Nat × Reg) ∈ selfLoads ∧
    flatBus.ReadByte staleClockCPU.mmu staleClockCPU.PC = 0x52 ∧
    ∃ s, staleClockCPU.Step flatBus = some s ∧
      s.LastInstrCycle = { m := 0, t := 0 } ∧
      s.LastInstrCycle ≠ staleClockCPU.LastInstrCycle ∧
      s ≠ { staleClockCPU with
            PC := (staleClockCPU.PC + 1) % 65536
            MachineCycles := { m := (staleClockCPU.MachineCycles.m + 1) % 65536
                               t := (staleClockCPU.MachineCycles.t + 4) % 65536 } } :=
  ⟨by decide, by decide, _, Step_of_Dispatch flatBus staleClockCPU _ rfl, rfl, by decide,
    fun h => absurd (congrArg Z80.LastInstrCycle h) (by decide)⟩

/-- C16, amended: for every state and every register `r` of A, B, C, D, E, H, L,
the opcode of `LD r,r` dispatches to `LDrr(r, r)`, which leaves the eight
registers, `PC`, `SP`, the machine-cycle clock and the memory as they are and
sets the last-instruction clock to (1, 4); a whole `Step` on such an opcode
moves `PC` by 1 and the machine-cycle clock by (1, 4), leaves the
last-instruction clock at (0, 0), whatever it was, and changes nothing else. -/
theorem LDrr_self (bus : MMU M) (cpu : Z80 M) :
    ∀ e ∈ selfLoads,
      cpu.Dispatch bus e.1 = some (cpu.LDrr e.2 e.2) ∧
      cpu.LDrr e.2 e.2 = { cpu with LastInstrCycle := { m := 1, t := 4 } } ∧
      (bus.ReadByte cpu.mmu cpu.PC = e.1 →
        cpu.Step bus = some
          { cpu with
            PC := (cpu.PC + 1) % 65536
            MachineCycles := { m := (cpu.MachineCycles.m + 1) % 65536
                               t := (cpu.MachineCycles.t + 4) % 65536 }
            LastInstrCycle := { m := 0, t := 0 } }) := by
  have key : ∀ (c : Z80 M), ∀ e ∈ selfLoads,
      c.Dispatch bus e.1 = some (c.LDrr e.2 e.2) ∧
      c.LDrr e.2 e.2 = { c with LastInstrCycle := { m := 1, t := 4 } } := by
    intro c e he
    simp only [selfLoads, List.mem_cons, List.mem_singleton, List.not_mem_nil, or_false] at he
    rcases he with rfl | rfl | rfl | rfl | rfl | rfl | rfl <;> exact ⟨rfl, rfl⟩
  intro e he
  refine ⟨(key cpu e he).1, (key cpu e he).2, fun hop => ?_⟩
  obtain ⟨hd, hself⟩ := key (cpu.IncrementPC 1) e he
  rw [← hop, hself] at hd
  rw [Step_of_Dispatch bus cpu _ hd]
  rfl

/-- C16, amended, at `LD D,D` (0x52) over the flat memory, from a state with
values in every register, a machine-cycle clock of (10, 40) and a
last-instruction clock of (7, 9): the instruction records (1, 4), and the step
leaves `PC = 1`, the machine-cycle clock at (11, 44), the last-instruction
clock at (0, 0) and all else as it was. -/
theorem LDrr_self_witness :
    (((0x52, Reg.D) : Nat × Reg) ∈ selfLoads ∧
      flatBus.ReadByte staleClockCPU.mmu staleClockCPU.PC = 0x52) ∧
    (staleClockCPU.Dispatch flatBus 0x52 = some (staleClockCPU.LDrr .D .D) ∧
      staleClockCPU.LDrr .D .D = { staleClockCPU with LastInstrCycle := { m := 1, t := 4 } } ∧
      staleClockCPU.Step flatBus = some
        { staleClockCPU with
          PC := (staleClockCPU.PC + 1) % 65536
          MachineCycles := { m := (staleClockCPU.MachineCycles.m + 1) % 65536
                             t := (staleClockCPU.MachineCycles.t + 4) % 65536 }
          LastInstrCycle := { m := 0, t := 0 } }) ∧
    (staleClockCPU.Step flatBus).map
      (fun s => (s.R, s.PC, s.SP, s.MachineCycles, s.LastInstrCycle))
      = some (⟨1, 2, 3, 4, 5, 6, 7, 0xF0⟩, 1, 9, { m := 11, t := 44 }, { m := 0, t := 0 }) :=
  ⟨⟨by decide, by decide⟩,
    match LDrr_self flatBus staleClockCPU (0x52, .D) (by decide) with
    | ⟨h1, h2, h3⟩ => ⟨h1, h2, h3 (by decide)⟩,
    rfl⟩

/-! ## ADD A,A -/

/-- C20, at the failing inputs: from `F = 0`, one step of `ADD A,A` with
`A = 0x80` leaves `A = 0` and `F = 0x80`, the C flag clear although the new `A`
is less than the old one; with `A = 0x08` it leaves `A = 0x10` and `F = 0`, the
H flag clear although bit 3 of the old `A` was 1. -/
theorem AddAA_misses_carries :
    ((mkCPU { zeroRegisters with A := 0x80 } 0 0 (memOf [0x87])).Step flatBus).map
        (fun s => (s.R.A, s.R.F, s.IsFlagSet C)) = some (0, 0x80, some false) ∧
    ((mkCPU { zeroRegisters with A := 0x08 } 0 0 (memOf [0x87])).Step flatBus).map
        (fun s => (s.R.A, s.R.F, s.IsFlagSet H)) = some (0x10, 0x00, some false) := by
  decide

/-! ## Reset -/

/-- C15: from any state `Reset` yields the state with `A`, `B`, `C`, `D`, `E`,
`H`, `L`, `F`, `PC` and `SP` all 0 and both clocks at (0, 0) over the same bus
state, `NewCPU` yields that state over the bus it is given, and `Reset` applied
twice is `Reset` applied once. -/
theorem Reset_zero (cpu : Z80 M) (m : M) :
    cpu.Reset = { PC := 0, SP := 0, R := zeroRegisters, MachineCycles := { m := 0, t := 0 },
                  LastInstrCycle := { m := 0, t := 0 }, mmu := cpu.mmu } ∧
    NewCPU m = { PC := 0, SP := 0, R := zeroRegisters, MachineCycles := { m := 0, t := 0 },
                 LastInstrCycle := { m := 0, t := 0 }, mmu := m } ∧
    cpu.Reset.Reset = cpu.Reset :=
  ⟨rfl, rfl, rfl⟩

/-! ## Single bits of `F` -/

/-- A number has all of the bit `2 ^ k` exactly when its bit `k` is 1. -/
theorem and_two_pow_eq_iff (F k : Nat) : F &&& 2 ^ k = 2 ^ k ↔ F.testBit k = true := by
  constructor
  · intro h
    have := congrArg (fun x => x.testBit k) h
    simpa [Nat.testBit_and, Nat.testBit_two_pow_self] using this
  · intro h
    apply Nat.eq_of_testBit_eq
    intro i
    rw [Nat.testBit_and]
    by_cases hik : k = i
    · subst hik; simp [h, Nat.testBit_two_pow_self]
    · simp [Nat.testBit_two_pow_of_ne hik]

/-- C18: for every state `IsFlagSet(Z)` returns true iff bit 7 of `F` is 1,
`IsFlagSet(N)` iff bit 6, `IsFlagSet(H)` iff bit 5 and `IsFlagSet(C)` iff
bit 4; two states that agree on that bit get the same answer, whatever the
rest of `F` and of the state. The operation only reads: it returns a boolean
and no state. -/
theorem IsFlagSet_bit (cpu : Z80 M) :
    cpu.IsFlagSet Z = some (cpu.R.F.testBit 7) ∧
    cpu.IsFlagSet N = some (cpu.R.F.testBit 6) ∧
    cpu.IsFlagSet H = some (cpu.R.F.testBit 5) ∧
    cpu.IsFlagSet C = some (cpu.R.F.testBit 4) ∧
    flagTable.all (fun e => decide (2 ^ e.2.2 = e.2.1)) = true ∧
    ∀ (M' : Type) (cpu' : Z80 M'), ∀ e ∈ flagTable,
      cpu.R.F.testBit e.2.2 = cpu'.R.F.testBit e.2.2 → cpu.IsFlagSet e.1 = cpu'.IsFlagSet e.1 := by
  have hbit : ∀ (F k : Nat), (F &&& 2 ^ k == 2 ^ k) = F.testBit k := by
    intro F k
    rw [Bool.eq_iff_iff, beq_iff_eq, and_two_pow_eq_iff]
  have hZ : ∀ (M' : Type) (c : Z80 M'), c.IsFlagSet Z = some (c.R.F.testBit 7) := by
    intro M' c; rw [IsFlagSet_Z]; exact congrArg some (hbit c.R.F 7)
  have hN : ∀ (M' : Type) (c : Z80 M'), c.IsFlagSet N = some (c.R.F.testBit 6) := by
    intro M' c; rw [IsFlagSet_N]; exact congrArg some (hbit c.R.F 6)
  have hH : ∀ (M' : Type) (c : Z80 M'), c.IsFlagSet H = some (c.R.F.testBit 5) := by
    intro M' c; rw [IsFlagSet_H]; exact congrArg some (hbit c.R.F 5)
  have hC : ∀ (M' : Type) (c : Z80 M'), c.IsFlagSet C = some (c.R.F.testBit 4) := by
    intro M' c; rw [IsFlagSet_C]; exact congrArg some (hbit c.R.F 4)
  refine ⟨hZ M cpu, hN M cpu, hH M cpu, hC M cpu, by decide, ?_⟩
  intro M' cpu' e he hb
  simp only [flagTable, List.mem_cons, List.mem_singleton, List.not_mem_nil, or_false] at he
  rcases he with rfl | rfl | rfl | rfl
  · rw [hZ M cpu, hZ M' cpu']; exact congrArg some hb
  · rw [hN M cpu, hN M' cpu']; exact congrArg some hb
  · rw [hH M cpu, hH M' cpu']; exact congrArg some hb
  · rw [hC M cpu, hC M' cpu']; exact congrArg some hb

/-- Clearing bit `k` of a number with the complement of `2 ^ k` in a byte: the
bit is 0 afterwards, the other seven bits stay, and clearing again changes
nothing. -/
theorem and_not_bit (F k : Nat) (hk : k < 8) :
    (F &&& (0xFF ^^^ 2 ^ k)) &&& 2 ^ k = 0 ∧
    (∀ i < 8, i ≠ k → (F &&& (0xFF ^^^ 2 ^ k)).testBit i = F.testBit i) ∧
    (F &&& (0xFF ^^^ 2 ^ k)) &&& (0xFF ^^^ 2 ^ k) = F &&& (0xFF ^^^ 2 ^ k) := by
  have hff : ∀ i, (0xFF : Nat).testBit i = decide (i < 8) := fun i =>
    Nat.testBit_two_pow_sub_one 8 i
  refine ⟨?_, ?_, ?_⟩
  · apply Nat.eq_of_testBit_eq
    intro i
    simp only [Nat.testBit_and, Nat.testBit_xor, hff, Nat.zero_testBit]
    by_cases hik : k = i
    · subst hik; simp [Nat.testBit_two_pow_self, hk]
    · simp [Nat.testBit_two_pow_of_ne hik]
  · intro i hi hik
    simp only [Nat.testBit_and, Nat.testBit_xor, hff]
    simp [Nat.testBit_two_pow_of_ne (Ne.symm hik), hi]
  · rw [Nat.and_assoc, Nat.and_self]

/-- C17: for every state and every flag `f` of Z, N, H, C with masks 0x80, 0x40,
0x20, 0x10, `ResetFlag(f)` returns the state in which `F` is `F AND NOT mask(f)`
and all else is as before; the flag's bit is 0 afterwards, every other bit of
`F` is unchanged, and `ResetFlag(f)` applied twice gives the same state as
applied once. -/
theorem ResetFlag_clears (cpu : Z80 M) :
    ∀ e ∈ flagTable, ∃ d,
      cpu.ResetFlag e.1 = some d ∧
      d = { cpu with R := { cpu.R with F := cpu.R.F &&& (0xFF ^^^ e.2.1) } } ∧
      d.R.F &&& e.2.1 = 0 ∧ d.IsFlagSet e.1 = some false ∧
      (∀ i < 8, i ≠ e.2.2 → d.R.F.testBit i = cpu.R.F.testBit i) ∧
      d.ResetFlag e.1 = some d := by
  intro e he
  simp only [flagTable, List.mem_cons, List.mem_singleton, List.not_mem_nil, or_false] at he
  rcases he with rfl | rfl | rfl | rfl
  · obtain ⟨h1, h2, h3⟩ := and_not_bit cpu.R.F 7 (by decide)
    refine ⟨_, ResetFlag_Z cpu, rfl, h1, ?_, h2, ?_⟩
    · rw [IsFlagSet_Z]
      show some (cpu.R.F &&& (0xFF ^^^ 2 ^ 7) &&& 2 ^ 7 == 2 ^ 7) = some false
      rw [h1]; rfl
    · rw [ResetFlag_Z]
      show some (Z80.set _ .F (cpu.R.F &&& (0xFF ^^^ 2 ^ 7) &&& (0xFF ^^^ 2 ^ 7))) = _
      rw [h3]; rfl
  · obtain ⟨h1, h2, h3⟩ := and_not_bit cpu.R.F 6 (by decide)
    refine ⟨_, ResetFlag_N cpu, rfl, h1, ?_, h2, ?_⟩
    · rw [IsFlagSet_N]
      show some (cpu.R.F &&& (0xFF ^^^ 2 ^ 6) &&& 2 ^ 6 == 2 ^ 6) = some false
      rw [h1]; rfl
    · rw [ResetFlag_N]
      show some (Z80.set _ .F (cpu.R.F &&& (0xFF ^^^ 2 ^ 6) &&& (0xFF ^^^ 2 ^ 6))) = _
      rw [h3]; rfl
  · obtain ⟨h1, h2, h3⟩ := and_not_bit cpu.R.F 5 (by decide)
    refine ⟨_, ResetFlag_H cpu, rfl, h1, ?_, h2, ?_⟩
    · rw [IsFlagSet_H]
      show some (cpu.R.F &&& (0xFF ^^^ 2 ^ 5) &&& 2 ^ 5 == 2 ^ 5) = some false
      rw [h1]; rfl
    · rw [ResetFlag_H]
      show some (Z80.set _ .F (cpu.R.F &&& (0xFF ^^^ 2 ^ 5) &&& (0xFF ^^^ 2 ^ 5))) = _
      rw [h3]; rfl
  · obtain ⟨h1, h2, h3⟩ := and_not_bit cpu.R.F 4 (by decide)
    refine ⟨_, ResetFlag_C cpu, rfl, h1, ?_, h2, ?_⟩
    · rw [IsFlagSet_C]
      show some (cpu.R.F &&& (0xFF ^^^ 2 ^ 4) &&& 2 ^ 4 == 2 ^ 4) = some false
      rw [h1]; rfl
    · rw [ResetFlag_C]
      show some (Z80.set _ .F (cpu.R.F &&& (0xFF ^^^ 2 ^ 4) &&& (0xFF ^^^ 2 ^ 4))) = _
      rw [h3]; rfl

/-- C17 at `ResetFlag(N)` from `F = 0xF0`: `F` becomes 0xB0. -/
theorem ResetFlag_clears_witness :
    ((N, 0x40, 6) : Nat × Nat × Nat) ∈ flagTable ∧
    ∃ d, (mkCPU { zeroRegisters with F := 0xF0 } 0 0 (memOf [])).ResetFlag N = some d ∧
      d.R.F = 0xB0 ∧ d.IsFlagSet N = some false ∧ d.ResetFlag N = some d :=
  ⟨by decide,
    match ResetFlag_clears (mkCPU { zeroRegisters with F := 0xF0 } 0 0 (memOf [])) (N, 0x40, 6)
      (by decide) with
    | ⟨d, h1, h2, _, h4, _, h6⟩ => ⟨d, h1, by rw [h2]; decide, h4, h6⟩⟩

/-! ## Joining and splitting bytes -/

/-- C19: with join and split as the specification gives them,
`split (join h l) = (h, l)` for all bytes `h` and `l`, and
`join (split v).1 (split v).2 = v` for every 16-bit word `v`. -/
theorem Join_Split_roundtrip :
    (∀ h l : Nat, h < 256 → l < 256 → SplitIntoBytes (JoinBytes h l) = (h, l)) ∧
    (∀ v : Nat, v < 65536 → JoinBytes (SplitIntoBytes v).1 (SplitIntoBytes v).2 = v) := by
  have hjoin : ∀ h l : Nat, l < 256 → JoinBytes h l = (256 * h + l) % 65536 := by
    intro h l hl
    unfold JoinBytes
    rw [Nat.shiftLeft_eq, Nat.mul_comm]
    rw [show (2 ^ 8 * h ||| l) = 2 ^ 8 * h + l from (Nat.mul_add_lt_is_or (i := 8) hl h).symm]
    rfl
  have hsplit : ∀ v : Nat, SplitIntoBytes v = (v / 256 % 256, v % 256) := by
    intro v
    unfold SplitIntoBytes
    rw [Nat.shiftRight_eq_div_pow]
    rw [show (0xFF : Nat) = 2 ^ 8 - 1 from rfl, Nat.and_pow_two_sub_one_eq_mod,
      Nat.and_pow_two_sub_one_eq_mod]
  constructor
  · intro h l hh hl
    rw [hjoin h l hl, hsplit]
    congr 1 <;> omega
  · intro v hv
    rw [hsplit]
    show JoinBytes (v / 256 % 256) (v % 256) = v
    rw [hjoin _ _ (Nat.mod_lt _ (by decide))]
    omega

/-! ## Bytes, words and single bits -/

/-- Joining two bytes is `high * 256 + low`. -/
theorem JoinBytes_eq (h l : Nat) (hh : h < 256) (hl : l < 256) : JoinBytes h l = h * 256 + l := by
  unfold JoinBytes
  rw [Nat.shiftLeft_eq, Nat.mul_comm,
    show (2 ^ 8 * h ||| l) = 2 ^ 8 * h + l from (Nat.mul_add_lt_is_or (i := 8) hl h).symm]
  omega

/-- Splitting a word gives its quotient and remainder by 256. -/
theorem SplitIntoBytes_eq (v : Nat) : SplitIntoBytes v = (v / 256 % 256, v % 256) := by
  unfold SplitIntoBytes
  rw [Nat.shiftRight_eq_div_pow, show (0xFF : Nat) = 2 ^ 8 - 1 from rfl,
    Nat.and_pow_two_sub_one_eq_mod, Nat.and_pow_two_sub_one_eq_mod]

/-- The test `F & mask == mask` on a one-bit mask reads that bit. -/
theorem beq_two_pow (F k : Nat) : (F &&& 2 ^ k == 2 ^ k) = F.testBit k := by
  rw [Bool.eq_iff_iff, beq_iff_eq, and_two_pow_eq_iff]

/-! ## The carry of ADC -/

/-- Bit 4 of `F` after `ResetFlag(N)` and conditional `SetFlag`s of C, Z, H. -/
theorem carry_toggled (F : Nat) (c z h : Prop) [Decidable c] [Decidable z] [Decidable h] :
    (((((F &&& 191) ^^^ if c then 16 else 0) ^^^ if z then 128 else 0) ^^^
      if h then 32 else 0) &&& 16 == 16) = ((F &&& 16 == 16) ^^ decide c) := by
  have k := beq_two_pow ((((F &&& 191) ^^^ if c then 16 else 0) ^^^ if z then 128 else 0) ^^^
      if h then 32 else 0) 4
  have k0 := beq_two_pow F 4
  have e : (2 : Nat) ^ 4 = 16 := rfl
  rw [e] at k k0
  rw [k, k0, Nat.testBit_xor, Nat.testBit_xor, Nat.testBit_xor, Nat.testBit_and]
  have b1 : (191 : Nat).testBit 4 = true := by decide
  have t16 : (16 : Nat).testBit 4 = true := by decide
  have t128 : (128 : Nat).testBit 4 = false := by decide
  have t32 : (32 : Nat).testBit 4 = false := by decide
  have b2 : (if c then 16 else 0 : Nat).testBit 4 = decide c := by
    by_cases hc : c <;> simp [hc, t16]
  have b3 : (if z then 128 else 0 : Nat).testBit 4 = false := by
    by_cases hc : z <;> simp [hc, t128]
  have b4 : (if h then 32 else 0 : Nat).testBit 4 = false := by
    by_cases hc : h <;> simp [hc, t32]
  rw [b1, b2, b3, b4]
  simp

/-- The carry after the flag updates of ADC: found clear, it is set iff the
carry test holds; found set, it is set iff the carry test fails. -/
theorem adc_carry (F : Nat) (c z h : Prop) [Decidable c] [Decidable z] [Decidable h] :
    ((F &&& 16 == 16) = false →
      (((((F &&& 191) ^^^ if c then 16 else 0) ^^^ if z then 128 else 0) ^^^
        if h then 32 else 0) &&& 16 = 16 ↔ c)) ∧
    (F &&& 16 = 16 →
      (((((F &&& 191) ^^^ if c then 16 else 0) ^^^ if z then 128 else 0) ^^^
        if h then 32 else 0) &&& 16 = 16 ↔ ¬ c)) := by
  constructor
  · intro h0
    rw [← beq_iff_eq, carry_toggled, h0]
    simp
  · intro h1
    rw [← beq_iff_eq] at h1
    rw [← beq_iff_eq, carry_toggled, h1]
    simp

theorem AddCA_hl_carry (bus : MMU M) (cpu : Z80 M) :
    ∃ d, Z80.AddCA_hl bus cpu = some d ∧ adcCarry cpu d := by
  simp only [Z80.AddCA_hl, SetFlag_Z, SetFlag_N, SetFlag_H, SetFlag_C, ResetFlag_Z, ResetFlag_N,
    ResetFlag_H, ResetFlag_C, IsFlagSet_C, ite_SetFlag, Option.pure_def, Option.bind_eq_bind,
    Option.some_bind]
  refine ⟨_, rfl, ?_⟩
  simp only [adcCarry, IsFlagSet_C, set_R, xorIf_R, setLast_R, ite_R, Registers.ite_F,
    Registers.ite_A, Registers.set_F, Registers.set_A, get_eq, Registers.set_get, if_true,
    if_false, reduceCtorEq, Option.some.injEq, beq_iff_eq, Registers.get_A, ite_self]
  exact adc_carry _ _ _ _

theorem AddCA_n_carry (bus : MMU M) (cpu : Z80 M) :
    ∃ d, Z80.AddCA_n bus cpu = some d ∧ adcCarry cpu d := by
  simp only [Z80.AddCA_n, SetFlag_Z, SetFlag_N, SetFlag_H, SetFlag_C, ResetFlag_Z, ResetFlag_N,
    ResetFlag_H, ResetFlag_C, IsFlagSet_C, ite_SetFlag, Option.pure_def, Option.bind_eq_bind,
    Option.some_bind]
  refine ⟨_, rfl, ?_⟩
  simp only [adcCarry, IsFlagSet_C, set_R, xorIf_R, setLast_R, IncrementPC_R, ite_R,
    Registers.ite_F, Registers.ite_A, Registers.set_F, Registers.set_A, get_eq,
    Registers.set_get, if_true, if_false, reduceCtorEq, Option.some.injEq, beq_iff_eq,
    Registers.get_A, ite_self]
  exact adc_carry _ _ _ _

theorem AddCA_r_carry (cpu : Z80 M) (r : Reg) :
    ∃ d, cpu.AddCA_r r = some d ∧ adcCarry cpu d := by
  simp only [Z80.AddCA_r, SetFlag_Z, SetFlag_N, SetFlag_H, SetFlag_C, ResetFlag_Z, ResetFlag_N,
    ResetFlag_H, ResetFlag_C, IsFlagSet_C, ite_SetFlag, Option.pure_def, Option.bind_eq_bind,
    Option.some_bind]
  refine ⟨_, rfl, ?_⟩
  simp only [adcCarry, IsFlagSet_C, set_R, xorIf_R, setLast_R, ite_R, Registers.ite_F,
    Registers.ite_A, Registers.set_F, Registers.set_A, get_eq, Registers.set_get, if_true,
    if_false, reduceCtorEq, Option.some.injEq, beq_iff_eq, Registers.get_A, ite_self]
  exact adc_carry _ _ _ _

/-- Every ADC instruction returns, and the carry it leaves is the carry it found
toggled when the new `A` is less than the old one. -/
theorem Dispatch_adc_carry (bus : MMU M) (cpu : Z80 M) :
    ∀ op ∈ adcOps, ∃ d, cpu.Dispatch bus op = some d ∧ adcCarry cpu d := by
  simp only [adcOps, List.forall_mem_cons, List.not_mem_nil, false_imp_iff, implies_true,
    and_true]
  exact ⟨AddCA_r_carry cpu .B, AddCA_r_carry cpu .C, AddCA_r_carry cpu .D, AddCA_r_carry cpu .E,
    AddCA_r_carry cpu .H, AddCA_r_carry cpu .L, AddCA_hl_carry bus cpu, AddCA_r_carry cpu .A,
    AddCA_n_carry bus cpu⟩

/-- C21, at the failing inputs: ADC toggles the C flag it finds. For every state
and every ADC opcode the instruction returns; when C was clear it ends set iff
the new `A` is less than the old `A`, and when C was set it ends set iff the
new `A` is not less than the old `A`. With `F = 0x10` (only C set, Z and H
clear), `A = 0` and `B = 0`, ADC A,B gives `A = 1`, not less than 0, and C is
still set; with `F = 0x10`, `A = 0xFF` and `B = 0` it gives `A = 0`, less than
0xFF, and C is clear; from `F = 0` with `A = 0xFF`, `B = 1` the new `A` is 0 and
C is set. -/
theorem AddCA_toggles_carry :
    (∀ (M : Type) (bus : MMU M) (cpu : Z80 M), ∀ op ∈ adcOps,
      ∃ d, cpu.Dispatch bus op = some d ∧ adcCarry cpu d) ∧
    ((mkCPU { zeroRegisters with F := 0x10 } 0 0 (memOf [0x88])).Step flatBus).map
        (fun s => (s.R.A, s.R.F, s.IsFlagSet C)) = some (1, 0x10, some true) ∧
    ((mkCPU { zeroRegisters with A := 0xFF, F := 0x10 } 0 0 (memOf [0x88])).Step flatBus).map
        (fun s => (s.R.A, s.R.F, s.IsFlagSet C)) = some (0, 0xA0, some false) ∧
    ((mkCPU { zeroRegisters with A := 0xFF, B := 0x01 } 0 0 (memOf [0x88])).Step flatBus).map
        (fun s => (s.R.A, s.R.F, s.IsFlagSet C)) = some (0, 0xB0, some true) :=
  ⟨fun _ bus cpu => Dispatch_adc_carry bus cpu, by decide, by decide, by decide⟩

/-! ## The flags of ADD -/

/-- The flags after three conditional `SetFlag`s of C, Z and H from `F = 0`. -/
theorem flags_from_zero_czh (c z h : Prop) [Decidable c] [Decidable z] [Decidable h] :
    (((((0 ^^^ if c then 16 else 0) ^^^ if z then 128 else 0) ^^^
        if h then 32 else 0) &&& 64 == 64) = false) ∧
    ((((0 ^^^ if c then 16 else 0) ^^^ if z then 128 else 0) ^^^
        if h then 32 else 0) &&& 128 = 128 ↔ z) ∧
    ((((0 ^^^ if c then 16 else 0) ^^^ if z then 128 else 0) ^^^
        if h then 32 else 0) &&& 16 = 16 ↔ c) ∧
    ((((0 ^^^ if c then 16 else 0) ^^^ if z then 128 else 0) ^^^
        if h then 32 else 0) &&& 32 = 32 ↔ h) := by
  by_cases hz : z <;> by_cases hc : c <;> by_cases hh : h <;> simp [hz, hc, hh] <;> decide

/-- The arithmetic of the ADD flags from `F = 0`: `a` is the old accumulator and
`v` the operand. -/
theorem add_flags (a v F : Nat) (ha : a < 256) (hv : v < 256)
    (hF : F = ((0 ^^^ if (a + v) % 256 < a then 16 else 0) ^^^
            if (a + v) % 256 = 0 then 128 else 0) ^^^
          if ((a &&& 15) + (v &&& 15)) % 256 &&& 16 = 16 then 32 else 0) :
    (F &&& 64 == 64) = false ∧
    (F &&& 128 = 128 ↔ (a + v) % 256 = 0) ∧
    (F &&& 16 = 16 ↔ a + v ≥ 256) ∧
    (F &&& 32 = 32 ↔ (a &&& 15) + (v &&& 15) ≥ 16) := by
  obtain ⟨f1, f2, f3, f4⟩ := flags_from_zero_czh ((a + v) % 256 < a) ((a + v) % 256 = 0)
    (((a &&& 15) + (v &&& 15)) % 256 &&& 16 = 16)
  rw [← hF] at f1 f2 f3 f4
  have ha15 : a &&& 15 < 16 := by rw [and_15_eq]; omega
  have hv15 : v &&& 15 < 16 := by rw [and_15_eq]; omega
  have hb := (and_16_eq (((a &&& 15) + (v &&& 15)) % 256) (Nat.mod_lt _ (by decide))).1
  refine ⟨f1, f2, f3.trans (by omega), f4.trans (hb.trans (by omega))⟩

theorem AddA_hl_flags (bus : MMU M) (cpu : Z80 M) (hF : cpu.R.F = 0) (hA : cpu.R.A < 256) :
    ∃ d, Z80.AddA_hl bus cpu = some d ∧
      addFlagsDocumented cpu.R.A (bus.ReadByte cpu.mmu (JoinBytes cpu.R.H cpu.R.L)) d := by
  simp only [Z80.AddA_hl, SetFlag_Z, SetFlag_N, SetFlag_H, SetFlag_C, ResetFlag_Z, ResetFlag_N,
    ResetFlag_H, ResetFlag_C, IsFlagSet_C, ite_SetFlag, Option.pure_def, Option.bind_eq_bind,
    Option.some_bind]
  refine ⟨_, rfl, ?_⟩
  simp only [addFlagsDocumented, IsFlagSet_Z, IsFlagSet_N, IsFlagSet_H, IsFlagSet_C,
    set_R, xorIf_R, setLast_R, Registers.set_F, Registers.set_A, get_eq,
    Registers.set_get, hF, if_true, if_false, reduceCtorEq, Option.some.injEq, beq_iff_eq,
    Registers.get_A, Nat.zero_and, true_and]
  exact add_flags cpu.R.A _ _ hA (bus.ReadByte_lt _ _) rfl

theorem AddA_n_flags (bus : MMU M) (cpu : Z80 M) (hF : cpu.R.F = 0) (hA : cpu.R.A < 256) :
    ∃ d, Z80.AddA_n bus cpu = some d ∧
      addFlagsDocumented cpu.R.A (bus.ReadByte cpu.mmu cpu.PC) d := by
  simp only [Z80.AddA_n, SetFlag_Z, SetFlag_N, SetFlag_H, SetFlag_C, ResetFlag_Z, ResetFlag_N,
    ResetFlag_H, ResetFlag_C, IsFlagSet_C, ite_SetFlag, Option.pure_def, Option.bind_eq_bind,
    Option.some_bind]
  refine ⟨_, rfl, ?_⟩
  simp only [addFlagsDocumented, IsFlagSet_Z, IsFlagSet_N, IsFlagSet_H, IsFlagSet_C,
    set_R, xorIf_R, setLast_R, IncrementPC_R, Registers.set_F, Registers.set_A, get_eq,
    Registers.set_get, hF, if_true, if_false, reduceCtorEq, Option.some.injEq, beq_iff_eq,
    Registers.get_A, Nat.zero_and, true_and]
  exact add_flags cpu.R.A _ _ hA (bus.ReadByte_lt _ _) rfl

theorem AddA_r_flags (cpu : Z80 M) (r : Reg) (hr : r ≠ .F) (hrA : r ≠ .A) (hF : cpu.R.F = 0)
    (hA : cpu.R.A < 256) (hv : cpu.get r < 256) :
    ∃ d, cpu.AddA_r r = some d ∧ addFlagsDocumented cpu.R.A (cpu.get r) d := by
  simp only [Z80.AddA_r, SetFlag_Z, SetFlag_N, SetFlag_H, SetFlag_C, ResetFlag_Z, ResetFlag_N,
    ResetFlag_H, ResetFlag_C, IsFlagSet_C, ite_SetFlag, Option.pure_def, Option.bind_eq_bind,
    Option.some_bind]
  refine ⟨_, rfl, ?_⟩
  simp only [addFlagsDocumented, IsFlagSet_Z, IsFlagSet_N, IsFlagSet_H, IsFlagSet_C,
    set_R, xorIf_R, setLast_R, Registers.set_F, Registers.set_A, get_eq,
    Registers.set_get, hF, hr, hrA, if_true, if_false, reduceCtorEq, Option.some.injEq,
    beq_iff_eq, Registers.get_A, Nat.zero_and, true_and]
  exact add_flags cpu.R.A _ _ hA hv rfl

/-- C22: for every state with `F = 0` and byte-valued registers and every ADD
opcode whose operand is not `A` (0x80-0x85, 0x86 on the byte at HL, 0xC6 on the
immediate byte), the instruction returns with `A = (oldA + operand) mod 256`, N
clear, Z set iff `(oldA + operand) mod 256 = 0`, C set iff
`oldA + operand >= 256` and H set iff `(oldA & 0xF) + (operand & 0xF) >= 16`. -/
theorem Dispatch_add_flags (bus : MMU M) (cpu : Z80 M) (hF : cpu.R.F = 0) (hwf : cpu.R.WF) :
    ∀ op ∈ addOpsNotA, ∃ d, cpu.Dispatch bus op = some d ∧
      addFlagsDocumented cpu.R.A (aluOperand bus cpu op) d := by
  obtain ⟨hA, hB, hC, hD, hE, hH, hL, -⟩ := hwf
  simp only [addOpsNotA, List.forall_mem_cons, List.not_mem_nil, false_imp_iff, implies_true,
    and_true]
  refine ⟨?_, ?_, ?_, ?_, ?_, ?_, ?_, ?_⟩
  · exact AddA_r_flags cpu .B (by decide) (by decide) hF hA hB
  · exact AddA_r_flags cpu .C (by decide) (by decide) hF hA hC
  · exact AddA_r_flags cpu .D (by decide) (by decide) hF hA hD
  · exact AddA_r_flags cpu .E (by decide) (by decide) hF hA hE
  · exact AddA_r_flags cpu .H (by decide) (by decide) hF hA hH
  · exact AddA_r_flags cpu .L (by decide) (by decide) hF hA hL
  · exact AddA_hl_flags bus cpu hF hA
  · exact AddA_n_flags bus cpu hF hA

/-- C22 at `ADD A,B` with `A = 0xFF` and `B = 0x01`: `A = 0`, `PC = 1` and
`F = 0xB0`, that is Z = 1, N = 0, H = 1, C = 1. -/
theorem Dispatch_add_flags_witness :
    ((mkCPU { zeroRegisters with A := 0xFF, B := 0x01 } 0 0 (memOf [0x80])).R.F = 0 ∧
      (mkCPU { zeroRegisters with A := 0xFF, B := 0x01 } 0 0 (memOf [0x80])).R.WF ∧
      0x80 ∈ addOpsNotA) ∧
    (∃ d, (mkCPU { zeroRegisters with A := 0xFF, B := 0x01 } 0 0 (memOf [0x80])).Dispatch
        flatBus 0x80 = some d ∧
      addFlagsDocumented 0xFF
        (aluOperand flatBus
          (mkCPU { zeroRegisters with A := 0xFF, B := 0x01 } 0 0 (memOf [0x80])) 0x80) d) ∧
    ((mkCPU { zeroRegisters with A := 0xFF, B := 0x01 } 0 0 (memOf [0x80])).Step flatBus).map
      (fun s => (s.R.A, s.R.F, s.PC)) = some (0, 0xB0, 1) :=
  ⟨⟨rfl, by decide, by decide⟩,
    Dispatch_add_flags flatBus
      (mkCPU { zeroRegisters with A := 0xFF, B := 0x01 } 0 0 (memOf [0x80])) rfl
      (by decide) 0x80 (by decide),
    by decide⟩

/-! ## LDD and LDI -/

theorem decHL_wrap (cpu : Z80 M) (h0 : cpu.R.L = 0) :
    cpu.decHL = (cpu.set .L 0xFF).set .H (if cpu.R.H = 0 then 0xFF else (cpu.R.H - 1) % 256) := by
  unfold Z80.decHL
  rw [if_pos h0]
  exact if_pos rfl

theorem decHL_plain (cpu : Z80 M) (h0 : cpu.R.L ≠ 0) (hL : cpu.R.L < 256) :
    cpu.decHL = cpu.set .L (cpu.R.L - 1) := by
  unfold Z80.decHL
  rw [if_neg h0, Nat.mod_eq_of_lt (by omega)]
  refine if_neg ?_
  show cpu.R.L - 1 ≠ 0xFF
  omega

theorem incHL_wrap (cpu : Z80 M) (h0 : cpu.R.L = 0xFF) :
    cpu.incHL = (cpu.set .L 0).set .H ((cpu.R.H + 1) % 256) := by
  unfold Z80.incHL
  rw [h0]
  exact if_pos rfl

theorem incHL_plain (cpu : Z80 M) (h0 : cpu.R.L ≠ 0xFF) (hL : cpu.R.L < 256) :
    cpu.incHL = cpu.set .L (cpu.R.L + 1) := by
  unfold Z80.incHL
  rw [Nat.mod_eq_of_lt (by omega)]
  refine if_neg ?_
  show cpu.R.L + 1 ≠ 0
  omega

/-- The pair HL after the decrement of `LDD`. -/
theorem decHL_HL (cpu : Z80 M) (hH : cpu.R.H < 256) (hL : cpu.R.L < 256) :
    cpu.decHL.R.A = cpu.R.A ∧ cpu.decHL.mmu = cpu.mmu ∧
    cpu.decHL.R.H < 256 ∧ cpu.decHL.R.L < 256 ∧
    cpu.decHL.R.H * 256 + cpu.decHL.R.L = sub16 (cpu.R.H * 256 + cpu.R.L) 1 ∧
    (cpu.decHL.R.H ≠ cpu.R.H ↔ cpu.R.L = 0x00 ∧ cpu.decHL.R.L = 0xFF) := by
  have hs : sub16 (cpu.R.H * 256 + cpu.R.L) 1 =
      if cpu.R.H * 256 + cpu.R.L = 0 then 65535 else cpu.R.H * 256 + cpu.R.L - 1 := by
    unfold sub16; split <;> omega
  rw [hs]
  by_cases h0 : cpu.R.L = 0
  · rw [decHL_wrap cpu h0]
    refine ⟨rfl, rfl, ?_, ?_, ?_, ?_⟩
    · show (if cpu.R.H = 0 then 0xFF else (cpu.R.H - 1) % 256) < 256
      split <;> omega
    · show (0xFF : Nat) < 256
      omega
    · show (if cpu.R.H = 0 then 0xFF else (cpu.R.H - 1) % 256) * 256 + 0xFF = _
      split_ifs <;> omega
    · show (if cpu.R.H = 0 then 0xFF else (cpu.R.H - 1) % 256) ≠ cpu.R.H ↔ cpu.R.L = 0 ∧ 0xFF = 0xFF
      split_ifs <;> omega
  · rw [decHL_plain cpu h0 hL]
    refine ⟨rfl, rfl, hH, ?_, ?_, ?_⟩
    · show cpu.R.L - 1 < 256
      omega
    · show cpu.R.H * 256 + (cpu.R.L - 1) = _
      split_ifs <;> omega
    · show cpu.R.H ≠ cpu.R.H ↔ cpu.R.L = 0 ∧ cpu.R.L - 1 = 0xFF
      omega

/-- The pair HL after the increment of `LDI`. -/
theorem incHL_HL (cpu : Z80 M) (hH : cpu.R.H < 256) (hL : cpu.R.L < 256) :
    cpu.incHL.R.A = cpu.R.A ∧ cpu.incHL.mmu = cpu.mmu ∧
    cpu.incHL.R.H < 256 ∧ cpu.incHL.R.L < 256 ∧
    cpu.incHL.R.H * 256 + cpu.incHL.R.L = (cpu.R.H * 256 + cpu.R.L + 1) % 65536 ∧
    (cpu.incHL.R.H ≠ cpu.R.H ↔ cpu.R.L = 0xFF ∧ cpu.incHL.R.L = 0x00) := by
  by_cases h0 : cpu.R.L = 0xFF
  · rw [incHL_wrap cpu h0]
    refine ⟨rfl, rfl, ?_, ?_, ?_, ?_⟩
    · show (cpu.R.H + 1) % 256 < 256
      omega
    · show (0 : Nat) < 256
      omega
    · show (cpu.R.H + 1) % 256 * 256 + 0 = _
      omega
    · show (cpu.R.H + 1) % 256 ≠ cpu.R.H ↔ cpu.R.L = 0xFF ∧ 0 = 0
      omega
  · rw [incHL_plain cpu h0 hL]
    refine ⟨rfl, rfl, hH, ?_, ?_, ?_⟩
    · show cpu.R.L + 1 < 256
      omega
    · show cpu.R.H * 256 + (cpu.R.L + 1) = _
      omega
    · show cpu.R.H ≠ cpu.R.H ↔ cpu.R.L = 0xFF ∧ cpu.R.L + 1 = 0
      omega

theorem LDDr_hl_effect (bus : MMU M) (cpu : Z80 M) (hH : cpu.R.H < 256) (hL : cpu.R.L < 256) :
    hlEffect bus cpu (Z80.LDDr_hl bus cpu .A) true true := by
  show hlEffect bus cpu
    (((cpu.set .A (bus.ReadByte cpu.mmu (JoinBytes cpu.R.H cpu.R.L))).decHL).setLast 2 8) true true
  rw [JoinBytes_eq _ _ hH hL]
  have h := decHL_HL (cpu.set .A (bus.ReadByte cpu.mmu (cpu.R.H * 256 + cpu.R.L))) hH hL
  exact ⟨⟨h.1, h.2.1⟩, h.2.2⟩

theorem LDDhl_r_effect (bus : MMU M) (cpu : Z80 M) (hH : cpu.R.H < 256) (hL : cpu.R.L < 256) :
    hlEffect bus cpu (Z80.LDDhl_r bus cpu .A) false true := by
  show hlEffect bus cpu
    ((Z80.decHL { cpu with
      mmu := bus.WriteByte cpu.mmu (JoinBytes cpu.R.H cpu.R.L) (cpu.get .A) }).setLast 2 8)
    false true
  rw [JoinBytes_eq _ _ hH hL]
  have h := decHL_HL
    { cpu with mmu := bus.WriteByte cpu.mmu (cpu.R.H * 256 + cpu.R.L) (cpu.get .A) } hH hL
  exact ⟨⟨h.2.1, h.1⟩, h.2.2⟩

theorem LDIr_hl_effect (bus : MMU M) (cpu : Z80 M) (hH : cpu.R.H < 256) (hL : cpu.R.L < 256) :
    hlEffect bus cpu (Z80.LDIr_hl bus cpu .A) true false := by
  show hlEffect bus cpu
    (((cpu.set .A (bus.ReadByte cpu.mmu (JoinBytes cpu.R.H cpu.R.L))).incHL).setLast 2 8) true false
  rw [JoinBytes_eq _ _ hH hL]
  have h := incHL_HL (cpu.set .A (bus.ReadByte cpu.mmu (cpu.R.H * 256 + cpu.R.L))) hH hL
  exact ⟨⟨h.1, h.2.1⟩, h.2.2⟩

theorem LDIhl_r_effect (bus : MMU M) (cpu : Z80 M) (hH : cpu.R.H < 256) (hL : cpu.R.L < 256) :
    hlEffect bus cpu (Z80.LDIhl_r bus cpu .A) false false := by
  show hlEffect bus cpu
    ((Z80.incHL { cpu with
      mmu := bus.WriteByte cpu.mmu (JoinBytes cpu.R.H cpu.R.L) (cpu.get .A) }).setLast 2 8)
    false false
  rw [JoinBytes_eq _ _ hH hL]
  have h := incHL_HL
    { cpu with mmu := bus.WriteByte cpu.mmu (cpu.R.H * 256 + cpu.R.L) (cpu.get .A) } hH hL
  exact ⟨⟨h.2.1, h.1⟩, h.2.2⟩

/-- The effect of LDD and LDI is read off the registers and the bus alone. -/
theorem hlEffect_congr (bus : MMU M) (cpu c d s : Z80 M) (load down : Bool)
    (hc : c.R = cpu.R) (hm : c.mmu = cpu.mmu) (hR : s.R = d.R) (hmm : s.mmu = d.mmu)
    (h : hlEffect bus c d load down) : hlEffect bus cpu s load down := by
  unfold hlEffect at h ⊢
  rw [hR, hmm, ← hc, ← hm]
  exact h

/-- C23: writing HL for `H * 256 + L`, for every state with `H` and `L` bytes,
LDD A,(HL) (0x3A) and LDD (HL),A (0x32) leave HL at `(old HL - 1) mod 2^16`,
LDI A,(HL) (0x2A) and LDI (HL),A (0x22) leave it at `(old HL + 1) mod 2^16`;
the byte is read or written at the old HL, and `H` changes iff `L` wrapped.
This holds of the dispatched instruction and of the whole step. -/
theorem LDD_LDI_HL (bus : MMU M) (cpu : Z80 M) (hH : cpu.R.H < 256) (hL : cpu.R.L < 256) :
    ∀ e ∈ hlMoves,
      (∃ d, cpu.Dispatch bus e.1 = some d ∧ hlEffect bus cpu d e.2.1 e.2.2) ∧
      (bus.ReadByte cpu.mmu cpu.PC = e.1 →
        ∃ s, cpu.Step bus = some s ∧ hlEffect bus cpu s e.2.1 e.2.2) := by
  have key : ∀ c : Z80 M, c.R.H < 256 → c.R.L < 256 → ∀ e ∈ hlMoves,
      ∃ d, c.Dispatch bus e.1 = some d ∧ hlEffect bus c d e.2.1 e.2.2 := by
    intro c hcH hcL
    simp only [hlMoves, List.forall_mem_cons, List.not_mem_nil, false_imp_iff, implies_true,
      and_true]
    exact ⟨⟨_, rfl, LDDr_hl_effect bus c hcH hcL⟩, ⟨_, rfl, LDDhl_r_effect bus c hcH hcL⟩,
      ⟨_, rfl, LDIr_hl_effect bus c hcH hcL⟩, ⟨_, rfl, LDIhl_r_effect bus c hcH hcL⟩⟩
  intro e he
  refine ⟨key cpu hH hL e he, fun hop => ?_⟩
  obtain ⟨d, hd, hE⟩ := key (cpu.IncrementPC 1) hH hL e he
  rw [← hop] at hd
  obtain ⟨s, hs, hR, -, -, hm, -⟩ := Step_fields bus cpu d hd
  exact ⟨s, hs, hlEffect_congr bus cpu (cpu.IncrementPC 1) d s _ _ rfl rfl hR hm hE⟩

/-- C23 at `LDD A,(HL)` from `HL = 0x0000`, which wraps to 0xFFFF after reading
address 0, and at `LDI (HL),A` from `HL = 0xFFFF`, which wraps to 0x0000 after
writing address 0xFFFF. -/
theorem LDD_LDI_HL_witness :
    ((mkCPU zeroRegisters 0 0 (memOf [0x3A])).R.H < 256 ∧
      (mkCPU zeroRegisters 0 0 (memOf [0x3A])).R.L < 256 ∧
      ((0x3A, true, true) : Nat × Bool × Bool) ∈ hlMoves ∧
      flatBus.ReadByte (mkCPU zeroRegisters 0 0 (memOf [0x3A])).mmu
        (mkCPU zeroRegisters 0 0 (memOf [0x3A])).PC = 0x3A) ∧
    (∃ s, (mkCPU zeroRegisters 0 0 (memOf [0x3A])).Step flatBus = some s ∧
      hlEffect flatBus (mkCPU zeroRegisters 0 0 (memOf [0x3A])) s true true) ∧
    ((mkCPU zeroRegisters 0 0 (memOf [0x3A])).Step flatBus).map
      (fun s => (s.R.A, s.R.H, s.R.L)) = some (0x3A, 0xFF, 0xFF) ∧
    ((mkCPU { zeroRegisters with A := 0x42, H := 0xFF, L := 0xFF } 0 0
        (memOf [0x22])).Step flatBus).map
      (fun s => (s.mmu 0xFFFF, s.R.H, s.R.L)) = some (0x42, 0, 0) :=
  ⟨⟨by decide, by decide, by decide, by decide⟩,
    (LDD_LDI_HL flatBus (mkCPU zeroRegisters 0 0 (memOf [0x3A])) (by decide) (by decide)
      (0x3A, true, true) (by decide)).2 (by decide),
    by decide, by decide⟩

/-! ## LDHL SP,n -/

/-- The flags after `ResetFlag(Z)`, `ResetFlag(N)` and conditional `SetFlag`s of
C and H, from a state in which C and H are clear. -/
theorem flags_reset_zn (F : Nat) (c h : Prop) [Decidable c] [Decidable h]
    (hC : (F &&& 16 == 16) = false) (hH : (F &&& 32 == 32) = false) :
    ((((F &&& 127 &&& 191) ^^^ if c then 16 else 0) ^^^ if h then 32 else 0) &&& 128 == 128)
      = false ∧
    ((((F &&& 127 &&& 191) ^^^ if c then 16 else 0) ^^^ if h then 32 else 0) &&& 64 == 64)
      = false ∧
    ((((F &&& 127 &&& 191) ^^^ if c then 16 else 0) ^^^ if h then 32 else 0) &&& 16 = 16 ↔ c) ∧
    ((((F &&& 127 &&& 191) ^^^ if c then 16 else 0) ^^^ if h then 32 else 0) &&& 32 = 32 ↔ h) := by
  have hC' : F.testBit 4 = false := by rw [← beq_two_pow]; exact hC
  have hH' : F.testBit 5 = false := by rw [← beq_two_pow]; exact hH
  have e16 : ∀ i, i ≠ 4 → (16 : Nat).testBit i = false := fun i hi =>
    Nat.testBit_two_pow_of_ne (n := 4) (Ne.symm hi)
  have e32 : ∀ i, i ≠ 5 → (32 : Nat).testBit i = false := fun i hi =>
    Nat.testBit_two_pow_of_ne (n := 5) (Ne.symm hi)
  have s16 : (16 : Nat).testBit 4 = true := Nat.testBit_two_pow_self (n := 4)
  have s32 : (32 : Nat).testBit 5 = true := Nat.testBit_two_pow_self (n := 5)
  have tc : ∀ i, (if c then 16 else 0 : Nat).testBit i = (decide c && decide (i = 4)) := by
    intro i
    by_cases hc : c <;> by_cases hi : i = 4 <;> simp [hc, hi, s16, e16]
  have th : ∀ i, (if h then 32 else 0 : Nat).testBit i = (decide h && decide (i = 5)) := by
    intro i
    by_cases hc : h <;> by_cases hi : i = 5 <;> simp [hc, hi, s32, e32]
  have b7 : (127 : Nat).testBit 7 = false := by decide
  have b6 : (191 : Nat).testBit 6 = false := by decide
  have key : ∀ k, ((((F &&& 127 &&& 191) ^^^ if c then 16 else 0) ^^^ if h then 32 else 0)
      &&& 2 ^ k == 2 ^ k) = (((F.testBit k && (127 : Nat).testBit k && (191 : Nat).testBit k) ^^
        (decide c && decide (k = 4))) ^^ (decide h && decide (k = 5))) := by
    intro k
    rw [beq_two_pow, Nat.testBit_xor, Nat.testBit_xor, Nat.testBit_and, Nat.testBit_and, tc, th]
  have k7 : ((((F &&& 127 &&& 191) ^^^ if c then 16 else 0) ^^^ if h then 32 else 0)
      &&& 128 == 128) = _ := key 7
  have k6 : ((((F &&& 127 &&& 191) ^^^ if c then 16 else 0) ^^^ if h then 32 else 0)
      &&& 64 == 64) = _ := key 6
  have k5 : ((((F &&& 127 &&& 191) ^^^ if c then 16 else 0) ^^^ if h then 32 else 0)
      &&& 32 == 32) = _ := key 5
  have k4 : ((((F &&& 127 &&& 191) ^^^ if c then 16 else 0) ^^^ if h then 32 else 0)
      &&& 16 == 16) = _ := key 4
  refine ⟨?_, ?_, ?_, ?_⟩
  · rw [k7, b7]; simp
  · rw [k6, b6]; simp
  · rw [← beq_iff_eq, k4, hC']; simp
  · rw [← beq_iff_eq, k5, hH']; simp

theorem LDHLSP_n_effect (bus : MMU M) (cpu : Z80 M) (hSP : cpu.SP < 65536)
    (hC : cpu.IsFlagSet C = some false) (hH : cpu.IsFlagSet H = some false) :
    ∃ d, Z80.LDHLSP_n bus cpu = some d ∧ d.PC = (cpu.PC + 1) % 65536 ∧ d.mmu = cpu.mmu ∧
      ldhlEffect cpu d (bus.ReadByte cpu.mmu cpu.PC) := by
  simp only [Z80.LDHLSP_n, SetFlag_Z, SetFlag_N, SetFlag_H, SetFlag_C, ResetFlag_Z, ResetFlag_N,
    ResetFlag_H, ResetFlag_C, IsFlagSet_C, ite_SetFlag, Option.pure_def, Option.bind_eq_bind,
    Option.some_bind]
  refine ⟨_, rfl, ?_⟩
  rw [IsFlagSet_C, Option.some.injEq] at hC
  rw [IsFlagSet_H, Option.some.injEq] at hH
  simp only [ldhlEffect, IsFlagSet_Z, IsFlagSet_N, IsFlagSet_H, IsFlagSet_C,
    set_R, set_PC, set_SP, set_mmu, xorIf_R, xorIf_PC, xorIf_SP, xorIf_mmu, setLast_R, setLast_PC,
    setLast_SP, setLast_mmu,
    IncrementPC_R, IncrementPC_PC, IncrementPC_SP, IncrementPC_mmu,
    Registers.set_F, Registers.set_H, Registers.set_L, get_eq,
    Registers.set_get, if_true, if_false, reduceCtorEq, Option.some.injEq, beq_iff_eq,
    true_and, SplitIntoBytes_eq]
  obtain ⟨f1, f2, f3, f4⟩ := flags_reset_zn cpu.R.F
    ((cpu.SP + bus.ReadByte cpu.mmu cpu.PC) % 65536 < cpu.SP)
    (((cpu.SP &&& 15) + (bus.ReadByte cpu.mmu cpu.PC &&& 15)) % 65536 &&& 16 = 16) hC hH
  have hn := bus.ReadByte_lt cpu.mmu cpu.PC
  have hs15 : cpu.SP &&& 15 < 16 := by rw [and_15_eq]; omega
  have hn15 : bus.ReadByte cpu.mmu cpu.PC &&& 15 < 16 := by rw [and_15_eq]; omega
  have hb := (and_16_eq (((cpu.SP &&& 15) + (bus.ReadByte cpu.mmu cpu.PC &&& 15)) % 65536)
    (by omega)).1
  exact ⟨by omega, by omega, by omega, f1, f2, f3.trans (by omega), f4.trans (hb.trans (by omega))⟩

/-- The effect of `LDHL SP,n` is read off `SP`, the registers and the flags. -/
theorem ldhlEffect_congr (cpu c d s : Z80 M) (n : Nat)
    (hc : c.SP = cpu.SP) (hR : s.R = d.R) (hS : s.SP = d.SP)
    (h : ldhlEffect c d n) : ldhlEffect cpu s n := by
  unfold ldhlEffect at h ⊢
  simp only [IsFlagSet_Z, IsFlagSet_N, IsFlagSet_H, IsFlagSet_C] at h ⊢
  rw [hR, hS, ← hc]
  exact h

/-- C24: for every state with `SP` a 16-bit word and the C and H flags clear,
`LDHL SP,n` (0xF8) returns and, with `n` the immediate byte as an unsigned
value, leaves `H * 256 + L = (SP + n) mod 2^16`, `SP` unchanged, `PC` one past
the immediate, Z and N clear, C set iff `SP + n >= 2^16` and H set iff
`(SP & 0xF) + (n & 0xF) >= 16`. This holds of the dispatched instruction and of
the whole step, which starts one byte earlier, at the opcode. -/
theorem LDHL_SP_n (bus : MMU M) (cpu : Z80 M) (hSP : cpu.SP < 65536)
    (hC : cpu.IsFlagSet C = some false) (hH : cpu.IsFlagSet H = some false) :
    (∃ d, cpu.Dispatch bus 0xF8 = some d ∧ d.PC = (cpu.PC + 1) % 65536 ∧
      ldhlEffect cpu d (bus.ReadByte cpu.mmu cpu.PC)) ∧
    (bus.ReadByte cpu.mmu cpu.PC = 0xF8 →
      ∃ s, cpu.Step bus = some s ∧ s.PC = (cpu.PC + 2) % 65536 ∧
        ldhlEffect cpu s (bus.ReadByte cpu.mmu ((cpu.PC + 1) % 65536))) := by
  constructor
  · obtain ⟨d, hd, hpc, -, hE⟩ := LDHLSP_n_effect bus cpu hSP hC hH
    exact ⟨d, hd, hpc, hE⟩
  · intro hop
    obtain ⟨d, hd, hpc, -, hE⟩ := LDHLSP_n_effect bus (cpu.IncrementPC 1) hSP hC hH
    have hd' : (cpu.IncrementPC 1).Dispatch bus (bus.ReadByte cpu.mmu cpu.PC) = some d := by
      rw [hop]; exact hd
    obtain ⟨s, hs, hR, hP, hS, -, -⟩ := Step_fields bus cpu d hd'
    refine ⟨s, hs, ?_, ldhlEffect_congr cpu (cpu.IncrementPC 1) d s _ rfl hR hS hE⟩
    rw [hP, hpc]
    show ((cpu.PC + 1) % 65536 + 1) % 65536 = _
    omega

/-- C24 at `LDHL SP,0x0F` with `SP = 0xFFF8` and `F = 0xC0`: HL becomes 0x0007,
`F` becomes 0x30 (C and H set, Z and N clear) and `PC` is 2. -/
theorem LDHL_SP_n_witness :
    ((mkCPU { zeroRegisters with F := 0xC0 } 0 0xFFF8 (memOf [0xF8, 0x0F])).SP < 65536 ∧
      (mkCPU { zeroRegisters with F := 0xC0 } 0 0xFFF8 (memOf [0xF8, 0x0F])).IsFlagSet C
        = some false ∧
      (mkCPU { zeroRegisters with F := 0xC0 } 0 0xFFF8 (memOf [0xF8, 0x0F])).IsFlagSet H
        = some false ∧
      flatBus.ReadByte (mkCPU { zeroRegisters with F := 0xC0 } 0 0xFFF8 (memOf [0xF8, 0x0F])).mmu
        (mkCPU { zeroRegisters with F := 0xC0 } 0 0xFFF8 (memOf [0xF8, 0x0F])).PC = 0xF8) ∧
    (∃ s, (mkCPU { zeroRegisters with F := 0xC0 } 0 0xFFF8 (memOf [0xF8, 0x0F])).Step flatBus
        = some s ∧
      s.PC = (0 + 2) % 65536 ∧
      ldhlEffect (mkCPU { zeroRegisters with F := 0xC0 } 0 0xFFF8 (memOf [0xF8, 0x0F])) s
        (flatBus.ReadByte (memOf [0xF8, 0x0F]) ((0 + 1) % 65536))) ∧
    ((mkCPU { zeroRegisters with F := 0xC0 } 0 0xFFF8 (memOf [0xF8, 0x0F])).Step flatBus).map
      (fun s => (s.R.H, s.R.L, s.R.F, s.SP, s.PC)) = some (0x00, 0x07, 0x30, 0xFFF8, 2) :=
  ⟨⟨by decide, by decide, by decide, by decide⟩,
    (LDHL_SP_n flatBus (mkCPU { zeroRegisters with F := 0xC0 } 0 0xFFF8 (memOf [0xF8, 0x0F]))
      (by decide) (by decide) (by decide)).2 (by decide),
    by decide⟩

/-! ## The addresses of the high-page loads -/

/-- C25, at the failing input: the LDH forms leave the high page. Every
high-page load reads or writes its data byte at `valueAddr` (0xF2, 0xE2) or at
`ldhAddr` (0xE0, 0xF0); `valueAddr` lies in 0xFF00-0xFFFF whenever `C` is a
byte, but `ldhAddr`, the 16-bit sum `0xFF00 + PC`, lies there only when `PC` is
below 0x0100. One step from `PC = 0x00FF` on 0xE0 reads address 0x0000 (`A`
becomes the byte 0x99 stored there) and on 0xF0 writes `A = 0x42` to address
0x0000. -/
theorem LDH_leaves_high_page :
    (∀ (M : Type) (bus : MMU M) (cpu : Z80 M) (r : Reg),
      Z80.LDr_ffplusc bus cpu r = (cpu.set r (bus.ReadByte cpu.mmu cpu.valueAddr)).setLast 2 8 ∧
      Z80.LDffplusc_r bus cpu r =
        Z80.setLast { cpu with mmu := bus.WriteByte cpu.mmu cpu.valueAddr (cpu.get r) } 2 8 ∧
      Z80.LDHn_r bus cpu r =
        ((cpu.set r (bus.ReadByte cpu.mmu cpu.ldhAddr)).IncrementPC 1).setLast 3 12 ∧
      Z80.LDHr_n bus cpu r =
        (Z80.IncrementPC { cpu with mmu := bus.WriteByte cpu.mmu cpu.ldhAddr (cpu.get r) }
          1).setLast 3 12 ∧
      cpu.Dispatch bus 0xF2 = some (Z80.LDr_ffplusc bus cpu .A) ∧
      cpu.Dispatch bus 0xE2 = some (Z80.LDffplusc_r bus cpu .A) ∧
      cpu.Dispatch bus 0xE0 = some (Z80.LDHn_r bus cpu .A) ∧
      cpu.Dispatch bus 0xF0 = some (Z80.LDHr_n bus cpu .A) ∧
      (cpu.R.C < 256 → highPage cpu.valueAddr) ∧
      (cpu.PC < 65536 → (highPage cpu.ldhAddr ↔ cpu.PC < 0x100))) ∧
    ((ldhCPU 0xE0).IncrementPC 1).ldhAddr = 0x0000 ∧ ¬ highPage 0x0000 ∧
    ((ldhCPU 0xE0).Step flatBus).map (fun s => (s.R.A, s.PC, s.mmu 0)) = some (0x99, 0x101, 0x99) ∧
    ((ldhCPU 0xF0).Step flatBus).map (fun s => (s.R.A, s.PC, s.mmu 0)) = some (0x42, 0x101, 0x42) := by
  refine ⟨?_, by decide, by decide, by decide, by decide⟩
  intro M bus cpu r
  refine ⟨rfl, rfl, rfl, rfl, rfl, rfl, rfl, rfl, ?_, ?_⟩
  · intro h
    unfold highPage Z80.valueAddr
    omega
  · intro h
    unfold highPage Z80.ldhAddr
    omega

/-! ## The load block against its table -/

theorem Step_LDrr (bus : MMU M) (cpu : Z80 M) (r1 r2 : Reg) (op : Nat)
    (hd : (cpu.IncrementPC 1).Dispatch bus op = some ((cpu.IncrementPC 1).LDrr r1 r2))
    (hop : bus.ReadByte cpu.mmu cpu.PC = op) :
    cpu.Step bus = some
      { PC := (cpu.PC + 1) % 65536
        SP := cpu.SP
        R := cpu.R.set r1 (cpu.R.get r2)
        mmu := cpu.mmu
        MachineCycles :=
          { m := (cpu.MachineCycles.m + 1) % 65536, t := (cpu.MachineCycles.t + 4) % 65536 }
        LastInstrCycle := { m := 0, t := 0 } } := by
  rw [← hop] at hd
  exact Step_of_Dispatch bus cpu _ hd

theorem Step_LDr_hl (bus : MMU M) (cpu : Z80 M) (r : Reg) (op : Nat)
    (hH : cpu.R.H < 256) (hL : cpu.R.L < 256)
    (hd : (cpu.IncrementPC 1).Dispatch bus op = some (Z80.LDr_hl bus (cpu.IncrementPC 1) r))
    (hop : bus.ReadByte cpu.mmu cpu.PC = op) :
    cpu.Step bus = some
      { PC := (cpu.PC + 1) % 65536
        SP := cpu.SP
        R := cpu.R.set r (bus.ReadByte cpu.mmu (cpu.R.H * 256 + cpu.R.L))
        mmu := cpu.mmu
        MachineCycles :=
          { m := (cpu.MachineCycles.m + 2) % 65536, t := (cpu.MachineCycles.t + 8) % 65536 }
        LastInstrCycle := { m := 0, t := 0 } } := by
  rw [← hop] at hd
  rw [← JoinBytes_eq _ _ hH hL]
  exact Step_of_Dispatch bus cpu _ hd

theorem Step_LDhl_r (bus : MMU M) (cpu : Z80 M) (r : Reg) (op : Nat)
    (hH : cpu.R.H < 256) (hL : cpu.R.L < 256)
    (hd : (cpu.IncrementPC 1).Dispatch bus op = some (Z80.LDhl_r bus (cpu.IncrementPC 1) r))
    (hop : bus.ReadByte cpu.mmu cpu.PC = op) :
    cpu.Step bus = some
      { PC := (cpu.PC + 1) % 65536
        SP := cpu.SP
        R := cpu.R
        mmu := bus.WriteByte cpu.mmu (cpu.R.H * 256 + cpu.R.L) (cpu.R.get r)
        MachineCycles :=
          { m := (cpu.MachineCycles.m + 2) % 65536, t := (cpu.MachineCycles.t + 8) % 65536 }
        LastInstrCycle := { m := 0, t := 0 } } := by
  rw [← hop] at hd
  rw [← JoinBytes_eq _ _ hH hL]
  exact Step_of_Dispatch bus cpu _ hd

theorem loadBlock_eq : loadBlock =
    [0x40, 0x41, 0x42, 0x43, 0x44, 0x45, 0x46, 0x47, 0x48, 0x49, 0x4A, 0x4B, 0x4C, 0x4D,
      0x4E, 0x4F, 0x50, 0x51, 0x52, 0x53, 0x54, 0x55, 0x56, 0x57, 0x58, 0x59, 0x5A, 0x5B,
      0x5C, 0x5D, 0x5E, 0x5F, 0x60, 0x61, 0x62, 0x63, 0x64, 0x65, 0x66, 0x67, 0x68, 0x69,
      0x6A, 0x6B, 0x6C, 0x6D, 0x6E, 0x6F, 0x70, 0x71, 0x72, 0x73, 0x74, 0x75, 0x77, 0x78,
      0x79, 0x7A, 0x7B, 0x7C, 0x7D, 0x7E, 0x7F] := by
  decide

/-- C26: for every opcode of the load block 0x40-0x7F other than 0x76, every
bus, the flat memory among them, and every state with `H` and `L` bytes, one
step on that opcode returns the state of the table-driven decoding
`tableLoad`: destination `operandTable[(op >> 3) & 7]` receives source
`operandTable[op & 7]`, read before the write, `PC` advances by 1, nothing else
in the registers changes, and the cost is (1, 4) between registers and (2, 8)
when one operand is the byte at HL. -/
theorem Step_load_block (bus : MMU M) (cpu : Z80 M) (hH : cpu.R.H < 256) (hL : cpu.R.L < 256) :
    ∀ op ∈ loadBlock, bus.ReadByte cpu.mmu cpu.PC = op →
      cpu.Step bus = some (tableLoad bus cpu op) := by
  rw [loadBlock_eq]
  simp only [List.forall_mem_cons, List.not_mem_nil, false_imp_iff, implies_true, and_true]
  refine ⟨?_, ?_, ?_, ?_, ?_, ?_, ?_, ?_, ?_, ?_, ?_, ?_, ?_, ?_, ?_, ?_, ?_, ?_, ?_, ?_, ?_,
    ?_, ?_, ?_, ?_, ?_, ?_, ?_, ?_, ?_, ?_, ?_, ?_, ?_, ?_, ?_, ?_, ?_, ?_, ?_, ?_, ?_, ?_, ?_,
    ?_, ?_, ?_, ?_, ?_, ?_, ?_, ?_, ?_, ?_, ?_, ?_, ?_, ?_, ?_, ?_, ?_, ?_, ?_⟩
  · exact Step_LDrr bus cpu .B .B 0x40 rfl
  · exact Step_LDrr bus cpu .B .C 0x41 rfl
  · exact Step_LDrr bus cpu .B .D 0x42 rfl
  · exact Step_LDrr bus cpu .B .E 0x43 rfl
  · exact Step_LDrr bus cpu .B .H 0x44 rfl
  · exact Step_LDrr bus cpu .B .L 0x45 rfl
  · exact Step_LDr_hl bus cpu .B 0x46 hH hL rfl
  · exact Step_LDrr bus cpu .B .A 0x47 rfl
  · exact Step_LDrr bus cpu .C .B 0x48 rfl
  · exact Step_LDrr bus cpu .C .C 0x49 rfl
  · exact Step_LDrr bus cpu .C .D 0x4A rfl
  · exact Step_LDrr bus cpu .C .E 0x4B rfl
  · exact Step_LDrr bus cpu .C .H 0x4C rfl
  · exact Step_LDrr bus cpu .C .L 0x4D rfl
  · exact Step_LDr_hl bus cpu .C 0x4E hH hL rfl
  · exact Step_LDrr bus cpu .C .A 0x4F rfl
  · exact Step_LDrr bus cpu .D .B 0x50 rfl
  · exact Step_LDrr bus cpu .D .C 0x51 rfl
  · exact Step_LDrr bus cpu .D .D 0x52 rfl
  · exact Step_LDrr bus cpu .D .E 0x53 rfl
  · exact Step_LDrr bus cpu .D .H 0x54 rfl
  · exact Step_LDrr bus cpu .D .L 0x55 rfl
  · exact Step_LDr_hl bus cpu .D 0x56 hH hL rfl
  · exact Step_LDrr bus cpu .D .A 0x57 rfl
  · exact Step_LDrr bus cpu .E .B 0x58 rfl
  · exact Step_LDrr bus cpu .E .C 0x59 rfl
  · exact Step_LDrr bus cpu .E .D 0x5A rfl
  · exact Step_LDrr bus cpu .E .E 0x5B rfl
  · exact Step_LDrr bus cpu .E .H 0x5C rfl
  · exact Step_LDrr bus cpu .E .L 0x5D rfl
  · exact Step_LDr_hl bus cpu .E 0x5E hH hL rfl
  · exact Step_LDrr bus cpu .E .A 0x5F rfl
  · exact Step_LDrr bus cpu .H .B 0x60 rfl
  · exact Step_LDrr bus cpu .H .C 0x61 rfl
  · exact Step_LDrr bus cpu .H .D 0x62 rfl
  · exact Step_LDrr bus cpu .H .E 0x63 rfl
  · exact Step_LDrr bus cpu .H .H 0x64 rfl
  · exact Step_LDrr bus cpu .H .L 0x65 rfl
  · exact Step_LDr_hl bus cpu .H 0x66 hH hL rfl
  · exact Step_LDrr bus cpu .H .A 0x67 rfl
  · exact Step_LDrr bus cpu .L .B 0x68 rfl
  · exact Step_LDrr bus cpu .L .C 0x69 rfl
  · exact Step_LDrr bus cpu .L .D 0x6A rfl
  · exact Step_LDrr bus cpu .L .E 0x6B rfl
  · exact Step_LDrr bus cpu .L .H 0x6C rfl
  · exact Step_LDrr bus cpu .L .L 0x6D rfl
  · exact Step_LDr_hl bus cpu .L 0x6E hH hL rfl
  · exact Step_LDrr bus cpu .L .A 0x6F rfl
  · exact Step_LDhl_r bus cpu .B 0x70 hH hL rfl
  · exact Step_LDhl_r bus cpu .C 0x71 hH hL rfl
  · exact Step_LDhl_r bus cpu .D 0x72 hH hL rfl
  · exact Step_LDhl_r bus cpu .E 0x73 hH hL rfl
  · exact Step_LDhl_r bus cpu .H 0x74 hH hL rfl
  · exact Step_LDhl_r bus cpu .L 0x75 hH hL rfl
  · exact Step_LDhl_r bus cpu .A 0x77 hH hL rfl
  · exact Step_LDrr bus cpu .A .B 0x78 rfl
  · exact Step_LDrr bus cpu .A .C 0x79 rfl
  · exact Step_LDrr bus cpu .A .D 0x7A rfl
  · exact Step_LDrr bus cpu .A .E 0x7B rfl
  · exact Step_LDrr bus cpu .A .H 0x7C rfl
  · exact Step_LDrr bus cpu .A .L 0x7D rfl
  · exact Step_LDr_hl bus cpu .A 0x7E hH hL rfl
  · exact Step_LDrr bus cpu .A .A 0x7F rfl

/-- C26 at `LD A,B` (0x78) with `B = 0x7F` over the flat memory: `A = 0x7F`,
`B = 0x7F`, `PC = 1`, clock (1, 4); and at `LD (HL),H` (0x74) with
`HL = 0x0102`, where address 0x0102 receives 0x01 at cost (2, 8). -/
theorem Step_load_block_witness :
    ((mkCPU { zeroRegisters with B := 0x7F } 0 0 (memOf [0x78])).R.H < 256 ∧
      (mkCPU { zeroRegisters with B := 0x7F } 0 0 (memOf [0x78])).R.L < 256 ∧
      0x78 ∈ loadBlock ∧
      flatBus.ReadByte (mkCPU { zeroRegisters with B := 0x7F } 0 0 (memOf [0x78])).mmu
        (mkCPU { zeroRegisters with B := 0x7F } 0 0 (memOf [0x78])).PC = 0x78) ∧
    (mkCPU { zeroRegisters with B := 0x7F } 0 0 (memOf [0x78])).Step flatBus =
      some (tableLoad flatBus (mkCPU { zeroRegisters with B := 0x7F } 0 0 (memOf [0x78])) 0x78) ∧
    ((mkCPU { zeroRegisters with B := 0x7F } 0 0 (memOf [0x78])).Step flatBus).map
      (fun s => (s.R.A, s.R.B, s.PC, s.MachineCycles.m, s.MachineCycles.t))
      = some (0x7F, 0x7F, 1, 1, 4) ∧
    ((mkCPU { zeroRegisters with H := 0x01, L := 0x02 } 0 0 (memOf [0x74])).Step flatBus).map
      (fun s => (s.mmu 0x0102, s.R.H, s.R.L, s.MachineCycles.m, s.MachineCycles.t))
      = some (0x01, 0x01, 0x02, 2, 8) :=
  ⟨⟨by decide, by decide, by decide, by decide⟩,
    Step_load_block flatBus (mkCPU { zeroRegisters with B := 0x7F } 0 0 (memOf [0x78]))
      (by decide) (by decide) 0x78 (by decide) (by decide),
    by decide, by decide⟩

/-! ## The ratio of the two clocks -/

/-- The clock bookkeeping of a step keeps `T = 4 * M` modulo 2^16 when the
added cost has `t = 4 * m`. -/
theorem clock_ratio_step (m t cm ct : Nat) (h : t = 4 * m % 65536) (hc : ct = 4 * cm) :
    (t + ct) % 65536 = 4 * ((m + cm) % 65536) % 65536 := by
  omega

/-- A successful step keeps `T = 4 * M` modulo 2^16. -/
theorem Step_ratio (bus : MMU M) (cpu s : Z80 M) (h : cpu.Step bus = some s)
    (hr : cpu.MachineCycles.t = 4 * cpu.MachineCycles.m % 65536) :
    s.MachineCycles.t = 4 * s.MachineCycles.m % 65536 := by
  obtain ⟨hmem, -⟩ := Step_some bus cpu s h
  obtain ⟨d, hd, hmc, hl, -, -⟩ := Dispatch_frame bus (cpu.IncrementPC 1) _ hmem
  rw [Step_of_Dispatch bus cpu d hd] at h
  injection h with h
  subst h
  show (d.MachineCycles.t + d.LastInstrCycle.t) % 65536 =
    4 * ((d.MachineCycles.m + d.LastInstrCycle.m) % 65536) % 65536
  rw [hmc, hl]
  exact clock_ratio_step _ _ _ _ hr (documentedCost_bounds _).1

/-- C27: in every state every implemented opcode is dispatched to an
instruction that returns and records a cost (m, t) with `t = 4 * m` and
`1 <= m <= 5`, no other opcode returns, and in every state reached from a newly
created CPU by any number of successful steps the machine-cycle clock has
`T = (4 * M) mod 2^16`. -/
theorem machine_clock_ratio (bus : MMU M) :
    (∀ (cpu : Z80 M), ∀ op ∈ implementedOpcodes, ∃ d, cpu.Dispatch bus op = some d ∧
      d.LastInstrCycle.t = 4 * d.LastInstrCycle.m ∧
      1 ≤ d.LastInstrCycle.m ∧ d.LastInstrCycle.m ≤ 5) ∧
    (∀ (cpu : Z80 M) (op : Nat), op ∉ implementedOpcodes → cpu.Dispatch bus op = none) ∧
    (∀ cpu : Z80 M, Reachable bus cpu →
      cpu.MachineCycles.t = (4 * cpu.MachineCycles.m) % 65536) := by
  refine ⟨?_, fun cpu op h => Dispatch_none bus cpu op h, ?_⟩
  · intro cpu op hop
    obtain ⟨d, hd, -, hl, -, -⟩ := Dispatch_frame bus cpu op hop
    refine ⟨d, hd, ?_⟩
    rw [hl]
    exact documentedCost_bounds op
  · intro cpu h
    induction h with
    | new m => rfl
    | @step cpu s _ _ hstep ih => exact Step_ratio bus cpu s hstep ih

/-- C27 after `LD SP,0x0004` and `POP AF`, two steps of cost (3, 12) each: the
state is reached from a new CPU and its machine-cycle clock is (6, 24). -/
theorem machine_clock_ratio_witness :
    Reachable flatBus popAFState2 ∧ popAFState2.MachineCycles = { m := 6, t := 24 } ∧
      popAFState2.MachineCycles.t = (4 * popAFState2.MachineCycles.m) % 65536 :=
  have h : Reachable flatBus popAFState2 :=
    ReachableBy.step
      (ReachableBy.step (ReachableBy.new popAFProgram) trivial
        (show (NewCPU popAFProgram).Step flatBus = some popAFState1 from rfl))
      trivial (show popAFState1.Step flatBus = some popAFState2 from rfl)
  ⟨h, by decide, (machine_clock_ratio flatBus).2.2 popAFState2 h⟩

end Gomeboycolor
